import Mathlib

/-!
# Point-of-sale client: checkout and stock handlers

A shallow embedding of the handlers of `src/App.js`, of
`src/components/InventoryManagement.js`, `AdminPanel.js`, `SalesHistory.js`,
`DailySummary.js`, `MainLayout.js`, `UserManagement.js` and `RoleManagement.js`,
of the helpers of `src/utils/helpers.js`, and of the store calls of
`CustomerManagement.js` and `ReturnManagement.js`.

* Identifiers are natural numbers (the handlers only compare them with `===`).
* Prices are exact rationals, stock levels and quantities are integers.
* A JavaScript number the client computes is an `Option ℚ`; `none` is `NaN`,
  which a request body carries as `null`.
* A handler is a `Prog`: a tree of store calls, each followed by what the
  handler does with the response.  `Prog.run` plays a handler against a store,
  one call after the other; `interleave` plays two handlers of two clients
  against one shared store; `runAll` plays a sequence of operations.
-/

namespace Projecto

/-! ## Rows -/

/-- A row of the `products` table. -/
structure Product where
  id : Nat
  name : String
  price : ℚ
  category : String
  stock : Int
  image_url : String
deriving DecidableEq, Repr

/-- A cart line: the product object it was created from, spread, and a quantity
(`{ ...productToAdd, quantity: 1 }`). -/
structure CartItem extends Product where
  quantity : Int
deriving DecidableEq, Repr

/-- The object `handleCheckout` inserts into `sales`. -/
structure NewSale where
  total_amount : ℚ
  tax_amount : ℚ
  subtotal_amount : ℚ
  sold_by : String
deriving DecidableEq, Repr

/-- A row of the `sales` table: the inserted object and the id the store gave it. -/
structure SaleRow extends NewSale where
  id : Nat
deriving DecidableEq, Repr

/-- A row of the `sale_items` table. -/
structure SaleItemRow where
  sale_id : Nat
  product_id : Nat
  product_name : String
  quantity : Int
  price_at_sale : ℚ
  total_item_price : ℚ
deriving DecidableEq, Repr

/-- A row of the `inventory_logs` table.  The two numbers are JavaScript numbers
computed by the client (`none` is `NaN`). -/
structure InventoryLog where
  product_id : Nat
  product_name : String
  change_type : String
  quantity_change : Option ℚ
  new_stock : Option ℚ
  reason : String
deriving DecidableEq, Repr

/-- The object `handleAddProduct` inserts into `products`, and the object
`handleUpdateProduct` passes to `update`. -/
structure ProductData where
  name : String
  price : Option ℚ
  category : String
  stock : Option ℚ
  image_url : String
deriving DecidableEq, Repr

/-! ## The store and the calls a handler issues -/

/-- The tables of the backend the handlers write to. -/
structure Store where
  products : List Product
  sales : List SaleRow
  sale_items : List SaleItemRow
  inventory_logs : List InventoryLog
  nextId : Nat
deriving DecidableEq, Repr

/-- The builder methods of the store's client library that follow `from(table)`. -/
inductive QueryKind where
  | select
  | insert
  | update
  | delete
deriving DecidableEq, Repr

/-- The store calls of the handlers, one constructor per query shape. -/
inductive StoreCall where
  /-- The `from('products').select('*').order('name', ...)` query. -/
  | selectProducts
  /-- The `from('sales').insert(row).select().single()` query. -/
  | insertSale (row : NewSale)
  /-- The `from('sale_items').insert(rows)` query. -/
  | insertSaleItems (rows : List SaleItemRow)
  /-- The `from('products').update({ stock }).eq('id', id)` query. -/
  | updateStock (id : Nat) (stock : Option ℚ)
  /-- The `from('products').update({ stock }).eq('id', id).select().single()` query. -/
  | updateStockSingle (id : Nat) (stock : Option ℚ)
  /-- The `from('inventory_logs').insert(row)` query. -/
  | insertLog (row : InventoryLog)
  /-- The `from('products').insert(row).select().single()` query. -/
  | insertProduct (row : ProductData)
  /-- The `from('products').update(data).eq('id', id).select().single()` query. -/
  | updateProduct (id : Nat) (data : ProductData)
  /-- The `from('products').delete().eq('id', id)` query. -/
  | deleteProduct (id : Nat)
  /-- The `from('inventory_logs').select('*').order('created_at', ...)` query,
  with `.eq('product_id', id)` when an id is given. -/
  | selectLogs (productId : Option Nat)
  /-- The `from('sale_items').select('*').eq('sale_id', id)` query. -/
  | selectSaleItems (saleId : Nat)
  /-- Any other chain `from(table)` followed by `select`, `insert`, `update` or
  `delete`: the queries on `customers`, `users`, `permissions`, `role_permissions`,
  `returns` and `return_items`, and the reads of `sales` and `sale_items` that
  filter by date or by a list of sale ids. -/
  | query (table : String) (kind : QueryKind)
deriving DecidableEq, Repr

/-- Whether a call writes to the store (the `select` queries only read). -/
def StoreCall.isWrite : StoreCall → Bool
  | .selectProducts => false
  | .selectLogs _ => false
  | .selectSaleItems _ => false
  | .query _ kind => kind != .select
  | _ => true

/-- What a store call resolves to: `{ data, error }`. -/
inductive Response where
  | error (message : String)
  | ok
  | sale (row : SaleRow)
  | product (row : Product)
  | products (rows : List Product)
  | logs (rows : List InventoryLog)
  | saleItems (rows : List SaleItemRow)
deriving DecidableEq, Repr

/-- Whether a response carries an error. -/
def Response.isError : Response → Bool
  | .error _ => true
  | _ => false

/-- A store call together with what it resolved to. -/
structure Event where
  call : StoreCall
  response : Response
deriving DecidableEq, Repr

/-- Replace the stock of every product row whose id is `id`. -/
def setStock (id : Nat) (stock : Int) (ps : List Product) : List Product :=
  ps.map fun p => if p.id = id then { p with stock := stock } else p

/-- The integer a stock column can hold: the number sent, when it is a whole number. -/
def asInteger : Option ℚ → Option Int
  | some q => if q.den = 1 then some q.num else none
  | none => none

/-- Modelled from the spec: the backend behind `utils/supabaseClient` is not part
of the sources; this is the Catalog Store, Sale Ledger and Inventory Log of the
spec, with products keyed by identifier, an integer stock, append-only sales,
sale lines and log entries.  A `single()` query fails unless exactly one row is
affected, a stock that is not a whole number and a price that is not a number are
refused, and the store itself puts no lower bound on a stock.  The four tables
held here are written through the constructors made for them: a query of the
last constructor leaves them as they are and is answered without rows, and one
that names one of them with `insert`, `update` or `delete` is refused (for
`sales`, `sale_items` and `inventory_logs` this is the append-only Sale Ledger
and Inventory Log of the spec). -/
def Store.exec (s : Store) : StoreCall → Store × Response
  | .selectProducts =>
    (s, .products (s.products.insertionSort fun a b => a.name ≤ b.name))
  | .insertSale row =>
    let saleData : SaleRow := { row with id := s.nextId }
    ({ s with sales := s.sales ++ [saleData], nextId := s.nextId + 1 }, .sale saleData)
  | .insertSaleItems rows =>
    ({ s with sale_items := s.sale_items ++ rows }, .ok)
  | .updateStock id stock =>
    match asInteger stock with
    | none => (s, .error "invalid input for column stock")
    | some v => ({ s with products := setStock id v s.products }, .ok)
  | .updateStockSingle id stock =>
    match asInteger stock with
    | none => (s, .error "invalid input for column stock")
    | some v =>
      match s.products.filter fun p => p.id = id with
      | [p] => ({ s with products := setStock id v s.products }, .product { p with stock := v })
      | _ => (s, .error "JSON object requested, multiple (or no) rows returned")
  | .insertLog row =>
    ({ s with inventory_logs := s.inventory_logs ++ [row] }, .ok)
  | .insertProduct row =>
    match row.price, asInteger row.stock with
    | some price, some stock =>
      let data : Product :=
        { id := s.nextId, name := row.name, price := price, category := row.category,
          stock := stock, image_url := row.image_url }
      ({ s with products := s.products ++ [data], nextId := s.nextId + 1 }, .product data)
    | _, _ => (s, .error "null value in a numeric column")
  | .updateProduct id data =>
    match data.price, asInteger data.stock with
    | some price, some stock =>
      match s.products.filter fun p => p.id = id with
      | [_] =>
        let row : Product :=
          { id := id, name := data.name, price := price, category := data.category,
            stock := stock, image_url := data.image_url }
        ({ s with products := s.products.map fun p => if p.id = id then row else p },
          .product row)
      | _ => (s, .error "JSON object requested, multiple (or no) rows returned")
    | _, _ => (s, .error "null value in a numeric column")
  | .deleteProduct id =>
    ({ s with products := s.products.filter fun p => p.id ≠ id }, .ok)
  | .selectLogs productId =>
    match productId with
    | none => (s, .logs s.inventory_logs.reverse)
    | some id => (s, .logs (s.inventory_logs.filter fun l => l.product_id = id).reverse)
  | .selectSaleItems saleId =>
    (s, .saleItems (s.sale_items.filter fun r => r.sale_id = saleId))
  | .query table kind =>
    (s, if table ∈ ["products", "sales", "sale_items", "inventory_logs"] ∧ kind ≠ .select then
      .error "permission denied for table" else .ok)

/-! ## Handlers as trees of store calls -/

/-- An asynchronous handler: it either finishes with a result, or issues one
store call and continues with the response. -/
inductive Prog (α : Type) where
  | done (a : α)
  | call (c : StoreCall) (k : Response → Prog α)

/-- Sequencing: run `p`, then continue with `f` on its result. -/
def Prog.bind {α β : Type} : Prog α → (α → Prog β) → Prog β
  | .done a, f => f a
  | .call c k, f => .call c fun r => (k r).bind f

/-- A failure pattern: `fail n = some msg` makes the call issued after `n`
earlier calls fail with message `msg`, without touching the store. -/
abbrev Failures := Nat → Option String

/-- The response to call `c` and the store after it, when `n` calls were issued
before it: the failure pattern decides whether the call reaches the store. -/
def respond (fail : Failures) (s : Store) (n : Nat) (c : StoreCall) : Store × Response :=
  match fail n with
  | some msg => (s, .error msg)
  | none => s.exec c

/-- Play a handler against the store, `n` calls having been issued before:
every call is answered in turn.  The result, the store at the end, and the
calls issued with their responses, in order. -/
def Prog.run {α : Type} (fail : Failures) : Prog α → Store → Nat → α × Store × List Event
  | .done a, s, _ => (a, s, [])
  | .call c k, s, n =>
    let out := (k (respond fail s n c).2).run fail (respond fail s n c).1 (n + 1)
    (out.1, out.2.1, ⟨c, (respond fail s n c).2⟩ :: out.2.2)

/-- The pattern in which no call fails. -/
def noFailure : Failures := fun _ => none

/-- Two clients against one shared store: the schedule says, step by step,
which client issues its next store call (`true` for the first client); a
client that has finished is skipped, and when the schedule is used up the
first client runs to its end, then the second.  Every event is tagged with the
client that issued it. -/
def interleave {α β : Type} (fail : Failures) :
    List Bool → Prog α → Prog β → Store → Nat → α × β × Store × List (Bool × Event)
  | [], p, q, s, n =>
    let a := p.run fail s n
    let b := q.run fail a.2.1 (n + a.2.2.length)
    (a.1, b.1, b.2.1, a.2.2.map (fun e => (true, e)) ++ b.2.2.map (fun e => (false, e)))
  | true :: sched, .call c k, q, s, n =>
    let out := interleave fail sched (k (respond fail s n c).2) q (respond fail s n c).1 (n + 1)
    (out.1, out.2.1, out.2.2.1, (true, ⟨c, (respond fail s n c).2⟩) :: out.2.2.2)
  | false :: sched, p, .call c k, s, n =>
    let out := interleave fail sched p (k (respond fail s n c).2) (respond fail s n c).1 (n + 1)
    (out.1, out.2.1, out.2.2.1, (false, ⟨c, (respond fail s n c).2⟩) :: out.2.2.2)
  | true :: sched, .done a, q, s, n => interleave fail sched (.done a) q s n
  | false :: sched, p, .done b, s, n => interleave fail sched p (.done b) s n

/-! ## JavaScript conversions of form text -/

/-- The white space `parseInt`, `parseFloat` and `Number` skip. -/
def isWhiteSpace (c : Char) : Bool :=
  c.toNat ∈ [9, 10, 11, 12, 13, 32, 160, 5760, 8232, 8233, 8239, 8287, 12288, 65279]
    || (8192 ≤ c.toNat && c.toNat ≤ 8202)

/-- The value of a decimal digit. -/
def decDigit (c : Char) : Option Nat :=
  if 48 ≤ c.toNat ∧ c.toNat ≤ 57 then some (c.toNat - 48) else none

/-- The value of a hexadecimal digit. -/
def hexDigit (c : Char) : Option Nat :=
  if 48 ≤ c.toNat ∧ c.toNat ≤ 57 then some (c.toNat - 48)
  else if 97 ≤ c.toNat ∧ c.toNat ≤ 102 then some (c.toNat - 87)
  else if 65 ≤ c.toNat ∧ c.toNat ≤ 70 then some (c.toNat - 55)
  else none

/-- The longest run of digits at the front of the text: its value in the given
radix (if there is a digit at all) and the text after it. -/
def readDigits (digit : Char → Option Nat) (radix : Nat) :
    Option Nat → List Char → Option Nat × List Char
  | acc, [] => (acc, [])
  | acc, c :: cs =>
    match digit c with
    | some d => readDigits digit radix (some (acc.getD 0 * radix + d)) cs
    | none => (acc, c :: cs)

/-- The sign at the front of the text, and the text after it. -/
def readSign : List Char → Bool × List Char
  | c :: cs => if c = Char.ofNat 45 then (true, cs) else if c = Char.ofNat 43 then (false, cs)
    else (false, c :: cs)
  | [] => (false, [])

/-- The JavaScript `parseInt(text, 10)`; `none` is `NaN`. -/
def parseInt10 (text : String) : Option Int :=
  let s := readSign (text.toList.dropWhile isWhiteSpace)
  match (readDigits decDigit 10 none s.2).1 with
  | none => none
  | some n => some (if s.1 then -(n : Int) else n)

/-- The JavaScript `parseInt(text)` with no radix: as `parseInt10`, except that
a `0x` or `0X` after the sign switches to radix 16; `none` is `NaN`. -/
def parseInt (text : String) : Option Int :=
  let s := readSign (text.toList.dropWhile isWhiteSpace)
  let v :=
    match s.2 with
    | c :: x :: cs =>
      if c = Char.ofNat 48 ∧ (x = Char.ofNat 120 ∨ x = Char.ofNat 88) then
        (readDigits hexDigit 16 none cs).1
      else (readDigits decDigit 10 none s.2).1
    | _ => (readDigits decDigit 10 none s.2).1
  match v with
  | none => none
  | some n => some (if s.1 then -(n : Int) else n)

/-- The digits at the front of the text, with their number: value, count, rest. -/
def readFraction : Nat → Nat → List Char → Nat × Nat × List Char
  | acc, n, [] => (acc, n, [])
  | acc, n, c :: cs =>
    match decDigit c with
    | some d => readFraction (acc * 10 + d) (n + 1) cs
    | none => (acc, n, c :: cs)

/-- The exponent part `e`, sign, digits at the front of the text, if there is
one: the power of ten it stands for and the text after it. -/
def readExponent : List Char → Option (ℚ × List Char)
  | c :: cs =>
    if c = Char.ofNat 101 ∨ c = Char.ofNat 69 then
      let s := readSign cs
      match readDigits decDigit 10 none s.2 with
      | (some e, rest) => some (if s.1 then (1 / 10 : ℚ) ^ e else (10 : ℚ) ^ e, rest)
      | (none, _) => none
    else none
  | [] => none

/-- An unsigned decimal literal at the front of the text: digits, an optional
fraction and an optional exponent, at least one digit before the exponent.  The
value and the text after the literal. -/
def readDecimal (cs : List Char) : Option (ℚ × List Char) :=
  let whole := readDigits decDigit 10 none cs
  let frac : Nat × Nat × List Char :=
    match whole.2 with
    | c :: rest => if c = Char.ofNat 46 then readFraction 0 0 rest else (0, 0, whole.2)
    | [] => (0, 0, [])
  if whole.1 = none ∧ frac.2.1 = 0 then none
  else
    let mantissa : ℚ := (whole.1.getD 0 : ℚ) + (frac.1 : ℚ) / (10 : ℚ) ^ frac.2.1
    match readExponent frac.2.2 with
    | some (scale, rest) => some (mantissa * scale, rest)
    | none => some (mantissa, frac.2.2)

/-- The JavaScript `parseFloat(text)`; `none` is a result a request body
carries as `null` (`NaN`, and the infinities). -/
def parseFloat (text : String) : Option ℚ :=
  let s := readSign (text.toList.dropWhile isWhiteSpace)
  match readDecimal s.2 with
  | none => none
  | some (v, _) => some (if s.1 then -v else v)

/-- Whether the whole text is a run of at least one digit. -/
def allDigits (digit : Char → Option Nat) (cs : List Char) : Bool :=
  cs ≠ [] && cs.all fun c => (digit c).isSome

/-- The JavaScript `isNaN(text)`: whether `Number(text)` is `NaN`.  White space
at both ends is dropped; empty text is the number 0; otherwise the text has to
be a signed decimal literal, a signed `Infinity`, or an unsigned hexadecimal,
octal or binary literal. -/
def isNaN (text : String) : Bool :=
  let t := ((text.toList.dropWhile isWhiteSpace).reverse.dropWhile isWhiteSpace).reverse
  let prefixed : Option Bool :=
    match t with
    | c :: x :: cs =>
      if c = Char.ofNat 48 ∧ (x = Char.ofNat 120 ∨ x = Char.ofNat 88) then
        some (allDigits hexDigit cs)
      else if c = Char.ofNat 48 ∧ (x = Char.ofNat 111 ∨ x = Char.ofNat 79) then
        some (allDigits (fun d => (decDigit d).filter (· < 8)) cs)
      else if c = Char.ofNat 48 ∧ (x = Char.ofNat 98 ∨ x = Char.ofNat 66) then
        some (allDigits (fun d => (decDigit d).filter (· < 2)) cs)
      else none
    | _ => none
  match prefixed with
  | some isNumber => !isNumber
  | none =>
    if t = [] then false
    else
      let s := readSign t
      if s.2 = "Infinity".toList then false
      else
        match readDecimal s.2 with
        | some (_, []) => false
        | _ => true

/-- Whether the text holds a `.` that is not followed by a digit. -/
def bareDot : List Char → Bool
  | c :: d :: cs => (c = Char.ofNat 46 && (decDigit d).isNone) || bareDot (d :: cs)
  | [c] => c = Char.ofNat 46
  | [] => false

/-- The number a `type="number"` field holds for its text (`valueAsNumber`).  Such
a field keeps only text that is a valid floating-point number: an optional `-`,
digits with an optional fraction or a fraction alone, and an optional exponent
(`e` or `E`, an optional sign, digits); `none` for any other text. -/
def valueAsNumber (text : String) : Option ℚ :=
  let negative : Bool := text.toList.head? = some (Char.ofNat 45)
  let body := if negative then text.toList.tail else text.toList
  if bareDot body then none
  else
    match readDecimal body with
    | some (v, []) => some (if negative then -v else v)
    | _ => none

/-- The quantity field holds the whole number `q`, typed as plain decimal
digits. -/
def typedAsDigits (text : String) (q : Int) : Prop :=
  allDigits decDigit text.toList = true ∧ valueAsNumber text = some (q : ℚ)

/-! ## The state of the `App` component -/

/-- An entry of `defaultUsers`. -/
structure User where
  username : String
  password : String
  name : String
  role : String
deriving DecidableEq, Repr

/-- The messages the `App` handlers show with `alert`, with the values they
interpolate. -/
inductive Alert where
  /-- The empty-cart message of `handleCheckout`. -/
  | emptyCart
  /-- The message "Error de stock: No hay suficiente (name). Solo quedan (available)." -/
  | stockError (name : String) (available : Int)
  /-- The message "Venta procesada con éxito". -/
  | saleDone
  /-- The message "Error al procesar la venta: (message)". -/
  | saleFailed (message : String)
  /-- The message "Producto no encontrado." -/
  | productNotFound
  /-- The message "El stock no puede ser negativo." -/
  | negativeStock
  /-- The message "Por favor, introduce una cantidad válida para el ajuste." -/
  | invalidQuantity
  /-- The message "Error al ajustar el stock: (message)". -/
  | adjustFailed (message : String)
  /-- The message "Stock ajustado con éxito." -/
  | stockAdjusted
  /-- The message "Error al añadir el producto: (message)". -/
  | addFailed (message : String)
  /-- The message "Producto añadido con éxito." -/
  | productAdded
  /-- The message "Error al actualizar el producto: (message)". -/
  | updateFailed (message : String)
  /-- The message "Producto actualizado con éxito." -/
  | productUpdated
  /-- The message "Por favor, rellena todos los campos obligatorios." -/
  | missingFields
  /-- The message "Lo siento, (name) está agotado." -/
  | outOfStock (name : String)
  /-- The message "No hay suficiente stock de (name). Solo quedan (stock)." -/
  | notEnoughStock (name : String) (stock : Int)
  /-- The message "Error al eliminar el producto: (message)". -/
  | deleteFailed (message : String)
  /-- The message "Producto eliminado con éxito." -/
  | productDeleted
deriving DecidableEq, Repr

/-- The state of `App` the handlers read and set, with the alerts shown and the
labels passed to `console.error` so far (latest last). -/
structure AppState where
  products : List Product
  cartItems : List CartItem
  showConfirmation : Bool
  currentUser : Option User
  alerts : List Alert
  console : List String
deriving DecidableEq, Repr

/-- The call `alert(a)`. -/
def AppState.alert (st : AppState) (a : Alert) : AppState :=
  { st with alerts := st.alerts ++ [a] }

/-- The call `console.error(label, ...)`. -/
def AppState.consoleError (st : AppState) (label : String) : AppState :=
  { st with console := st.console ++ [label] }

/-- The expression `products.find(p => p.id === id)`. -/
def findProduct (products : List Product) (id : Nat) : Option Product :=
  products.find? fun p => p.id = id

/-! ## `utils/helpers.js` -/

/-- The helper `calculateTotal`:
`items.reduce((sum, item) => sum + item.price * item.quantity, 0)`. -/
def calculateTotal (items : List CartItem) : ℚ :=
  items.foldl (fun sum item => sum + item.price * item.quantity) 0

/-! ## `App.handleCheckout` -/

/-- The loop "Verificar stock final antes de procesar" of `handleCheckout`: the
first cart line whose product is missing from `products` or has less stock than
the line asks for, with the stock the alert shows for it. -/
def verifyStock (products : List Product) : List CartItem → Option (CartItem × Int)
  | [] => none
  | cartItem :: rest =>
    match findProduct products cartItem.id with
    | none => some (cartItem, 0)
    | some productInStock =>
      if productInStock.stock < cartItem.quantity then some (cartItem, productInStock.stock)
      else verifyStock products rest

/-- The rows `saleItemsToInsert` of `handleCheckout`. -/
def saleItemsToInsert (saleId : Nat) (cartItems : List CartItem) : List SaleItemRow :=
  cartItems.map fun item =>
    { sale_id := saleId
      product_id := item.id
      product_name := item.name
      quantity := item.quantity
      price_at_sale := item.price
      total_item_price := item.price * item.quantity }

/-- The reason text of a sale's log rows. -/
def saleReason (saleId : Nat) : String :=
  "Venta - ID de Venta: " ++ toString saleId

/-- The log row `handleCheckout` inserts for a cart line. -/
def saleLog (saleId : Nat) (item : CartItem) (newStock : Int) : InventoryLog :=
  { product_id := item.id
    product_name := item.name
    change_type := "salida"
    quantity_change := some (item.quantity : ℚ)
    new_stock := some (newStock : ℚ)
    reason := saleReason saleId }

/-- Step 3 of `handleCheckout`, "Update product stock and log inventory
changes": the loop over the cart.  The result is the state (its console grows
when a log insert fails) and the message of the error thrown, if any. -/
def updateStockLoop (products : List Product) (saleId : Nat) :
    List CartItem → AppState → Prog (AppState × Option String)
  | [], st => .done (st, none)
  | item :: rest, st =>
    match findProduct products item.id with
    | none => .done (st, some "Cannot read properties of undefined (reading stock)")
    | some currentProduct =>
      let newStock := currentProduct.stock - item.quantity
      .call (.updateStock item.id (some (newStock : ℚ))) fun productUpdate =>
        match productUpdate with
        | .error message => .done (st, some message)
        | _ =>
          .call (.insertLog (saleLog saleId item newStock)) fun log =>
            match log with
            | .error _ =>
              updateStockLoop products saleId rest (st.consoleError "Error logging inventory:")
            | _ => updateStockLoop products saleId rest st

/-- The `catch` block of `handleCheckout`. -/
def checkoutFailed (st : AppState) (message : String) : AppState :=
  ({ st.consoleError "Error during checkout:" with showConfirmation := false }).alert
    (.saleFailed message)

/-- The end of the `try` block of `handleCheckout`: refresh the products, empty
the cart, hide the confirmation and report success. -/
def refreshAfterSale (st : AppState) : Prog AppState :=
  .call .selectProducts fun r =>
    let st1 :=
      match r with
      | .products updatedProducts => { st with products := updatedProducts }
      | .error _ => st.consoleError "Error fetching updated products:"
      | _ => st
    .done (({ st1 with cartItems := [], showConfirmation := false }).alert .saleDone)

/-- The handler `handleCheckout` of `App.js`. -/
def handleCheckout (st : AppState) : Prog AppState :=
  if st.cartItems.length = 0 then .done (st.alert .emptyCart)
  else
    match verifyStock st.products st.cartItems with
    | some (cartItem, available) => .done (st.alert (.stockError cartItem.name available))
    | none =>
      let total := calculateTotal st.cartItems
      let st1 := { st with showConfirmation := true }
      .call (.insertSale
          { total_amount := total
            tax_amount := 0
            subtotal_amount := total
            sold_by := match st.currentUser with
              | some u => u.name
              | none => "Desconocido" }) fun r =>
        match r with
        | .error message => .done (checkoutFailed st1 message)
        | .sale saleData =>
          .call (.insertSaleItems (saleItemsToInsert saleData.id st.cartItems)) fun r2 =>
            match r2 with
            | .error message => .done (checkoutFailed st1 message)
            | _ =>
              (updateStockLoop st.products saleData.id st.cartItems st1).bind fun res =>
                match res.2 with
                | some message => .done (checkoutFailed res.1 message)
                | none => refreshAfterSale res.1
        | _ => .done (checkoutFailed st1 "Cannot read properties of null (reading id)")

/-! ## Stock and catalogue handlers of `App.js` -/

/-- The expression `prevProducts.map(product => product.id === productId ? data : product)`. -/
def replaceProduct (productId : Nat) (data : Product) (products : List Product) :
    List Product :=
  products.map fun product => if product.id = productId then data else product

/-- The stock `handleAdjustStock` computes from the current stock, the kind of
adjustment and the quantity. -/
def adjustedStock (stock : ℚ) (type : String) (quantity : ℚ) : ℚ :=
  if type = "entrada" then stock + quantity
  else if type = "salida" then stock - quantity
  else if type = "ajuste" then quantity
  else stock

/-- The expression `reason || "Ajuste de stock: " + type`. -/
def adjustReason (reason type : String) : String :=
  if reason = "" then "Ajuste de stock: " ++ type else reason

/-- The handler `handleAdjustStock` of `App.js`; `quantity` is a number. -/
def App.handleAdjustStock (st : AppState) (productId : Nat) (productName type : String)
    (quantity : ℚ) (reason : String) : Prog AppState :=
  match findProduct st.products productId with
  | none => .done (st.alert .productNotFound)
  | some currentProduct =>
    let newStock := adjustedStock currentProduct.stock type quantity
    if newStock < 0 then .done (st.alert .negativeStock)
    else
      .call (.updateStockSingle productId (some newStock)) fun r =>
        match r with
        | .error message =>
          .done ((st.consoleError "Error adjusting stock:").alert (.adjustFailed message))
        | .product data =>
          let st1 := { st with products := replaceProduct productId data st.products }
          .call (.insertLog
              { product_id := productId
                product_name := productName
                change_type := type
                quantity_change := some quantity
                new_stock := some newStock
                reason := adjustReason reason type }) fun log =>
            match log with
            | .error _ =>
              .done ((st1.consoleError "Error logging stock adjustment:").alert .stockAdjusted)
            | _ => .done (st1.alert .stockAdjusted)
        | _ => .done st

/-- The handler `handleAddProduct` of `App.js`. -/
def handleAddProduct (st : AppState) (productData : ProductData) : Prog AppState :=
  .call (.insertProduct productData) fun r =>
    match r with
    | .error message =>
      .done ((st.consoleError "Error adding product:").alert (.addFailed message))
    | .product data =>
      let st1 := { st with products := st.products ++ [data] }
      .call (.insertLog
          { product_id := data.id
            product_name := data.name
            change_type := "entrada"
            quantity_change := some (data.stock : ℚ)
            new_stock := some (data.stock : ℚ)
            reason := "Producto añadido inicialmente" }) fun log =>
        match log with
        | .error _ =>
          .done ((st1.consoleError "Error logging initial product stock:").alert .productAdded)
        | _ => .done (st1.alert .productAdded)
    | _ => .done st

/-- The handler `handleUpdateProduct` of `App.js`. -/
def handleUpdateProduct (st : AppState) (productId : Nat) (updatedData : ProductData) :
    Prog AppState :=
  let oldProduct := findProduct st.products productId
  .call (.updateProduct productId updatedData) fun r =>
    match r with
    | .error message =>
      .done ((st.consoleError "Error updating product:").alert (.updateFailed message))
    | .product data =>
      let st1 := { st with products := replaceProduct productId data st.products }
      match oldProduct with
      | some old =>
        if old.stock ≠ data.stock then
          let quantityChange := data.stock - old.stock
          let changeType := if quantityChange > 0 then "entrada" else "salida"
          .call (.insertLog
              { product_id := data.id
                product_name := data.name
                change_type := changeType
                quantity_change := some ((|quantityChange| : Int) : ℚ)
                new_stock := some (data.stock : ℚ)
                reason := "Ajuste de stock manual" }) fun log =>
            match log with
            | .error _ =>
              .done ((st1.consoleError "Error logging stock update:").alert .productUpdated)
            | _ => .done (st1.alert .productUpdated)
        else .done (st1.alert .productUpdated)
      | none => .done (st1.alert .productUpdated)
    | _ => .done st

/-! ## `components/AdminPanel.js` -/

/-- A numeric field of the edit form: text typed into the input, or the number
`handleEditClick` copied from the product row. -/
inductive Field (α : Type) where
  | text (s : String)
  | number (v : α)
deriving DecidableEq, Repr

/-- The state `newProduct` of `AdminPanel`. -/
structure NewProductForm where
  name : String
  price : String
  category : String
  stock : String
  image_url : String
deriving DecidableEq, Repr

/-- The state `editedProduct` of `AdminPanel`. -/
structure EditedProductForm where
  id : Nat
  name : String
  price : Field ℚ
  category : String
  stock : Field Int
  image_url : String
deriving DecidableEq, Repr

/-- The state of `AdminPanel` its two submit handlers set. -/
structure PanelState where
  isAdding : Bool
  editingProductId : Option Nat
  newProduct : NewProductForm
  editedProduct : EditedProductForm
deriving DecidableEq, Repr

/-- The handler `handleAddSubmit` of `AdminPanel.js`, with `onAddProduct` bound to
`handleAddProduct` as `App` does. -/
def handleAddSubmit (panel : PanelState) (st : AppState) : Prog (PanelState × AppState) :=
  if panel.newProduct.name = "" ∨ panel.newProduct.price = "" ∨ panel.newProduct.category = ""
      ∨ panel.newProduct.stock = "" then
    .done (panel, st.alert .missingFields)
  else
    (handleAddProduct st
      { name := panel.newProduct.name
        price := parseFloat panel.newProduct.price
        category := panel.newProduct.category
        stock := Option.map (Int.cast : Int → ℚ) (parseInt10 panel.newProduct.stock)
        image_url := panel.newProduct.image_url }).bind fun st1 =>
      .done
        ({ panel with
            newProduct := { name := "", price := "", category := "", stock := "", image_url := "" }
            isAdding := false }, st1)

/-- The handler `handleSaveEdit` of `AdminPanel.js`, with `onUpdateProduct` bound
to `handleUpdateProduct` as `App` does. -/
def handleSaveEdit (panel : PanelState) (st : AppState) : Prog (PanelState × AppState) :=
  let noPrice : Bool :=
    match panel.editedProduct.price with
    | .text s => s = ""
    | .number v => v = 0
  if panel.editedProduct.name = "" ∨ noPrice ∨ panel.editedProduct.category = ""
      ∨ panel.editedProduct.stock = .text "" then
    .done (panel, st.alert .missingFields)
  else
    (handleUpdateProduct st panel.editedProduct.id
      { name := panel.editedProduct.name
        price := match panel.editedProduct.price with
          | .text s => parseFloat s
          | .number v => some v
        category := panel.editedProduct.category
        stock := match panel.editedProduct.stock with
          | .text s => Option.map (Int.cast : Int → ℚ) (parseInt10 s)
          | .number v => some (v : ℚ)
        image_url := panel.editedProduct.image_url }).bind fun st1 =>
      .done ({ panel with editingProductId := none }, st1)

/-! ## `components/InventoryManagement.js` -/

/-- The state `adjustmentDetails` of `InventoryManagement`; `productId` is `none`
for the empty string the form starts with. -/
structure AdjustmentDetails where
  productId : Option Nat
  productName : String
  type : String
  quantity : String
  reason : String
deriving DecidableEq, Repr

/-- The state of `InventoryManagement`, with the alerts shown and the labels
passed to `console.error` so far. -/
structure InventoryState where
  products : List Product
  inventoryLogs : List InventoryLog
  loading : Bool
  error : Option String
  selectedProductForLogs : Option Product
  showAdjustmentModal : Bool
  adjustmentDetails : AdjustmentDetails
  alerts : List Alert
  console : List String
deriving DecidableEq, Repr

/-- The call `alert(a)`. -/
def InventoryState.alert (st : InventoryState) (a : Alert) : InventoryState :=
  { st with alerts := st.alerts ++ [a] }

/-- The call `console.error(label, ...)`. -/
def InventoryState.consoleError (st : InventoryState) (label : String) : InventoryState :=
  { st with console := st.console ++ [label] }

/-- The function `fetchProducts` of `InventoryManagement.js`. -/
def fetchProducts (st : InventoryState) : Prog InventoryState :=
  let st1 := { st with loading := true, error := none }
  .call .selectProducts fun r =>
    let st2 :=
      match r with
      | .error message =>
        { st1.consoleError "Error fetching products:" with
          error := some ("Error al cargar productos: " ++ message) }
      | .products data => { st1 with products := data }
      | _ => st1
    .done { st2 with loading := false }

/-- The function `fetchInventoryLogs` of `InventoryManagement.js`; the filter is
added when a product id is passed. -/
def fetchInventoryLogs (st : InventoryState) (productId : Option Nat) : Prog InventoryState :=
  let st1 := { st with loading := true, error := none }
  .call (.selectLogs productId) fun r =>
    let st2 :=
      match r with
      | .error message =>
        { st1.consoleError "Error fetching inventory logs:" with
          error := some ("Error al cargar el historial de inventario: " ++ message) }
      | .logs data => { st1 with inventoryLogs := data }
      | _ => st1
    .done { st2 with loading := false }

/-- The comparison `x <= 0` on a number that may be `NaN` (then it is false). -/
def nonPositive : Option Int → Bool
  | some n => n ≤ 0
  | none => false

/-- The stock `InventoryManagement.handleAdjustStock` computes; `none` is `NaN`. -/
def adjustedStockParsed (stock : Int) (type : String) (parsedQuantity : Option Int) :
    Option Int :=
  if type = "entrada" then parsedQuantity.map fun q => stock + q
  else if type = "salida" then parsedQuantity.map fun q => stock - q
  else if type = "ajuste" then parsedQuantity
  else some stock

/-- The comparison `x < 0` on a number that may be `NaN` (then it is false). -/
def isNegative : Option Int → Bool
  | some n => n < 0
  | none => false

/-- The handler `handleAdjustStock` of `InventoryManagement.js`.  The two
refreshes at its end are started in the order of the source and answered in
that order. -/
def InventoryManagement.handleAdjustStock (st : InventoryState) : Prog InventoryState :=
  let d := st.adjustmentDetails
  if d.quantity = "" ∨ isNaN d.quantity ∨ nonPositive (parseInt d.quantity) then
    .done (st.alert .invalidQuantity)
  else
    match d.productId.bind fun id => findProduct st.products id with
    | none => .done (st.alert .productNotFound)
    | some currentProduct =>
      let parsedQuantity := parseInt10 d.quantity
      let newStock := adjustedStockParsed currentProduct.stock d.type parsedQuantity
      if isNegative newStock then .done (st.alert .negativeStock)
      else
        .call (.updateStockSingle currentProduct.id (Option.map (Int.cast : Int → ℚ) newStock)) fun r =>
          match r with
          | .error message =>
            .done ((st.consoleError "Error adjusting stock:").alert (.adjustFailed message))
          | _ =>
            .call (.insertLog
                { product_id := currentProduct.id
                  product_name := d.productName
                  change_type := d.type
                  quantity_change := Option.map (Int.cast : Int → ℚ) parsedQuantity
                  new_stock := Option.map (Int.cast : Int → ℚ) newStock
                  reason := adjustReason d.reason d.type }) fun log =>
              let st1 :=
                match log with
                | .error _ => st.consoleError "Error logging inventory:"
                | _ => st
              let st2 :=
                { st1 with
                  showAdjustmentModal := false
                  adjustmentDetails :=
                    { productId := none, productName := "", type := "entrada", quantity := "",
                      reason := "" } }
              (fetchProducts st2).bind fun st3 =>
                (fetchInventoryLogs st3 (st.selectedProductForLogs.map fun p => p.id)).bind
                  fun st4 => .done (st4.alert .stockAdjusted)

/-! ## Cart handlers of `App.js` -/

/-- The handler `handleRemoveItem` of `App.js`. -/
def handleRemoveItem (st : AppState) (itemId : Nat) : AppState :=
  { st with cartItems := st.cartItems.filter fun item => item.id ≠ itemId }

/-- The handler `handleAddToCart` of `App.js`. -/
def handleAddToCart (st : AppState) (productToAdd : Product) : AppState :=
  match findProduct st.products productToAdd.id with
  | none => st.alert (.outOfStock productToAdd.name)
  | some productInStock =>
    if productInStock.stock ≤ 0 then st.alert (.outOfStock productToAdd.name)
    else
      match st.cartItems.find? fun item => item.id = productToAdd.id with
      | some existingItem =>
        if existingItem.quantity + 1 > productInStock.stock then
          st.alert (.notEnoughStock productInStock.name productInStock.stock)
        else
          { st with
            cartItems := st.cartItems.map fun item =>
              if item.id = productToAdd.id then { item with quantity := item.quantity + 1 }
              else item }
      | none => { st with cartItems := st.cartItems ++ [{ toProduct := productToAdd, quantity := 1 }] }

/-- The handler `handleUpdateQuantity` of `App.js`. -/
def handleUpdateQuantity (st : AppState) (itemId : Nat) (newQuantity : Int) : AppState :=
  match findProduct st.products itemId with
  | none => st
  | some productInStock =>
    if newQuantity > productInStock.stock then
      st.alert (.notEnoughStock productInStock.name productInStock.stock)
    else if newQuantity ≤ 0 then handleRemoveItem st itemId
    else
      { st with
        cartItems := st.cartItems.map fun item =>
          if item.id = itemId then { item with quantity := newQuantity } else item }

/-- The handler `handleClearCart` of `App.js`; `confirmed` is the answer to
`window.confirm`. -/
def handleClearCart (st : AppState) (confirmed : Bool) : AppState :=
  if confirmed then { st with cartItems := [] } else st

/-- The handler `handleDeleteProduct` of `App.js`; `confirmed` is the answer to
`window.confirm`. -/
def handleDeleteProduct (st : AppState) (productId : Nat) (confirmed : Bool) : Prog AppState :=
  if confirmed then
    .call (.deleteProduct productId) fun r =>
      match r with
      | .error message =>
        .done ((st.consoleError "Error deleting product:").alert (.deleteFailed message))
      | _ =>
        .done (({ st with products := st.products.filter fun product => product.id ≠ productId }).alert
          .productDeleted)
  else .done st

/-! ## `components/SalesHistory.js` -/

/-- The function `fetchSaleItems` of `SalesHistory.js`: the list it returns, and
the labels it passes to `console.error`. -/
def fetchSaleItems (saleId : Nat) : Prog (List SaleItemRow × List String) :=
  .call (.selectSaleItems saleId) fun r =>
    match r with
    | .error _ => .done ([], ["Error fetching sale items:"])
    | .saleItems data => .done (data, [])
    | _ => .done ([], [])

/-! ## Reading a trace -/

/-- The table a call addresses. -/
def StoreCall.table : StoreCall → String
  | .selectProducts => "products"
  | .insertSale _ => "sales"
  | .insertSaleItems _ => "sale_items"
  | .updateStock _ _ => "products"
  | .updateStockSingle _ _ => "products"
  | .insertLog _ => "inventory_logs"
  | .insertProduct _ => "products"
  | .updateProduct _ _ => "products"
  | .deleteProduct _ => "products"
  | .selectLogs _ => "inventory_logs"
  | .selectSaleItems _ => "sale_items"
  | .query table _ => table

/-- The kind of query a call is. -/
def StoreCall.kind : StoreCall → QueryKind
  | .selectProducts => .select
  | .insertSale _ => .insert
  | .insertSaleItems _ => .insert
  | .updateStock _ _ => .update
  | .updateStockSingle _ _ => .update
  | .insertLog _ => .insert
  | .insertProduct _ => .insert
  | .updateProduct _ _ => .update
  | .deleteProduct _ => .delete
  | .selectLogs _ => .select
  | .selectSaleItems _ => .select
  | .query _ kind => kind

/-- The stock a call writes to a product row, if it writes one. -/
def StoreCall.stockWritten : StoreCall → Option (Option ℚ)
  | .updateStock _ stock => some stock
  | .updateStockSingle _ stock => some stock
  | .insertProduct row => some row.stock
  | .updateProduct _ data => some data.stock
  | _ => none

/-- The stock values of the stock writes of a trace, in order. -/
def stockWrites (tr : List Event) : List (Option ℚ) :=
  tr.filterMap fun e => e.call.stockWritten

/-- The stock values of the stock writes of a trace that did not fail. -/
def acceptedStocks (tr : List Event) : List (Option ℚ) :=
  tr.filterMap fun e => if e.response.isError then none else e.call.stockWritten

/-- The rows of the `inventory_logs` inserts of a trace, in order. -/
def loggedRows (tr : List Event) : List InventoryLog :=
  tr.filterMap fun e =>
    match e.call with
    | .insertLog row => some row
    | _ => none

/-- The rows of the `inventory_logs` inserts of a trace that did not fail. -/
def storedLogs (tr : List Event) : List InventoryLog :=
  tr.filterMap fun e =>
    match e.call with
    | .insertLog row => if e.response.isError then none else some row
    | _ => none

/-- The objects of the `sales` inserts of a trace. -/
def salesInserted (tr : List Event) : List NewSale :=
  tr.filterMap fun e =>
    match e.call with
    | .insertSale row => some row
    | _ => none

/-- The row lists of the `sale_items` inserts of a trace. -/
def saleItemsInserted (tr : List Event) : List (List SaleItemRow) :=
  tr.filterMap fun e =>
    match e.call with
    | .insertSaleItems rows => some rows
    | _ => none

/-- The calls of a trace that write to the store. -/
def writeCalls (tr : List Event) : List StoreCall :=
  (tr.map fun e => e.call).filter fun c => c.isWrite

/-- The stock writes of a checkout in the order its loop plans them: for each
cart line the stock update, then its log row. -/
def plannedStockWrites (products : List Product) (saleId : Nat) :
    List CartItem → List StoreCall
  | [] => []
  | item :: rest =>
    match findProduct products item.id with
    | none => []
    | some currentProduct =>
      .updateStock item.id (some ((currentProduct.stock - item.quantity : Int) : ℚ)) ::
        .insertLog (saleLog saleId item (currentProduct.stock - item.quantity)) ::
          plannedStockWrites products saleId rest

/-- The writes of a checkout in the order `handleCheckout` plans them: the sale,
its lines, then the stock writes. -/
def plannedWrites (products : List Product) (sale : NewSale) (saleId : Nat)
    (cartItems : List CartItem) : List StoreCall :=
  .insertSale sale :: .insertSaleItems (saleItemsToInsert saleId cartItems) ::
    plannedStockWrites products saleId cartItems

/-- The object `handleCheckout` inserts into `sales` for a state. -/
def saleOf (st : AppState) : NewSale :=
  { total_amount := calculateTotal st.cartItems
    tax_amount := 0
    subtotal_amount := calculateTotal st.cartItems
    sold_by := match st.currentUser with
      | some u => u.name
      | none => "Desconocido" }

/-- The store after the `sales` insert of a checkout. -/
def saleStore (s : Store) (st : AppState) : Store :=
  (s.exec (.insertSale (saleOf st))).1

/-- The store after the `sales` and the `sale_items` insert of a checkout. -/
def itemsStore (s : Store) (st : AppState) : Store :=
  ((saleStore s st).exec (.insertSaleItems (saleItemsToInsert s.nextId st.cartItems))).1

/-- The `sales` insert of a checkout, accepted. -/
def saleEvent (s : Store) (st : AppState) : Event :=
  ⟨.insertSale (saleOf st), .sale { saleOf st with id := s.nextId }⟩

/-- The `sale_items` insert of a checkout, accepted. -/
def itemsEvent (s : Store) (st : AppState) : Event :=
  ⟨.insertSaleItems (saleItemsToInsert s.nextId st.cartItems), .ok⟩

/-- The run of the stock loop of a checkout whose two inserts were accepted. -/
def loopRun (fail : Failures) (s : Store) (st : AppState) :
    (AppState × Option String) × Store × List Event :=
  (updateStockLoop st.products s.nextId st.cartItems { st with showConfirmation := true }).run
    fail (itemsStore s st) 2

/-- The stock the loop of `handleCheckout` writes for a cart line: the cached
stock of its product minus the quantity of the line. -/
def stockAfterSale (products : List Product) (item : CartItem) : Int :=
  match findProduct products item.id with
  | some currentProduct => currentProduct.stock - item.quantity
  | none => 0

/-- The store a trace leads to: every call that did not fail is applied, in
order; a failed call leaves the store alone. -/
def replay (tr : List Event) (s : Store) : Store :=
  tr.foldl (fun acc e => if e.response.isError then acc else (acc.exec e.call).1) s

/-- The message of an error response. -/
def Response.message : Response → Option String
  | .error message => some message
  | _ => none

/-! ## Sample data -/

/-- A product with stock 5 and price 2.50. -/
def cafe : Product :=
  { id := 1, name := "Cafe", price := 5 / 2, category := "Bebidas", stock := 5, image_url := "" }

/-- A second product, with stock 50. -/
def croissant : Product :=
  { id := 2, name := "Croissant", price := 9 / 5, category := "Panaderia", stock := 50,
    image_url := "" }

/-- A store holding the two sample products and nothing else. -/
def sampleStore : Store :=
  { products := [cafe, croissant], sales := [], sale_items := [], inventory_logs := [],
    nextId := 7 }

/-- The state of `App` with the two sample products cached and the given cart. -/
def sampleApp (cartItems : List CartItem) : AppState :=
  { products := [cafe, croissant], cartItems := cartItems, showConfirmation := false,
    currentUser := none, alerts := [], console := [] }

/-- The log row `App.handleAdjustStock` inserts. -/
def adjustLog (productId : Nat) (productName type : String) (quantity newStock : Option ℚ)
    (reason : String) : InventoryLog :=
  { product_id := productId
    product_name := productName
    change_type := type
    quantity_change := quantity
    new_stock := newStock
    reason := adjustReason reason type }

/-- The form state `InventoryManagement.handleAdjustStock` leaves behind when the
stock update was accepted, before the two refreshes. -/
def adjustmentClosed (st : InventoryState) (logFailed : Bool) : InventoryState :=
  { (if logFailed then st.consoleError "Error logging inventory:" else st) with
    showAdjustmentModal := false
    adjustmentDetails :=
      { productId := none, productName := "", type := "entrada", quantity := "", reason := "" } }

/-- The two refreshes at the end of `InventoryManagement.handleAdjustStock`. -/
def refreshInventory (st : InventoryState) (selected : Option Nat) : Prog InventoryState :=
  (fetchProducts st).bind fun st3 =>
    (fetchInventoryLogs st3 selected).bind fun st4 => .done (st4.alert .stockAdjusted)

/-- A product row with its price blanked: two product lists that differ only in
prices agree after this. -/
def withoutPrice (p : Product) : Product :=
  { p with price := 0 }

/-- The state of `InventoryManagement` with the two sample products loaded and
the adjustment form filled in for the first of them. -/
def sampleInventory (type quantity : String) : InventoryState :=
  { products := [cafe, croissant], inventoryLogs := [], loading := false, error := none,
    selectedProductForLogs := none, showAdjustmentModal := true,
    adjustmentDetails :=
      { productId := some 1, productName := "Cafe", type := type, quantity := quantity,
        reason := "" },
    alerts := [], console := [] }

/-- The sample store with the first product at the given stock. -/
def storeWithStock (stock : Int) : Store :=
  { sampleStore with products := [{ cafe with stock := stock }, croissant] }

/-- The state of `InventoryManagement` with the product list of `storeWithStock`
loaded and the adjustment form filled in for the first product. -/
def inventoryWithStock (stock : Int) (type quantity : String) : InventoryState :=
  { sampleInventory type quantity with products := (storeWithStock stock).products }

/-- The state of `AdminPanel` while the first sample product is edited, with the
given text in the stock field. -/
def sampleEdit (stock : String) : PanelState :=
  { isAdding := false, editingProductId := some 1,
    newProduct := { name := "", price := "", category := "", stock := "", image_url := "" },
    editedProduct :=
      { id := 1, name := "Cafe", price := .number (5 / 2), category := "Bebidas",
        stock := .text stock, image_url := "" } }

/-- The state of `AdminPanel` while a new product is entered, with the given
text in the stock field. -/
def sampleAdd (stock : String) : PanelState :=
  { isAdding := true, editingProductId := none,
    newProduct :=
      { name := "Te", price := "1.5", category := "Bebidas", stock := stock, image_url := "" },
    editedProduct :=
      { id := 0, name := "", price := .text "", category := "", stock := .text "",
        image_url := "" } }

/-- The pattern in which exactly the call with index `k` fails. -/
def failAt (k : Nat) (message : String) : Failures :=
  fun n => if n = k then some message else none

/-- The three tables that hold committed sales, their lines and the audit rows. -/
def ledgerTables : List String :=
  ["sales", "sale_items", "inventory_logs"]

/-! ## Two clients selling one product -/

/-- Every row of the product list with id `P` has stock `v` or stock `w`. -/
def stockAmong (P : Nat) (v w : Int) (ps : List Product) : Prop :=
  ∀ r ∈ ps, r.id = P → r.stock = v ∨ r.stock = w

/-- A handler that, as long as no call fails, inserts one sale (still to come
when the first flag is set), writes the stock `v` of product `P` once (still to
come when the second flag is set), issues no other call that changes `products`
or `sales`, and ends with a result for which `R` holds. -/
inductive Sells (P : Nat) (v : Int) {α : Type} (R : α → Prop) : Bool → Bool → Prog α → Prop
  | done (a : α) (h : R a) : Sells P v R false false (.done a)
  | sale (row : NewSale) (k : Response → Prog α) (u : Bool)
      (h : ∀ s : Store, Sells P v R false u (k (s.exec (.insertSale row)).2)) :
      Sells P v R true u (.call (.insertSale row) k)
  | update (k : Response → Prog α) (m : Bool)
      (h : ∀ s : Store, Sells P v R m false (k (s.exec (.updateStock P (some (v : ℚ)))).2)) :
      Sells P v R m true (.call (.updateStock P (some (v : ℚ))) k)
  | other (c : StoreCall) (k : Response → Prog α) (m u : Bool)
      (hw : c.stockWritten = none)
      (hp : ∀ s : Store, (s.exec c).1.products = s.products)
      (hs : ∀ s : Store, (s.exec c).1.sales = s.sales)
      (h : ∀ s : Store, Sells P v R m u (k (s.exec c).2)) :
      Sells P v R m u (.call c k)

/-- What two concurrent sellers of product `P` keep true of the shared store:
the `sales` table has grown by one row per sale inserted, the product ids are
those of the start, and once a stock write has happened every row of `P` holds
the stock one of the two clients wrote. -/
def SellInv (P : Nat) (S v₁ v₂ : Int) (n₀ : Nat) (ids : List Nat) (m₁ u₁ m₂ u₂ : Bool)
    (s : Store) : Prop :=
  s.sales.length + (m₁.toNat + m₂.toNat) = n₀ + 2 ∧
  s.products.map (fun r => r.id) = ids ∧
  (if u₁ && u₂ then stockAmong P S S s.products else stockAmong P v₁ v₂ s.products)

/-- A call that writes no stock, or writes one of the two stocks to product `P`. -/
def WritesOnly (P : Nat) (v₁ v₂ : Int) (c : StoreCall) : Prop :=
  c.stockWritten = none ∨ c = .updateStock P (some (v₁ : ℚ)) ∨ c = .updateStock P (some (v₂ : ℚ))

/-! ## Sequences of cart operations -/

/-- A click on the point-of-sale screen that changes the cart. -/
inductive CartAction where
  /-- The call `handleAddToCart(productToAdd)`. -/
  | add (productToAdd : Product)
  /-- The call `handleUpdateQuantity(itemId, newQuantity)`. -/
  | update (itemId : Nat) (newQuantity : Int)
  /-- The call `handleRemoveItem(itemId)`. -/
  | remove (itemId : Nat)
deriving DecidableEq, Repr

/-- The state after one cart action. -/
def cartStep (st : AppState) : CartAction → AppState
  | .add productToAdd => handleAddToCart st productToAdd
  | .update itemId newQuantity => handleUpdateQuantity st itemId newQuantity
  | .remove itemId => handleRemoveItem st itemId

/-- Every cart line is of a product of the cached list, with a quantity between
1 and the cached stock of that product, and no two lines have the same id. -/
def CartWithinStock (st : AppState) : Prop :=
  (∀ item ∈ st.cartItems, ∃ p, findProduct st.products item.id = some p ∧
    1 ≤ item.quantity ∧ item.quantity ≤ p.stock) ∧
  (st.cartItems.map fun item => item.id).Nodup

/-! ## `utils/helpers.js`: the day of a date -/

/-- The milliseconds of a day. -/
def msPerDay : Int := 86400000

/-- The number of a day of the Gregorian calendar, counted from 1 January 1970. -/
def daysFromCivil (year month day : Int) : Int :=
  let y := if month ≤ 2 then year - 1 else year
  let era := y / 400
  let yoe := y - era * 400
  let doy := (153 * (if month > 2 then month - 3 else month + 9) + 2) / 5 + day - 1
  let doe := yoe * 365 + yoe / 4 - yoe / 100 + doy
  era * 146097 + doe - 719468

/-- The year, month (1 to 12) and day of the month of a day number. -/
def civilFromDays (days : Int) : Int × Int × Int :=
  let z := days + 719468
  let era := z / 146097
  let doe := z - era * 146097
  let yoe := (doe - doe / 1460 + doe / 36524 - doe / 146096) / 365
  let doy := doe - (365 * yoe + yoe / 4 - yoe / 100)
  let mp := (5 * doy + 2) / 153
  let day := doy - (153 * mp + 2) / 5 + 1
  let month := if mp < 10 then mp + 3 else mp - 9
  (if month ≤ 2 then yoe + era * 400 + 1 else yoe + era * 400, month, day)

/-- The number of days of a month. -/
def daysInMonth (year month : Int) : Int :=
  if month = 2 then
    if year % 4 = 0 ∧ (year % 100 ≠ 0 ∨ year % 400 = 0) then 29 else 28
  else if month = 4 ∨ month = 6 ∨ month = 9 ∨ month = 11 then 30
  else 31

/-- The decimal digits of a number, padded with zeros at the front to the given
width: `String(n).padStart(width, '0')`, for `n ≥ 0`. -/
def padStart (width : Nat) (n : Int) : String :=
  let digits := Nat.toDigits 10 n.toNat
  String.mk (List.replicate (width - digits.length) (Char.ofNat 48) ++ digits)

/-- The number a run of decimal digits stands for; `none` when a character is
not a digit. -/
def digitsValue : List Char → Option Nat
  | [] => some 0
  | cs => cs.foldl (fun acc c => acc.bind fun n => (decDigit c).map fun d => n * 10 + d) (some 0)

/-- The day number of a date-only text `YYYY-MM-DD` that names a day of the
calendar; `new Date(dateString)` of such a text is midnight of that day in UTC,
`day * msPerDay`.  Other text is not modelled (`none`). -/
def parseDay (dateString : String) : Option Int :=
  match dateString.toList with
  | [y1, y2, y3, y4, s1, m1, m2, s2, d1, d2] =>
    if s1 = Char.ofNat 45 ∧ s2 = Char.ofNat 45 then
      match digitsValue [y1, y2, y3, y4], digitsValue [m1, m2], digitsValue [d1, d2] with
      | some year, some month, some day =>
        if 1 ≤ month ∧ month ≤ 12 ∧ 1 ≤ day ∧ (day : Int) ≤ daysInMonth year month then
          some (daysFromCivil year month day)
        else none
      | _, _, _ => none
    else none
  | _ => none

/-- The day number, in local time, of the instant `t` (milliseconds since the
epoch, as every `Date` holds), for a client whose clock is `offset` milliseconds
ahead of UTC (negative west of Greenwich). -/
def localDay (offset t : Int) : Int :=
  (t + offset) / msPerDay

/-- The method `getFullYear` of a `Date`. -/
def getFullYear (offset t : Int) : Int :=
  (civilFromDays (localDay offset t)).1

/-- The method `getMonth` of a `Date`: January is 0. -/
def getMonth (offset t : Int) : Int :=
  (civilFromDays (localDay offset t)).2.1 - 1

/-- The method `getDate` of a `Date`. -/
def getDate (offset t : Int) : Int :=
  (civilFromDays (localDay offset t)).2.2

/-- The method `setHours(hours, minutes, seconds, ms)` of a `Date`: the instant
of the same local day at the given local time. -/
def setHours (offset t hours minutes seconds ms : Int) : Int :=
  localDay offset t * msPerDay + (((hours * 60 + minutes) * 60 + seconds) * 1000 + ms) - offset

/-- The method `toISOString` of a `Date`, for the years 0 to 9999. -/
def toISOString (t : Int) : String :=
  let date := civilFromDays (t / msPerDay)
  let time := t % msPerDay
  padStart 4 date.1 ++ "-" ++ padStart 2 date.2.1 ++ "-" ++ padStart 2 date.2.2 ++ "T" ++
    padStart 2 (time / 3600000) ++ ":" ++ padStart 2 (time / 60000 % 60) ++ ":" ++
    padStart 2 (time / 1000 % 60) ++ "." ++ padStart 3 (time % 1000) ++ "Z"

/-- The helper `getTodayDate`, called at the instant `now`. -/
def getTodayDate (offset now : Int) : String :=
  let yyyy := getFullYear offset now
  let mm := padStart 2 (getMonth offset now + 1)
  let dd := padStart 2 (getDate offset now)
  padStart 1 yyyy ++ "-" ++ mm ++ "-" ++ dd

/-- The `Date` of `getStartOfDay` after `setHours(0, 0, 0, 0)`. -/
def startOfDay (offset : Int) (dateString : String) : Option Int :=
  (parseDay dateString).map fun day => setHours offset (day * msPerDay) 0 0 0 0

/-- The `Date` of `getEndOfDay` after `setHours(23, 59, 59, 999)`. -/
def endOfDay (offset : Int) (dateString : String) : Option Int :=
  (parseDay dateString).map fun day => setHours offset (day * msPerDay) 23 59 59 999

/-- The helper `getStartOfDay`. -/
def getStartOfDay (offset : Int) (dateString : String) : Option String :=
  (startOfDay offset dateString).map toISOString

/-- The helper `getEndOfDay`. -/
def getEndOfDay (offset : Int) (dateString : String) : Option String :=
  (endOfDay offset dateString).map toISOString

/-- The filter `.gte('created_at', startOfDay).lte('created_at', endOfDay)` of
`fetchSales`, `fetchReturns` and `fetchDailySummary`: whether a row created at
the instant `createdAt` is selected for the date. -/
def createdOn (offset : Int) (dateString : String) (createdAt : Int) : Bool :=
  match startOfDay offset dateString, endOfDay offset dateString with
  | some a, some b => a ≤ createdAt && createdAt ≤ b
  | _, _ => false

/-! ## `components/DailySummary.js`: sales by hour -/

/-- The columns `id, total_amount, created_at` of a `sales` row, as
`fetchDailySummary` selects them; `created_at` is the instant the text denotes. -/
structure SaleSummary where
  id : Nat
  total_amount : ℚ
  created_at : Int
deriving DecidableEq, Repr

/-- The method `getHours` of a `Date`: the hour of the local day. -/
def getHours (offset t : Int) : Int :=
  (t + offset) % msPerDay / 3600000

/-- The statement `array[index] += amount`, for an index within the array. -/
def addAt : Nat → ℚ → List ℚ → List ℚ
  | _, _, [] => []
  | 0, amount, a :: rest => (a + amount) :: rest
  | index + 1, amount, a :: rest => a :: addAt index amount rest

/-- The variable `totalSales` of `fetchDailySummary` after the `map` over the
sales. -/
def totalSales (salesData : List SaleSummary) : ℚ :=
  salesData.foldl (fun total s => total + s.total_amount) 0

/-- The array `salesByHour` of `fetchDailySummary` after the `forEach` over the
sales. -/
def salesByHour (offset : Int) (salesData : List SaleSummary) : List ℚ :=
  salesData.foldl
    (fun byHour sale => addAt (getHours offset sale.created_at).toNat sale.total_amount byHour)
    (List.replicate 24 0)

/-! ## `components/DailySummary.js`: top products -/

/-- The columns `product_name, quantity` of a `sale_items` row, as
`fetchDailySummary` selects them. -/
structure SoldItem where
  product_name : String
  quantity : Int
deriving DecidableEq, Repr

/-- The property names every object literal inherits from `Object.prototype`:
reading one of them from an object that has no property of its own by that name
gives the inherited function (for `__proto__`, the prototype object). -/
def objectPrototypeKeys : List String :=
  ["constructor", "hasOwnProperty", "isPrototypeOf", "propertyIsEnumerable", "toLocaleString",
    "toString", "valueOf", "__proto__", "__defineGetter__", "__defineSetter__",
    "__lookupGetter__", "__lookupSetter__"]

/-- A value stored in the object `productSales`: a number, or text (what `+`
gives when its left operand is an inherited function or text: the source text of
the function followed by the digits of the quantities, which is not a number). -/
inductive Tally where
  | number (n : Int)
  | text
deriving DecidableEq, Repr

/-- The own property `obj[name]` of an object, held as its entries in insertion
order. -/
def ownProperty (obj : List (String × Tally)) (name : String) : Option Tally :=
  (obj.find? fun e => e.1 = name).map fun e => e.2

/-- The statement
`productSales[item.product_name] = (productSales[item.product_name] || 0) + item.quantity`.
An own number `n` becomes `n + quantity` (`n || 0` is `n`, also for 0); own text
stays text.  Without an own property an inherited name reads as a function, so
text is stored, except under `__proto__`, whose setter ignores text; any other
name reads as `undefined` and the quantity is stored. -/
def tallyItem (productSales : List (String × Tally)) (item : SoldItem) :
    List (String × Tally) :=
  match ownProperty productSales item.product_name with
  | some (.number n) =>
    productSales.map fun e =>
      if e.1 = item.product_name then (e.1, .number (n + item.quantity)) else e
  | some .text => productSales
  | none =>
    if item.product_name = "__proto__" then productSales
    else if item.product_name ∈ objectPrototypeKeys then
      productSales ++ [(item.product_name, .text)]
    else productSales ++ [(item.product_name, .number item.quantity)]

/-- The object `productSales` of `fetchDailySummary` after the `forEach` over the
sale items. -/
def productSales (saleItemsData : List SoldItem) : List (String × Tally) :=
  saleItemsData.foldl tallyItem []

/-- The variable `totalItemsSold` of `fetchDailySummary` after the `forEach`. -/
def totalItemsSold (saleItemsData : List SoldItem) : Int :=
  saleItemsData.foldl (fun total item => total + item.quantity) 0

/-- The array index a property name stands for, if it is one: the decimal text,
without leading zeros, of a number below `2 ^ 32 - 1`. -/
def arrayIndex (name : String) : Option Nat :=
  let cs := name.toList
  if cs ≠ [] ∧ (cs.length = 1 ∨ cs.head? ≠ some (Char.ofNat 48)) then
    (digitsValue cs).bind fun n => if n ≤ 4294967294 then some n else none
  else none

/-- The call `Object.entries(obj)`: the properties whose names are array indices
first, by ascending index, then the others in insertion order. -/
def objectEntries (obj : List (String × Tally)) : List (String × Tally) :=
  (obj.filter fun e => (arrayIndex e.1).isSome).insertionSort
      (fun a b => (arrayIndex a.1).getD 0 ≤ (arrayIndex b.1).getD 0) ++
    obj.filter fun e => !(arrayIndex e.1).isSome

/-- The comparator `([, a], [, b]) => b - a`; `none` is `NaN`. -/
def byQuantity (a b : String × Tally) : Option Int :=
  match a.2, b.2 with
  | .number x, .number y => some (y - x)
  | _, _ => none

/-- Whether `sort` leaves `a` before `b` when `a` stood before `b`: the
comparator gives a number that is not positive, or `NaN`, which counts as 0. -/
def keepsOrder (a b : String × Tally) : Bool :=
  match byQuantity a b with
  | some d => d ≤ 0
  | none => true

/-- The array `topProducts` of `fetchDailySummary`, as (name, quantity) pairs.
The sort is stable; when a quantity is text the comparator is not an order and
the result is left to the engine (here the entries are inserted one by one,
from the back). -/
def topProducts (saleItemsData : List SoldItem) : List (String × Tally) :=
  ((objectEntries (productSales saleItemsData)).insertionSort
    fun a b => keepsOrder a b = true).take 5

/-- The sum of the quantities of the items with the given name. -/
def summedQuantity (saleItemsData : List SoldItem) (name : String) : Int :=
  ((saleItemsData.filter fun item => item.product_name = name).map fun item =>
    item.quantity).sum

/-- What the tallies hold after the items `seen`, none of which has an inherited
name: one entry per name, with the summed quantity of the name. -/
def Tallied (seen : List SoldItem) (obj : List (String × Tally)) : Prop :=
  (obj.map fun e => e.1).Nodup ∧
  ∀ e : String × Tally, e ∈ obj ↔
    e.1 ∈ seen.map (fun item => item.product_name) ∧ e.2 = .number (summedQuantity seen e.1)

/-! ## `components/MainLayout.js` and the screens of `App` -/

/-- An entry of `mainTabs` or `dropdownTabs`. -/
structure Tab where
  id : String
  name : String
  roles : List String
deriving DecidableEq, Repr

/-- The array `mainTabs` of `MainLayout`. -/
def mainTabs : List Tab :=
  [ { id := "pos", name := "Punto de Venta", roles := ["admin", "cashier"] },
    { id := "history", name := "Historial de Ventas", roles := ["admin", "cashier"] },
    { id := "returns", name := "Devoluciones", roles := ["admin"] } ]

/-- The array `dropdownTabs` of `MainLayout`. -/
def dropdownTabs : List Tab :=
  [ { id := "admin", name := "Administración", roles := ["admin"] },
    { id := "summary", name := "Resumen Diario", roles := ["admin"] },
    { id := "customers", name := "Clientes", roles := ["admin"] },
    { id := "inventory", name := "Inventario", roles := ["admin"] },
    { id := "users", name := "Usuarios", roles := ["admin"] },
    { id := "roles", name := "Roles y Permisos", roles := ["admin"] } ]

/-- The ids of the tab buttons `MainLayout` renders for a user of the given role:
the main tabs whose roles include it, and, for `admin`, the tabs of the opened
dropdown whose roles include it. -/
def offeredTabs (role : String) : List String :=
  ((mainTabs.filter fun tab => tab.roles.contains role).map fun tab => tab.id) ++
    if role = "admin" then
      (dropdownTabs.filter fun tab => tab.roles.contains role).map fun tab => tab.id
    else []

/-- The screens `App` renders inside `MainLayout` for the given `activeTab` and
role of the current user, by the id of their tab. -/
def renderedScreens (activeTab role : String) : List String :=
  (if activeTab = "pos" then ["pos"] else []) ++
  (if activeTab = "history" then ["history"] else []) ++
  (if activeTab = "returns" ∧ role = "admin" then ["returns"] else []) ++
  (if activeTab = "admin" ∧ role = "admin" then ["admin"] else []) ++
  (if activeTab = "summary" ∧ role = "admin" then ["summary"] else []) ++
  (if activeTab = "customers" ∧ role = "admin" then ["customers"] else []) ++
  (if activeTab = "inventory" ∧ role = "admin" then ["inventory"] else []) ++
  (if activeTab = "users" ∧ role = "admin" then ["users"] else []) ++
  (if activeTab = "roles" ∧ role = "admin" then ["roles"] else [])

/-! ## `components/UserManagement.js` -/

/-- A row of the `users` table. -/
structure UserRow where
  id : Nat
  username : String
  password : String
  name : String
  role : String
deriving DecidableEq, Repr

/-- The state `newUser` of `UserManagement`, which is also the object inserted. -/
structure NewUser where
  username : String
  password : String
  name : String
  role : String
deriving DecidableEq, Repr

/-- The state `editedUser` of `UserManagement`; `id` is `none` for `null`. -/
structure EditedUser where
  id : Option Nat
  username : String
  name : String
  role : String
deriving DecidableEq, Repr

/-- The state of `UserManagement` its two submit handlers read and set, with the
alerts shown and the labels passed to `console.error` so far. -/
structure UsersState where
  users : List UserRow
  isAdding : Bool
  editingUserId : Option Nat
  newUser : NewUser
  editedUser : EditedUser
  passwordError : String
  usernameError : String
  alerts : List String
  console : List String
deriving DecidableEq, Repr

/-- The two writes of `UserManagement` to `users` that end in `.select().single()`. -/
inductive UsersCall where
  /-- The `from('users').insert(newUser).select().single()` query. -/
  | insert (row : NewUser)
  /-- The `from('users').update({ username, name, role }).eq('id', id).select().single()`
  query. -/
  | update (id : Option Nat) (username name role : String)
deriving DecidableEq, Repr

/-- What such a write resolves to: `{ data, error }`. -/
inductive UsersResponse where
  | error (message : String)
  | row (data : UserRow)
deriving DecidableEq, Repr

/-- Modelled from the spec: the backend is not part of the sources; a write that
ends in `.select().single()` and succeeds resolves to the row written, which
carries the fields sent and, for an update, the id filtered on. -/
def UsersResponse.answers (r : UsersResponse) (c : UsersCall) : Prop :=
  match c, r with
  | _, .error _ => True
  | .insert sent, .row data =>
    data.username = sent.username ∧ data.password = sent.password ∧ data.name = sent.name ∧
      data.role = sent.role
  | .update id username name role, .row data =>
    some data.id = id ∧ data.username = username ∧ data.name = name ∧ data.role = role

/-- The property `length` of a string: its number of UTF-16 code units, two for
a character beyond the basic plane. -/
def utf16Length (s : String) : Nat :=
  s.toList.foldl (fun n c => n + if c.toNat < 65536 then 1 else 2) 0

/-- The function `validatePassword` of `UserManagement.js`. -/
def validatePassword (password : String) : String :=
  if utf16Length password < 6 then "La contraseña debe tener al menos 6 caracteres."
  else ""

/-- The function `validateUsername` of `UserManagement.js`; `currentUserId` is
`none` for `null`, its default. -/
def validateUsername (users : List UserRow) (username : String) (currentUserId : Option Nat) :
    String :=
  if username = "" then "El nombre de usuario no puede estar vacío."
  else
    let isDuplicate := users.any fun user => user.username = username ∧ some user.id ≠ currentUserId
    if isDuplicate then "Este nombre de usuario ya existe."
    else ""

/-- The handler `handleAddUserSubmit` of `UserManagement.js`, as a function of how
the store answers its one call: the state it leaves and the calls it issued. -/
def handleAddUserSubmit (st : UsersState) (store : UsersCall → UsersResponse) :
    UsersState × List UsersCall :=
  let passError := validatePassword st.newUser.password
  let userError := validateUsername st.users st.newUser.username none
  if passError ≠ "" ∨ userError ≠ "" then
    ({ st with passwordError := passError, usernameError := userError }, [])
  else if st.newUser.username = "" ∨ st.newUser.password = "" ∨ st.newUser.name = "" ∨
      st.newUser.role = "" then
    ({ st with
        alerts := st.alerts ++ ["Por favor, rellena todos los campos para el nuevo usuario."] },
      [])
  else
    match store (.insert st.newUser) with
    | .error message =>
      ({ st with
          console := st.console ++ ["Error adding user:"]
          alerts := st.alerts ++ ["Error al añadir el usuario: " ++ message] },
        [.insert st.newUser])
    | .row data =>
      ({ st with
          users := st.users ++ [data]
          newUser := { username := "", password := "", name := "", role := "cashier" }
          isAdding := false
          passwordError := ""
          usernameError := ""
          alerts := st.alerts ++ ["Usuario añadido con éxito."] },
        [.insert st.newUser])

/-- The handler `handleSaveEdit` of `UserManagement.js`, as a function of how the
store answers its one call: the state it leaves and the calls it issued. -/
def UserManagement.handleSaveEdit (st : UsersState) (store : UsersCall → UsersResponse) :
    UsersState × List UsersCall :=
  let userError := validateUsername st.users st.editedUser.username st.editedUser.id
  if userError ≠ "" then ({ st with usernameError := userError }, [])
  else if st.editedUser.username = "" ∨ st.editedUser.name = "" ∨ st.editedUser.role = "" then
    ({ st with
        alerts := st.alerts ++ ["Por favor, rellena todos los campos para el usuario editado."] },
      [])
  else
    let call := UsersCall.update st.editedUser.id st.editedUser.username st.editedUser.name
      st.editedUser.role
    match store call with
    | .error message =>
      ({ st with
          console := st.console ++ ["Error updating user:"]
          alerts := st.alerts ++ ["Error al actualizar el usuario: " ++ message] },
        [call])
    | .row data =>
      ({ st with
          users := st.users.map fun u => if u.id = data.id then data else u
          editingUserId := none
          usernameError := ""
          alerts := st.alerts ++ ["Usuario actualizado con éxito."] },
        [call])

/-! ## `components/RoleManagement.js` -/

/-- The own property `prev[roleName]` of the object `rolePermissions`, held as its
entries (role name, permission ids) in insertion order. -/
def ownPermissions (prev : List (String × List Nat)) (roleName : String) : Option (List Nat) :=
  (prev.find? fun e => e.1 = roleName).map fun e => e.2

/-- The object `{ ...prev, [roleName]: value }`. -/
def withRole (prev : List (String × List Nat)) (roleName : String) (value : List Nat) :
    List (String × List Nat) :=
  if prev.any fun e => e.1 = roleName then
    prev.map fun e => if e.1 = roleName then (e.1, value) else e
  else prev ++ [(roleName, value)]

/-- The updater `handleTogglePermission` passes to `setRolePermissions`; `none`
when it throws.  Without an own property a name inherited from `Object.prototype`
reads as a function, which is truthy and has no `includes`, so the call
`currentPermissions.includes(permissionId)` throws a `TypeError`; any other name
reads as `undefined` and the empty array is used. -/
def handleTogglePermission (prev : List (String × List Nat)) (roleName : String)
    (permissionId : Nat) : Option (List (String × List Nat)) :=
  let current : Option (List Nat) :=
    match ownPermissions prev roleName with
    | some permissions => some permissions
    | none => if roleName ∈ objectPrototypeKeys then none else some []
  current.map fun currentPermissions =>
    if currentPermissions.contains permissionId then
      withRole prev roleName (currentPermissions.filter fun id => id ≠ permissionId)
    else withRole prev roleName (currentPermissions ++ [permissionId])

/-- The permission ids of a role in the map: `rolePermissions[roleName] || []`, for
a role with an entry of its own or a name that is not inherited. -/
def permissionsOf (rolePermissions : List (String × List Nat)) (roleName : String) : List Nat :=
  (ownPermissions rolePermissions roleName).getD []

/-- Modelled from the spec: a backend holding the given `users` rows that accepts
every write of `UserManagement` and answers with the row written; an inserted
row gets the id `nextId`, and an update has to address exactly one row. -/
def answerWritten (table : List UserRow) (nextId : Nat) : UsersCall → UsersResponse
  | .insert sent =>
    .row { id := nextId, username := sent.username, password := sent.password,
           name := sent.name, role := sent.role }
  | .update (some id) username name role =>
    match table.filter fun u => u.id = id with
    | [old] => .row { old with username := username, name := name, role := role }
    | _ => .error "JSON object requested, multiple (or no) rows returned"
  | .update none _ _ _ => .error "JSON object requested, multiple (or no) rows returned"

/-- The state of `UserManagement` with two users loaded, the given name and
password typed into the form for a new user, and the second user being renamed
to the given name. -/
def sampleUsers (username password edited : String) : UsersState :=
  { users :=
      [ { id := 1, username := "ana", password := "secreto", name := "Ana", role := "admin" },
        { id := 2, username := "luis", password := "123456", name := "Luis", role := "cashier" } ],
    isAdding := true, editingUserId := some 2,
    newUser := { username := username, password := password, name := "Eva", role := "cashier" },
    editedUser := { id := some 2, username := edited, name := "Luis", role := "cashier" },
    passwordError := "", usernameError := "", alerts := [], console := [] }

/-! ## The remaining store calls of the client -/

/-- The function `fetchProducts` of `App.js`, run when `App` mounts; the second
component is the text of `errorProducts`. -/
def App.fetchProducts (st : AppState) : Prog (AppState × Option String) :=
  .call .selectProducts fun r =>
    match r with
    | .error message =>
      .done (st.consoleError "Error fetching products:",
        some ("Error al cargar productos: " ++ message))
    | .products data => .done ({ st with products := data }, none)
    | _ => .done (st, none)

/-- The function `fetchSales` of `SalesHistory.js`: one read of `sales` between
the two ends of the day.  The result is the error text it sets, if any; the rows
it loads are not modelled. -/
def fetchSales : Prog (Option String) :=
  .call (.query "sales" .select) fun r =>
    match r with
    | .error message => .done (some ("Error al cargar el historial de ventas: " ++ message))
    | _ => .done none

/-- The function `fetchDailySummary` of `DailySummary.js`: the read of the day's
sales, then the read of their lines; an error of either ends it.  The result is
the error text it sets, if any; the summary it computes from the rows is
`totalSales`, `salesByHour`, `totalItemsSold` and `topProducts`. -/
def fetchDailySummary : Prog (Option String) :=
  .call (.query "sales" .select) fun r =>
    match r with
    | .error message => .done (some ("Error al cargar el resumen diario: " ++ message))
    | _ =>
      .call (.query "sale_items" .select) fun r2 =>
        match r2 with
        | .error message => .done (some ("Error al cargar el resumen diario: " ++ message))
        | _ => .done none

/-- The function `fetchCustomers` of `CustomerManagement.js`; the result is the
error text it sets, if any. -/
def fetchCustomers : Prog (Option String) :=
  .call (.query "customers" .select) fun r =>
    match r with
    | .error message => .done (some ("Error al cargar clientes: " ++ message))
    | _ => .done none

/-- The handler `handleAddCustomerSubmit` of `CustomerManagement.js`, for the name
in the form; the result is the alert it shows. -/
def handleAddCustomerSubmit (name : String) : Prog String :=
  if name = "" then .done "El nombre del cliente es obligatorio."
  else
    .call (.query "customers" .insert) fun r =>
      match r with
      | .error message => .done ("Error al añadir el cliente: " ++ message)
      | _ => .done "Cliente añadido con éxito."

/-- The handler `handleSaveEdit` of `CustomerManagement.js`, for the name in the
edit form; the result is the alert it shows. -/
def CustomerManagement.handleSaveEdit (name : String) : Prog String :=
  if name = "" then .done "El nombre del cliente es obligatorio."
  else
    .call (.query "customers" .update) fun r =>
      match r with
      | .error message => .done ("Error al actualizar el cliente: " ++ message)
      | _ => .done "Cliente actualizado con éxito."

/-- The handler `handleDeleteCustomer` of `CustomerManagement.js`, with the answer
to `window.confirm`; the result is the alert it shows, if any. -/
def handleDeleteCustomer (confirmed : Bool) : Prog (Option String) :=
  if confirmed then
    .call (.query "customers" .delete) fun r =>
      match r with
      | .error message => .done (some ("Error al eliminar el cliente: " ++ message))
      | _ => .done (some "Cliente eliminado con éxito.")
  else .done none

/-- The function `fetchUsers` of `UserManagement.js`; the result is the error text
it sets, if any. -/
def fetchUsers : Prog (Option String) :=
  .call (.query "users" .select) fun r =>
    match r with
    | .error message => .done (some ("Error al cargar usuarios: " ++ message))
    | _ => .done none

/-- The handler `handleDeleteUser` of `UserManagement.js`, with the answer to
`window.confirm`; the result is the alert it shows, if any. -/
def handleDeleteUser (confirmed : Bool) : Prog (Option String) :=
  if confirmed then
    .call (.query "users" .delete) fun r =>
      match r with
      | .error message => .done (some ("Error al eliminar el usuario: " ++ message))
      | _ => .done (some "Usuario eliminado con éxito.")
  else .done none

/-- The store call behind a write of `UserManagement`. -/
def UsersCall.query : UsersCall → StoreCall
  | .insert _ => .query "users" .insert
  | .update _ _ _ _ => .query "users" .update

/-- The function `fetchRolesAndPermissions` of `RoleManagement.js`: three reads,
an error of any of them ends it.  The result is the error text it sets, if
any. -/
def fetchRolesAndPermissions : Prog (Option String) :=
  .call (.query "users" .select) fun r =>
    match r with
    | .error message => .done (some ("Error al cargar roles y permisos: " ++ message))
    | _ =>
      .call (.query "permissions" .select) fun r2 =>
        match r2 with
        | .error message => .done (some ("Error al cargar roles y permisos: " ++ message))
        | _ =>
          .call (.query "role_permissions" .select) fun r3 =>
            match r3 with
            | .error message => .done (some ("Error al cargar roles y permisos: " ++ message))
            | _ => .done none

/-- The handler `handleSaveRolePermissions` of `RoleManagement.js`: the delete of
the role's rows, then their insert when the role has permissions.  The lookup
`rolePermissions[roleName] || []` is that of `handleTogglePermission`; when it
gives a function the call of `map` throws inside the `try`.  The result is the
alert it shows. -/
def handleSaveRolePermissions (rolePermissions : List (String × List Nat)) (roleName : String) :
    Prog String :=
  .call (.query "role_permissions" .delete) fun r =>
    match r with
    | .error message => .done ("Error al guardar permisos: " ++ message)
    | _ =>
      let current : Option (List Nat) :=
        match ownPermissions rolePermissions roleName with
        | some permissions => some permissions
        | none => if roleName ∈ objectPrototypeKeys then none else some []
      match current with
      | none =>
        .done ("Error al guardar permisos: " ++
          "(rolePermissions[roleName] || []).map is not a function")
      | some permissionsToInsert =>
        if permissionsToInsert.length > 0 then
          .call (.query "role_permissions" .insert) fun r2 =>
            match r2 with
            | .error message => .done ("Error al guardar permisos: " ++ message)
            | _ => .done ("Permisos para el rol '" ++ roleName ++ "' guardados con éxito.")
        else .done ("Permisos para el rol '" ++ roleName ++ "' guardados con éxito.")

/-- The handler `handleDeleteRole` of `RoleManagement.js`, with the answer to
`window.confirm`; the result is the alert it shows, if any. -/
def handleDeleteRole (roleName : String) (confirmed : Bool) : Prog (Option String) :=
  if confirmed then
    .call (.query "role_permissions" .delete) fun r =>
      match r with
      | .error message => .done (some ("Error al eliminar el rol: " ++ message))
      | _ =>
        .call (.query "users" .update) fun r2 =>
          match r2 with
          | .error message => .done (some ("Error al eliminar el rol: " ++ message))
          | _ =>
            .done (some ("Rol '" ++ roleName ++
              "' y sus permisos eliminados. Los usuarios con este rol han sido asignados a 'cashier'."))
  else .done none

/-- The function `fetchReturns` of `ReturnManagement.js`; the result is the error
text it sets, if any. -/
def fetchReturns : Prog (Option String) :=
  .call (.query "returns" .select) fun r =>
    match r with
    | .error message =>
      .done (some ("Error al cargar el historial de devoluciones: " ++ message))
    | _ => .done none

/-- The function `fetchReturnItems` of `ReturnManagement.js`; the result is the
labels it passes to `console.error` (the rows are not modelled). -/
def fetchReturnItems : Prog (List String) :=
  .call (.query "return_items" .select) fun r =>
    match r with
    | .error _ => .done ["Error fetching return items:"]
    | _ => .done []

/-! ## Runs of the client -/

/-- The operations of the client that issue store calls, each with the state and
the arguments it is called with. -/
inductive Operation where
  | appFetchProducts (st : AppState)
  | checkout (st : AppState)
  | addProduct (st : AppState) (productData : ProductData)
  | updateProduct (st : AppState) (productId : Nat) (updatedData : ProductData)
  | deleteProduct (st : AppState) (productId : Nat) (confirmed : Bool)
  | adjustStock (st : AppState) (productId : Nat) (productName type : String) (quantity : ℚ)
      (reason : String)
  | addSubmit (panel : PanelState) (st : AppState)
  | saveEdit (panel : PanelState) (st : AppState)
  | inventoryFetchProducts (st : InventoryState)
  | inventoryFetchLogs (st : InventoryState) (productId : Option Nat)
  | inventoryAdjustStock (st : InventoryState)
  | sales
  | saleItems (saleId : Nat)
  | dailySummary
  | customers
  | addCustomer (name : String)
  | saveCustomer (name : String)
  | deleteCustomer (confirmed : Bool)
  | users
  | deleteUser (confirmed : Bool)
  | rolesAndPermissions
  | saveRolePermissions (rolePermissions : List (String × List Nat)) (roleName : String)
  | deleteRole (roleName : String) (confirmed : Bool)
  | returns
  | returnItems

/-- Forget the result of a handler. -/
def Prog.calls {α : Type} (p : Prog α) : Prog Unit :=
  p.bind fun _ => .done ()

/-- The handler an operation stands for, its result dropped. -/
def Operation.prog : Operation → Prog Unit
  | .appFetchProducts st => (App.fetchProducts st).calls
  | .checkout st => (handleCheckout st).calls
  | .addProduct st productData => (handleAddProduct st productData).calls
  | .updateProduct st productId updatedData =>
    (handleUpdateProduct st productId updatedData).calls
  | .deleteProduct st productId confirmed => (handleDeleteProduct st productId confirmed).calls
  | .adjustStock st productId productName type quantity reason =>
    (App.handleAdjustStock st productId productName type quantity reason).calls
  | .addSubmit panel st => (handleAddSubmit panel st).calls
  | .saveEdit panel st => (handleSaveEdit panel st).calls
  | .inventoryFetchProducts st => (Projecto.fetchProducts st).calls
  | .inventoryFetchLogs st productId => (fetchInventoryLogs st productId).calls
  | .inventoryAdjustStock st => (InventoryManagement.handleAdjustStock st).calls
  | .sales => fetchSales.calls
  | .saleItems saleId => (fetchSaleItems saleId).calls
  | .dailySummary => fetchDailySummary.calls
  | .customers => fetchCustomers.calls
  | .addCustomer name => (handleAddCustomerSubmit name).calls
  | .saveCustomer name => (CustomerManagement.handleSaveEdit name).calls
  | .deleteCustomer confirmed => (handleDeleteCustomer confirmed).calls
  | .users => fetchUsers.calls
  | .deleteUser confirmed => (handleDeleteUser confirmed).calls
  | .rolesAndPermissions => fetchRolesAndPermissions.calls
  | .saveRolePermissions rolePermissions roleName =>
    (handleSaveRolePermissions rolePermissions roleName).calls
  | .deleteRole roleName confirmed => (handleDeleteRole roleName confirmed).calls
  | .returns => fetchReturns.calls
  | .returnItems => fetchReturnItems.calls

/-- A run of the client: the operations are played one after the other against
the store, `n` calls having been issued before.  The store at the end and the
calls issued with their responses, in order. -/
def runAll (fail : Failures) : List Operation → Store → Nat → Store × List Event
  | [], s, _ => (s, [])
  | op :: rest, s, n =>
    let out := op.prog.run fail s n
    let more := runAll fail rest out.2.1 (n + out.2.2.length)
    (more.1, out.2.2 ++ more.2)

/-- Every call the handler can issue, whatever the store answers, satisfies `P`. -/
def Prog.Issues {α : Type} (P : StoreCall → Prop) : Prog α → Prop
  | .done _ => True
  | .call c k => P c ∧ ∀ r, (k r).Issues P

/-- A write that names `sales`, `sale_items` or `inventory_logs` is an insert. -/
def StoreCall.keepsLedger (c : StoreCall) : Prop :=
  c.table ∈ ledgerTables → c.isWrite = true → c.kind = .insert

/-! # Properties -/

/-! ## Running a handler -/

theorem Prog.run_bind {α β : Type} (fail : Failures) (p : Prog α) (f : α → Prog β)
    (s : Store) (n : Nat) :
    (p.bind f).run fail s n =
      (((f (p.run fail s n).1).run fail (p.run fail s n).2.1 (n + (p.run fail s n).2.2.length)).1,
        ((f (p.run fail s n).1).run fail (p.run fail s n).2.1 (n + (p.run fail s n).2.2.length)).2.1,
        (p.run fail s n).2.2 ++
          ((f (p.run fail s n).1).run fail (p.run fail s n).2.1
            (n + (p.run fail s n).2.2.length)).2.2) := by
  induction p generalizing s n with
  | done a => simp [Prog.bind, Prog.run]
  | call c k ih =>
    simp only [Prog.bind, Prog.run, ih, List.length_cons, List.cons_append]
    have h : ∀ m : Nat, n + 1 + m = n + (m + 1) := fun m => by omega
    simp only [h]

theorem Prog.run_call {α : Type} (fail : Failures) (c : StoreCall) (k : Response → Prog α)
    (s : Store) (n : Nat) :
    (Prog.call c k).run fail s n =
      (((k (respond fail s n c).2).run fail (respond fail s n c).1 (n + 1)).1,
        ((k (respond fail s n c).2).run fail (respond fail s n c).1 (n + 1)).2.1,
        ⟨c, (respond fail s n c).2⟩ ::
          ((k (respond fail s n c).2).run fail (respond fail s n c).1 (n + 1)).2.2) := rfl

theorem respond_noFailure (s : Store) (n : Nat) (c : StoreCall) :
    respond noFailure s n c = s.exec c := rfl

theorem respond_of_fail {fail : Failures} {n : Nat} {msg : String} (h : fail n = some msg)
    (s : Store) (c : StoreCall) : respond fail s n c = (s, .error msg) := by
  simp [respond, h]

theorem respond_of_ok {fail : Failures} {n : Nat} (h : fail n = none)
    (s : Store) (c : StoreCall) : respond fail s n c = s.exec c := by
  simp [respond, h]

/-! ## The stock check of `handleCheckout` -/

theorem verifyStock_append_short (products : List Product) (pre : List CartItem)
    (item : CartItem) (post : List CartItem)
    (hpre : ∀ x ∈ pre, ∃ p, findProduct products x.id = some p ∧ x.quantity ≤ p.stock)
    (hshort : findProduct products item.id = none ∨
      ∃ p, findProduct products item.id = some p ∧ p.stock < item.quantity) :
    verifyStock products (pre ++ item :: post) =
      some (item, (findProduct products item.id).elim 0 fun p => p.stock) := by
  induction pre with
  | nil =>
    rcases hshort with h | ⟨p, h, hlt⟩
    · simp [verifyStock, h]
    · simp [verifyStock, h, hlt]
  | cons x rest ih =>
    obtain ⟨p, hp, hle⟩ := hpre x (List.mem_cons_self _ _)
    have hnot : ¬ p.stock < x.quantity := not_lt.mpr hle
    simp only [List.cons_append, verifyStock, hp, hnot, if_false]
    exact ih fun y hy => hpre y (List.mem_cons_of_mem _ hy)

theorem verifyStock_eq_none_iff (products : List Product) (cart : List CartItem) :
    verifyStock products cart = none ↔
      ∀ x ∈ cart, ∃ p, findProduct products x.id = some p ∧ x.quantity ≤ p.stock := by
  induction cart with
  | nil => simp [verifyStock]
  | cons x rest ih =>
    cases hf : findProduct products x.id with
    | none => simp [verifyStock, hf]
    | some p =>
      by_cases hlt : p.stock < x.quantity
      · simp [verifyStock, hf, hlt]
      · simp [verifyStock, hf, hlt, ih, not_lt.mp hlt]

/-- C13: `handleCheckout` on an empty cart shows the empty-cart alert, issues no
store call (the trace is empty, the store is the one it started with) and
changes nothing else of the state: cart, cached products and confirmation flag
are what they were. -/
theorem handleCheckout_empty_cart (fail : Failures) (st : AppState) (s : Store)
    (hempty : st.cartItems = []) :
    (handleCheckout st).run fail s 0 = (st.alert .emptyCart, s, []) ∧
      (st.alert .emptyCart).cartItems = st.cartItems ∧
      (st.alert .emptyCart).products = st.products ∧
      (st.alert .emptyCart).showConfirmation = st.showConfirmation := by
  simp [handleCheckout, hempty, Prog.run, AppState.alert]

/-- The empty cart against the sample store, for `handleCheckout_empty_cart`. -/
theorem handleCheckout_empty_cart_witness :
    (sampleApp []).cartItems = [] ∧
      ((handleCheckout (sampleApp [])).run noFailure sampleStore 0 =
          ((sampleApp []).alert .emptyCart, sampleStore, []) ∧
        ((sampleApp []).alert .emptyCart).cartItems = (sampleApp []).cartItems ∧
        ((sampleApp []).alert .emptyCart).products = (sampleApp []).products ∧
        ((sampleApp []).alert .emptyCart).showConfirmation = (sampleApp []).showConfirmation) :=
  ⟨rfl, handleCheckout_empty_cart noFailure (sampleApp []) sampleStore rfl⟩

/-- C2: when the cart holds a line whose product is missing from the cached
product list or has less stock than the line asks for, and every line before it
is covered, `handleCheckout` issues no store call, leaves the store, the cart and
the product list as they were, and alerts with that line's name and its
available stock (0 when the product is missing). -/
theorem handleCheckout_insufficient_stock (fail : Failures) (st : AppState) (s : Store)
    (pre : List CartItem) (item : CartItem) (post : List CartItem)
    (hcart : st.cartItems = pre ++ item :: post)
    (hpre : ∀ x ∈ pre, ∃ p, findProduct st.products x.id = some p ∧ x.quantity ≤ p.stock)
    (hshort : findProduct st.products item.id = none ∨
      ∃ p, findProduct st.products item.id = some p ∧ p.stock < item.quantity) :
    (handleCheckout st).run fail s 0 =
        ({ st with
            alerts := st.alerts ++
              [.stockError item.name ((findProduct st.products item.id).elim 0 fun p => p.stock)] },
          s, []) := by
  have hv := verifyStock_append_short st.products pre item post hpre hshort
  rw [← hcart] at hv
  have hlen : st.cartItems.length ≠ 0 := by simp [hcart]
  simp [handleCheckout, hlen, hv, Prog.run, AppState.alert]

/-- One line of quantity 10 against a cached stock of 5: rejected, 5 reported. -/
theorem handleCheckout_insufficient_stock_witness :
    (sampleApp [⟨cafe, 10⟩]).cartItems = [] ++ (⟨cafe, 10⟩ : CartItem) :: [] ∧
      (∀ x ∈ ([] : List CartItem),
        ∃ p, findProduct (sampleApp [⟨cafe, 10⟩]).products x.id = some p ∧ x.quantity ≤ p.stock) ∧
      (findProduct (sampleApp [⟨cafe, 10⟩]).products (⟨cafe, 10⟩ : CartItem).id = none ∨
        ∃ p, findProduct (sampleApp [⟨cafe, 10⟩]).products (⟨cafe, 10⟩ : CartItem).id = some p ∧
          p.stock < (⟨cafe, 10⟩ : CartItem).quantity) ∧
      (handleCheckout (sampleApp [⟨cafe, 10⟩])).run noFailure sampleStore 0 =
        ({ sampleApp [⟨cafe, 10⟩] with
            alerts := (sampleApp [⟨cafe, 10⟩]).alerts ++
              [.stockError (⟨cafe, 10⟩ : CartItem).name
                ((findProduct (sampleApp [⟨cafe, 10⟩]).products (⟨cafe, 10⟩ : CartItem).id).elim 0
                  fun p => p.stock)] },
          sampleStore, []) :=
  ⟨rfl, fun _ hx => absurd hx (List.not_mem_nil _), Or.inr ⟨cafe, rfl, by decide⟩,
    handleCheckout_insufficient_stock noFailure (sampleApp [⟨cafe, 10⟩]) sampleStore []
      ⟨cafe, 10⟩ [] rfl (fun _ hx => absurd hx (List.not_mem_nil _))
      (Or.inr ⟨cafe, rfl, by decide⟩)⟩

/-! ## The store after a run -/

theorem exec_error_store (s : Store) (c : StoreCall) (h : (s.exec c).2.isError = true) :
    (s.exec c).1 = s := by
  cases c with
  | updateStock id stock =>
    revert h; simp only [Store.exec]; cases asInteger stock <;> simp [Response.isError]
  | updateStockSingle id stock =>
    revert h; simp only [Store.exec]
    cases asInteger stock with
    | none => simp
    | some v =>
      simp only
      split <;> simp [Response.isError]
  | insertProduct row =>
    revert h; simp only [Store.exec]
    split <;> simp [Response.isError]
  | updateProduct id data =>
    revert h; simp only [Store.exec]
    split
    · split <;> simp [Response.isError]
    · simp
  | selectLogs productId => cases productId <;> simp [Store.exec]
  | _ => simp_all [Store.exec, Response.isError]

theorem respond_error_store (fail : Failures) (s : Store) (n : Nat) (c : StoreCall)
    (h : (respond fail s n c).2.isError = true) : (respond fail s n c).1 = s := by
  unfold respond at h ⊢
  cases hf : fail n with
  | some msg => simp
  | none => rw [hf] at h; exact exec_error_store s c h

theorem respond_ok_store (fail : Failures) (s : Store) (n : Nat) (c : StoreCall)
    (h : (respond fail s n c).2.isError = false) :
    (respond fail s n c).1 = (s.exec c).1 ∧ (respond fail s n c).2 = (s.exec c).2 := by
  unfold respond at h ⊢
  cases hf : fail n with
  | some msg => rw [hf] at h; simp [Response.isError] at h
  | none => simp

theorem replay_cons (e : Event) (tr : List Event) (s : Store) :
    replay (e :: tr) s =
      replay tr (if e.response.isError then s else (s.exec e.call).1) := rfl

theorem replay_append (tr₁ tr₂ : List Event) (s : Store) :
    replay (tr₁ ++ tr₂) s = replay tr₂ (replay tr₁ s) := by
  simp [replay, List.foldl_append]

/-- The store at the end of a run is the store at its start with every call that
did not fail applied: a handler cannot undo a write except by another call. -/
theorem Prog.run_store_eq_replay {α : Type} (fail : Failures) (p : Prog α) (s : Store)
    (n : Nat) : (p.run fail s n).2.1 = replay (p.run fail s n).2.2 s := by
  induction p generalizing s n with
  | done a => rfl
  | call c k ih =>
    simp only [Prog.run, replay_cons]
    rw [ih]
    congr 1
    cases h : (respond fail s n c).2.isError
    · simp [(respond_ok_store fail s n c h).1]
    · simp [respond_error_store fail s n c h]

/-! ## The stock loop of `handleCheckout` -/

theorem isError_eq_true_iff (r : Response) : r.isError = true ↔ ∃ msg, r = .error msg := by
  cases r <;> simp [Response.isError]

theorem updateStockLoop_run_missing (fail : Failures) (products : List Product) (saleId : Nat)
    (item : CartItem) (rest : List CartItem) (st : AppState) (s : Store) (n : Nat)
    (h : findProduct products item.id = none) :
    (updateStockLoop products saleId (item :: rest) st).run fail s n =
      ((st, some "Cannot read properties of undefined (reading stock)"), s, []) := by
  simp [updateStockLoop, h, Prog.run]

theorem updateStockLoop_run_fail (fail : Failures) (products : List Product) (saleId : Nat)
    (item : CartItem) (rest : List CartItem) (st : AppState) (s : Store) (n : Nat)
    (p : Product) (h : findProduct products item.id = some p) (msg : String)
    (hr : (respond fail s n
      (.updateStock item.id (some ((p.stock - item.quantity : Int) : ℚ)))).2 = .error msg) :
    (updateStockLoop products saleId (item :: rest) st).run fail s n =
      ((st, some msg), s,
        [⟨.updateStock item.id (some ((p.stock - item.quantity : Int) : ℚ)), .error msg⟩]) := by
  have hs := respond_error_store fail s n
    (.updateStock item.id (some ((p.stock - item.quantity : Int) : ℚ)))
    (by rw [hr]; rfl)
  simp only [updateStockLoop, h, Prog.run, hr, hs]

theorem updateStockLoop_run_ok (fail : Failures) (products : List Product) (saleId : Nat)
    (item : CartItem) (rest : List CartItem) (st : AppState) (s : Store) (n : Nat)
    (p : Product) (h : findProduct products item.id = some p)
    (hr : (respond fail s n
      (.updateStock item.id (some ((p.stock - item.quantity : Int) : ℚ)))).2.isError = false) :
    (updateStockLoop products saleId (item :: rest) st).run fail s n =
      (((updateStockLoop products saleId rest
            (if (respond fail
                  (respond fail s n
                    (.updateStock item.id (some ((p.stock - item.quantity : Int) : ℚ)))).1 (n + 1)
                  (.insertLog (saleLog saleId item (p.stock - item.quantity)))).2.isError
              then st.consoleError "Error logging inventory:" else st)).run fail
          (respond fail
            (respond fail s n
              (.updateStock item.id (some ((p.stock - item.quantity : Int) : ℚ)))).1 (n + 1)
            (.insertLog (saleLog saleId item (p.stock - item.quantity)))).1 (n + 2)).1,
        ((updateStockLoop products saleId rest
            (if (respond fail
                  (respond fail s n
                    (.updateStock item.id (some ((p.stock - item.quantity : Int) : ℚ)))).1 (n + 1)
                  (.insertLog (saleLog saleId item (p.stock - item.quantity)))).2.isError
              then st.consoleError "Error logging inventory:" else st)).run fail
          (respond fail
            (respond fail s n
              (.updateStock item.id (some ((p.stock - item.quantity : Int) : ℚ)))).1 (n + 1)
            (.insertLog (saleLog saleId item (p.stock - item.quantity)))).1 (n + 2)).2.1,
        ⟨.updateStock item.id (some ((p.stock - item.quantity : Int) : ℚ)),
            (respond fail s n
              (.updateStock item.id (some ((p.stock - item.quantity : Int) : ℚ)))).2⟩ ::
          ⟨.insertLog (saleLog saleId item (p.stock - item.quantity)),
            (respond fail
              (respond fail s n
                (.updateStock item.id (some ((p.stock - item.quantity : Int) : ℚ)))).1 (n + 1)
              (.insertLog (saleLog saleId item (p.stock - item.quantity)))).2⟩ ::
          ((updateStockLoop products saleId rest
            (if (respond fail
                  (respond fail s n
                    (.updateStock item.id (some ((p.stock - item.quantity : Int) : ℚ)))).1 (n + 1)
                  (.insertLog (saleLog saleId item (p.stock - item.quantity)))).2.isError
              then st.consoleError "Error logging inventory:" else st)).run fail
          (respond fail
            (respond fail s n
              (.updateStock item.id (some ((p.stock - item.quantity : Int) : ℚ)))).1 (n + 1)
            (.insertLog (saleLog saleId item (p.stock - item.quantity)))).1 (n + 2)).2.2) := by
  simp only [updateStockLoop, h, Prog.run]
  generalize respond fail s n
    (.updateStock item.id (some ((p.stock - item.quantity : Int) : ℚ))) = r1 at hr ⊢
  obtain ⟨s1, resp1⟩ := r1
  cases resp1 <;> first
    | (simp [Response.isError] at hr; done)
    | (simp only [Prog.run]
       generalize respond fail s1 (n + 1)
         (.insertLog (saleLog saleId item (p.stock - item.quantity))) = r2
       obtain ⟨s2, resp2⟩ := r2
       cases resp2 <;> rfl)

/-- The loop only adds to the console: cart, products, alerts and flags of the
state it returns are those it was given. -/
theorem updateStockLoop_state (fail : Failures) (products : List Product) (saleId : Nat)
    (items : List CartItem) (st : AppState) (s : Store) (n : Nat) :
    ((updateStockLoop products saleId items st).run fail s n).1.1.cartItems = st.cartItems ∧
    ((updateStockLoop products saleId items st).run fail s n).1.1.products = st.products ∧
    ((updateStockLoop products saleId items st).run fail s n).1.1.alerts = st.alerts ∧
    ((updateStockLoop products saleId items st).run fail s n).1.1.showConfirmation =
      st.showConfirmation := by
  induction items generalizing st s n with
  | nil => simp [updateStockLoop, Prog.run]
  | cons item rest ih =>
    cases hf : findProduct products item.id with
    | none => simp [updateStockLoop_run_missing fail products saleId item rest st s n hf]
    | some p =>
      cases hr : (respond fail s n
        (.updateStock item.id (some ((p.stock - item.quantity : Int) : ℚ)))).2.isError with
      | true =>
        obtain ⟨msg, hmsg⟩ := (isError_eq_true_iff _).1 hr
        simp [updateStockLoop_run_fail fail products saleId item rest st s n p hf msg hmsg]
      | false =>
        rw [updateStockLoop_run_ok fail products saleId item rest st s n p hf hr]
        refine ⟨(ih _ _ _).1.trans ?_, (ih _ _ _).2.1.trans ?_, (ih _ _ _).2.2.1.trans ?_,
          (ih _ _ _).2.2.2.trans ?_⟩ <;> split <;> rfl

/-- The calls of the loop are an initial segment of the planned stock writes,
and all of them when the loop ends without an error. -/
theorem updateStockLoop_calls (fail : Failures) (products : List Product) (saleId : Nat)
    (items : List CartItem) (st : AppState) (s : Store) (n : Nat) :
    (((updateStockLoop products saleId items st).run fail s n).2.2.map fun e => e.call) <+:
        plannedStockWrites products saleId items ∧
      (((updateStockLoop products saleId items st).run fail s n).1.2 = none →
        (((updateStockLoop products saleId items st).run fail s n).2.2.map fun e => e.call) =
          plannedStockWrites products saleId items) := by
  induction items generalizing st s n with
  | nil => simp [updateStockLoop, Prog.run, plannedStockWrites]
  | cons item rest ih =>
    cases hf : findProduct products item.id with
    | none =>
      simp [updateStockLoop_run_missing fail products saleId item rest st s n hf,
        plannedStockWrites, hf]
    | some p =>
      cases hr : (respond fail s n
        (.updateStock item.id (some ((p.stock - item.quantity : Int) : ℚ)))).2.isError with
      | true =>
        obtain ⟨msg, hmsg⟩ := (isError_eq_true_iff _).1 hr
        rw [updateStockLoop_run_fail fail products saleId item rest st s n p hf msg hmsg]
        simp only [plannedStockWrites, hf, List.map_cons, List.map_nil]
        exact ⟨⟨_, rfl⟩, fun h => by simp at h⟩
      | false =>
        rw [updateStockLoop_run_ok fail products saleId item rest st s n p hf hr]
        simp only [plannedStockWrites, hf, List.map_cons, List.cons_prefix_cons, true_and,
          List.cons.injEq]
        exact ⟨(ih _ _ _).1, fun h => (ih _ _ _).2 h⟩

/-- A stock update of the loop that fails is its last call, and the loop ends
with the message of that failure. -/
theorem updateStockLoop_failure_last (fail : Failures) (products : List Product) (saleId : Nat)
    (items : List CartItem) (st : AppState) (s : Store) (n : Nat)
    (pre : List Event) (e : Event) (post : List Event) (msg : String)
    (htr : ((updateStockLoop products saleId items st).run fail s n).2.2 = pre ++ e :: post)
    (herr : e.response = .error msg) (hcall : ∃ id v, e.call = .updateStock id v) :
    post = [] ∧ ((updateStockLoop products saleId items st).run fail s n).1.2 = some msg := by
  induction items generalizing st s n pre with
  | nil => simp [updateStockLoop, Prog.run] at htr
  | cons item rest ih =>
    cases hf : findProduct products item.id with
    | none =>
      simp [updateStockLoop_run_missing fail products saleId item rest st s n hf] at htr
    | some p =>
      cases hr : (respond fail s n
        (.updateStock item.id (some ((p.stock - item.quantity : Int) : ℚ)))).2.isError with
      | true =>
        obtain ⟨m, hm⟩ := (isError_eq_true_iff _).1 hr
        rw [updateStockLoop_run_fail fail products saleId item rest st s n p hf m hm] at htr ⊢
        simp only at htr
        cases pre with
        | nil =>
          simp only [List.nil_append, List.cons.injEq] at htr
          obtain ⟨he, hpost⟩ := htr
          subst he
          simp only [Response.error.injEq] at herr
          exact ⟨hpost.symm, by simp [herr]⟩
        | cons a pre' =>
          simp only [List.cons_append, List.cons.injEq] at htr
          exact absurd htr.2 (by simp)
      | false =>
        rw [updateStockLoop_run_ok fail products saleId item rest st s n p hf hr] at htr ⊢
        simp only at htr
        cases pre with
        | nil =>
          simp only [List.nil_append, List.cons.injEq] at htr
          obtain ⟨he, _⟩ := htr
          subst he
          simp only at herr
          rw [herr] at hr
          simp [Response.isError] at hr
        | cons a pre' =>
          cases pre' with
          | nil =>
            simp only [List.cons_append, List.nil_append, List.cons.injEq] at htr
            obtain ⟨_, he, _⟩ := htr
            subst he
            obtain ⟨id, v, hc⟩ := hcall
            simp at hc
          | cons b pre'' =>
            simp only [List.cons_append, List.cons.injEq] at htr
            exact ih _ _ _ pre'' htr.2.2

/-- When every cart line has its product in the list and no stock update of the
loop fails, the loop ends without an error. -/
theorem updateStockLoop_no_error (fail : Failures) (products : List Product) (saleId : Nat)
    (items : List CartItem) (st : AppState) (s : Store) (n : Nat)
    (hfound : ∀ x ∈ items, ∃ p, findProduct products x.id = some p)
    (hok : ∀ e ∈ ((updateStockLoop products saleId items st).run fail s n).2.2,
      (∃ id v, e.call = .updateStock id v) → e.response.isError = false) :
    ((updateStockLoop products saleId items st).run fail s n).1.2 = none := by
  induction items generalizing st s n with
  | nil => simp [updateStockLoop, Prog.run]
  | cons item rest ih =>
    obtain ⟨p, hf⟩ := hfound item (List.mem_cons_self _ _)
    cases hr : (respond fail s n
      (.updateStock item.id (some ((p.stock - item.quantity : Int) : ℚ)))).2.isError with
    | true =>
      obtain ⟨m, hm⟩ := (isError_eq_true_iff _).1 hr
      rw [updateStockLoop_run_fail fail products saleId item rest st s n p hf m hm] at hok
      have := hok _ (List.mem_singleton_self _) ⟨_, _, rfl⟩
      simp [Response.isError] at this
    | false =>
      rw [updateStockLoop_run_ok fail products saleId item rest st s n p hf hr] at hok ⊢
      exact ih _ _ _ (fun x hx => hfound x (List.mem_cons_of_mem _ hx))
        (fun e he => hok e (List.mem_cons_of_mem _ (List.mem_cons_of_mem _ he)))

/-! ## The stages of `handleCheckout` -/

theorem handleCheckout_valid (st : AppState) (hne : st.cartItems ≠ [])
    (hv : verifyStock st.products st.cartItems = none) :
    handleCheckout st =
      .call (.insertSale (saleOf st)) fun r =>
        match r with
        | .error message => .done (checkoutFailed { st with showConfirmation := true } message)
        | .sale saleData =>
          .call (.insertSaleItems (saleItemsToInsert saleData.id st.cartItems)) fun r2 =>
            match r2 with
            | .error message =>
              .done (checkoutFailed { st with showConfirmation := true } message)
            | _ =>
              (updateStockLoop st.products saleData.id st.cartItems
                { st with showConfirmation := true }).bind fun res =>
                match res.2 with
                | some message => .done (checkoutFailed res.1 message)
                | none => refreshAfterSale res.1
        | _ => .done (checkoutFailed { st with showConfirmation := true }
            "Cannot read properties of null (reading id)") := by
  have hlen : st.cartItems.length ≠ 0 := by
    simpa [List.length_eq_zero] using hne
  simp only [handleCheckout, hlen, if_false, hv]
  rfl

theorem refreshAfterSale_run (fail : Failures) (st : AppState) (s : Store) (n : Nat) :
    ((refreshAfterSale st).run fail s n).2.1 = (respond fail s n .selectProducts).1 ∧
    ((refreshAfterSale st).run fail s n).2.2 =
      [⟨.selectProducts, (respond fail s n .selectProducts).2⟩] ∧
    ((refreshAfterSale st).run fail s n).1.cartItems = [] ∧
    ((refreshAfterSale st).run fail s n).1.alerts = st.alerts ++ [.saleDone] ∧
    ((refreshAfterSale st).run fail s n).1.showConfirmation = false ∧
    (∀ ps, (respond fail s n .selectProducts).2 = .products ps →
      ((refreshAfterSale st).run fail s n).1.products = ps) := by
  simp only [refreshAfterSale, Prog.run]
  generalize (respond fail s n .selectProducts) = r
  obtain ⟨s', resp⟩ := r
  cases resp <;> simp [AppState.alert, AppState.consoleError]

theorem respond_selectProducts_store (fail : Failures) (s : Store) (n : Nat) :
    (respond fail s n .selectProducts).1 = s := by
  unfold respond
  cases fail n <;> rfl

theorem handleCheckout_run_sale_failed (fail : Failures) (st : AppState) (s : Store)
    (hne : st.cartItems ≠ []) (hv : verifyStock st.products st.cartItems = none)
    (msg : String) (h0 : fail 0 = some msg) :
    (handleCheckout st).run fail s 0 =
      (checkoutFailed { st with showConfirmation := true } msg, s,
        [⟨.insertSale (saleOf st), .error msg⟩]) := by
  rw [handleCheckout_valid st hne hv]
  simp only [Prog.run, respond_of_fail h0]

theorem handleCheckout_run_items_failed (fail : Failures) (st : AppState) (s : Store)
    (hne : st.cartItems ≠ []) (hv : verifyStock st.products st.cartItems = none)
    (h0 : fail 0 = none) (msg : String) (h1 : fail 1 = some msg) :
    (handleCheckout st).run fail s 0 =
      (checkoutFailed { st with showConfirmation := true } msg, saleStore s st,
        [saleEvent s st,
          ⟨.insertSaleItems (saleItemsToInsert s.nextId st.cartItems), .error msg⟩]) := by
  rw [handleCheckout_valid st hne hv]
  simp only [Prog.run, respond_of_ok h0, Store.exec, respond_of_fail h1]
  rfl

theorem handleCheckout_run_loop_failed (fail : Failures) (st : AppState) (s : Store)
    (hne : st.cartItems ≠ []) (hv : verifyStock st.products st.cartItems = none)
    (h0 : fail 0 = none) (h1 : fail 1 = none) (msg : String)
    (hL : (loopRun fail s st).1.2 = some msg) :
    (handleCheckout st).run fail s 0 =
      (checkoutFailed (loopRun fail s st).1.1 msg, (loopRun fail s st).2.1,
        saleEvent s st :: itemsEvent s st :: (loopRun fail s st).2.2) := by
  rw [handleCheckout_valid st hne hv]
  simp only [Prog.run, respond_of_ok h0, Store.exec, respond_of_ok h1, Prog.run_bind]
  have hL' : ((updateStockLoop st.products s.nextId st.cartItems
      { st with showConfirmation := true }).run fail (itemsStore s st) 2).1.2 = some msg := hL
  simp only [itemsStore, saleStore, Store.exec] at hL'
  simp only [hL', Prog.run, List.append_nil]
  rfl

theorem handleCheckout_run_completed (fail : Failures) (st : AppState) (s : Store)
    (hne : st.cartItems ≠ []) (hv : verifyStock st.products st.cartItems = none)
    (h0 : fail 0 = none) (h1 : fail 1 = none)
    (hL : (loopRun fail s st).1.2 = none) :
    (handleCheckout st).run fail s 0 =
      (((refreshAfterSale (loopRun fail s st).1.1).run fail (loopRun fail s st).2.1
          (2 + (loopRun fail s st).2.2.length)).1,
        (loopRun fail s st).2.1,
        saleEvent s st :: itemsEvent s st :: ((loopRun fail s st).2.2 ++
          [⟨.selectProducts,
            (respond fail (loopRun fail s st).2.1 (2 + (loopRun fail s st).2.2.length)
              .selectProducts).2⟩])) := by
  rw [handleCheckout_valid st hne hv]
  simp only [Prog.run, respond_of_ok h0, Store.exec, respond_of_ok h1, Prog.run_bind]
  have hL' : ((updateStockLoop st.products s.nextId st.cartItems
      { st with showConfirmation := true }).run fail (itemsStore s st) 2).1.2 = none := hL
  simp only [itemsStore, saleStore, Store.exec] at hL'
  simp only [hL']
  have hR := refreshAfterSale_run fail (loopRun fail s st).1.1 (loopRun fail s st).2.1
    (2 + (loopRun fail s st).2.2.length)
  simp only [loopRun, itemsStore, saleStore, Store.exec] at hR
  simp only [saleEvent, itemsEvent, loopRun, itemsStore, saleStore, Store.exec]
  refine Prod.ext ?_ (Prod.ext ?_ ?_)
  · rfl
  · simp only [hR.1, respond_selectProducts_store]
  · simp only [hR.2.1]

/-! ## What the trace of a checkout holds -/

theorem plannedStockWrites_kind (products : List Product) (saleId : Nat)
    (items : List CartItem) :
    ∀ c ∈ plannedStockWrites products saleId items,
      (∃ id v, c = .updateStock id v) ∨ ∃ row, c = .insertLog row := by
  induction items with
  | nil => simp [plannedStockWrites]
  | cons item rest ih =>
    cases hf : findProduct products item.id with
    | none => simp [plannedStockWrites, hf]
    | some p =>
      intro c hc
      simp only [plannedStockWrites, hf, List.mem_cons] at hc
      rcases hc with rfl | rfl | hc
      · exact Or.inl ⟨_, _, rfl⟩
      · exact Or.inr ⟨_, rfl⟩
      · exact ih c hc

theorem updateStockLoop_kind (fail : Failures) (products : List Product) (saleId : Nat)
    (items : List CartItem) (st : AppState) (s : Store) (n : Nat) :
    ∀ e ∈ ((updateStockLoop products saleId items st).run fail s n).2.2,
      (∃ id v, e.call = .updateStock id v) ∨ ∃ row, e.call = .insertLog row := by
  intro e he
  have hpre := (updateStockLoop_calls fail products saleId items st s n).1
  have hmem : e.call ∈ plannedStockWrites products saleId items :=
    hpre.subset (List.mem_map_of_mem (fun e => e.call) he)
  exact plannedStockWrites_kind products saleId items _ hmem

theorem salesInserted_of_kind (tr : List Event)
    (h : ∀ e ∈ tr, (∃ id v, e.call = .updateStock id v) ∨ ∃ row, e.call = .insertLog row) :
    salesInserted tr = [] ∧ saleItemsInserted tr = [] := by
  induction tr with
  | nil => exact ⟨rfl, rfl⟩
  | cons e rest ih =>
    have hrest := ih fun x hx => h x (List.mem_cons_of_mem _ hx)
    rcases h e (List.mem_cons_self _ _) with ⟨id, v, hc⟩ | ⟨row, hc⟩ <;>
      simp only [salesInserted, saleItemsInserted, List.filterMap_cons, hc] <;>
      exact ⟨hrest.1, hrest.2⟩

theorem replay_of_kind (tr : List Event) (s : Store)
    (h : ∀ e ∈ tr, (∃ id v, e.call = .updateStock id v) ∨ ∃ row, e.call = .insertLog row) :
    (replay tr s).sales = s.sales ∧ (replay tr s).sale_items = s.sale_items ∧
      (replay tr s).nextId = s.nextId := by
  induction tr generalizing s with
  | nil => exact ⟨rfl, rfl, rfl⟩
  | cons e rest ih =>
    rw [replay_cons]
    have hrest := ih
      (if e.response.isError then s else (s.exec e.call).1)
      fun x hx => h x (List.mem_cons_of_mem _ hx)
    have hstep : (if e.response.isError then s else (s.exec e.call).1).sales = s.sales ∧
        (if e.response.isError then s else (s.exec e.call).1).sale_items = s.sale_items ∧
        (if e.response.isError then s else (s.exec e.call).1).nextId = s.nextId := by
      split
      · exact ⟨rfl, rfl, rfl⟩
      · rcases h e (List.mem_cons_self _ _) with ⟨id, v, hc⟩ | ⟨row, hc⟩
        · rw [hc]; simp only [Store.exec]; split <;> exact ⟨rfl, rfl, rfl⟩
        · rw [hc]; exact ⟨rfl, rfl, rfl⟩
    exact ⟨hrest.1.trans hstep.1, hrest.2.1.trans hstep.2.1, hrest.2.2.trans hstep.2.2⟩

theorem loopRun_store (fail : Failures) (s : Store) (st : AppState) :
    (loopRun fail s st).2.1.sales = s.sales ++ [{ saleOf st with id := s.nextId }] ∧
    (loopRun fail s st).2.1.sale_items =
      s.sale_items ++ saleItemsToInsert s.nextId st.cartItems ∧
    (loopRun fail s st).2.1.nextId = s.nextId + 1 := by
  have h := replay_of_kind (loopRun fail s st).2.2 (itemsStore s st)
    (updateStockLoop_kind fail _ _ _ _ _ _)
  have hrun : (loopRun fail s st).2.1 = replay (loopRun fail s st).2.2 (itemsStore s st) :=
    Prog.run_store_eq_replay fail _ _ _
  rw [hrun]
  exact ⟨h.1, h.2.1, h.2.2⟩

theorem calculateTotal_eq_sum (items : List CartItem) :
    calculateTotal items = (items.map fun item => item.price * (item.quantity : ℚ)).sum := by
  have h : ∀ (acc : ℚ) (l : List CartItem),
      l.foldl (fun sum item => sum + item.price * (item.quantity : ℚ)) acc =
        acc + (l.map fun item => item.price * (item.quantity : ℚ)).sum := by
    intro acc l
    induction l generalizing acc with
    | nil => simp
    | cons x rest ih => simp [List.foldl_cons, ih, add_assoc]
  simpa [calculateTotal] using h 0 items

/-- C4: for a cart that passes validation, `handleCheckout` issues exactly one
`sales` insert, whatever fails later; its `total_amount` is
`calculateTotal(cart)`, the sum of price × quantity over the lines, its
`subtotal_amount` is the same and its `tax_amount` is 0.  When the insert is
accepted the store holds exactly that one new `sales` row at the end, and
`calculateTotal` of the empty list is 0. -/
theorem handleCheckout_sale_row (fail : Failures) (st : AppState) (s : Store)
    (hne : st.cartItems ≠ []) (hv : verifyStock st.products st.cartItems = none) :
    (∃ sale : NewSale, salesInserted ((handleCheckout st).run fail s 0).2.2 = [sale] ∧
      sale.total_amount = calculateTotal st.cartItems ∧
      sale.total_amount = (st.cartItems.map fun item => item.price * (item.quantity : ℚ)).sum ∧
      sale.subtotal_amount = sale.total_amount ∧ sale.tax_amount = 0 ∧
      (fail 0 = none →
        ((handleCheckout st).run fail s 0).2.1.sales = s.sales ++ [{ sale with id := s.nextId }])) ∧
    calculateTotal [] = 0 := by
  refine ⟨⟨saleOf st, ?_, rfl, calculateTotal_eq_sum _, rfl, rfl, ?_⟩, rfl⟩
  · cases h0 : fail 0 with
    | some msg =>
      rw [handleCheckout_run_sale_failed fail st s hne hv msg h0]
      rfl
    | none =>
      cases h1 : fail 1 with
      | some msg =>
        rw [handleCheckout_run_items_failed fail st s hne hv h0 msg h1]
        rfl
      | none =>
        have hk := salesInserted_of_kind (loopRun fail s st).2.2
          (updateStockLoop_kind fail _ _ _ _ _ _)
        cases hL : (loopRun fail s st).1.2 with
        | some msg =>
          rw [handleCheckout_run_loop_failed fail st s hne hv h0 h1 msg hL]
          simp only [salesInserted, List.filterMap_cons, saleEvent, itemsEvent]
          simpa [salesInserted] using hk.1
        | none =>
          rw [handleCheckout_run_completed fail st s hne hv h0 h1 hL]
          simp only [salesInserted, List.filterMap_cons, saleEvent, itemsEvent,
            List.filterMap_append, List.filterMap_nil, List.append_nil]
          simpa [salesInserted] using hk.1
  · intro h0
    cases h1 : fail 1 with
    | some msg =>
      rw [handleCheckout_run_items_failed fail st s hne hv h0 msg h1]
      rfl
    | none =>
      cases hL : (loopRun fail s st).1.2 with
      | some msg =>
        rw [handleCheckout_run_loop_failed fail st s hne hv h0 h1 msg hL]
        exact (loopRun_store fail s st).1
      | none =>
        rw [handleCheckout_run_completed fail st s hne hv h0 h1 hL]
        exact (loopRun_store fail s st).1

/-- The sample cart of two units at 2.50: one `sales` insert with total 5. -/
theorem handleCheckout_sale_row_witness :
    (sampleApp [⟨cafe, 2⟩]).cartItems ≠ [] ∧
      verifyStock (sampleApp [⟨cafe, 2⟩]).products (sampleApp [⟨cafe, 2⟩]).cartItems = none ∧
      ((∃ sale : NewSale,
          salesInserted ((handleCheckout (sampleApp [⟨cafe, 2⟩])).run noFailure sampleStore 0).2.2 =
            [sale] ∧
          sale.total_amount = calculateTotal (sampleApp [⟨cafe, 2⟩]).cartItems ∧
          sale.total_amount =
            ((sampleApp [⟨cafe, 2⟩]).cartItems.map fun item => item.price * (item.quantity : ℚ)).sum ∧
          sale.subtotal_amount = sale.total_amount ∧ sale.tax_amount = 0 ∧
          (noFailure 0 = none →
            ((handleCheckout (sampleApp [⟨cafe, 2⟩])).run noFailure sampleStore 0).2.1.sales =
              sampleStore.sales ++ [{ sale with id := sampleStore.nextId }])) ∧
        calculateTotal [] = 0) :=
  ⟨by decide, by decide,
    handleCheckout_sale_row noFailure (sampleApp [⟨cafe, 2⟩]) sampleStore (by decide) (by decide)⟩

/-- C5: for a cart that passes validation, when the `sales` insert is answered
with the row `saleData`, `handleCheckout` issues exactly one `sale_items` insert,
whatever fails later; it carries one row per cart line, in cart order, with
`sale_id = saleData.id`, the line's product id, name, quantity and price, and
`total_item_price` = price × quantity. -/
theorem handleCheckout_sale_items (fail : Failures) (st : AppState) (s : Store)
    (hne : st.cartItems ≠ []) (hv : verifyStock st.products st.cartItems = none)
    (saleData : SaleRow)
    (hsale : ((handleCheckout st).run fail s 0).2.2.head? =
      some ⟨.insertSale (saleOf st), .sale saleData⟩) :
    saleItemsInserted ((handleCheckout st).run fail s 0).2.2 =
      [st.cartItems.map fun item =>
        { sale_id := saleData.id
          product_id := item.id
          product_name := item.name
          quantity := item.quantity
          price_at_sale := item.price
          total_item_price := item.price * (item.quantity : ℚ) }] := by
  cases h0 : fail 0 with
  | some msg =>
    rw [handleCheckout_run_sale_failed fail st s hne hv msg h0] at hsale
    simp at hsale
  | none =>
    have hk := salesInserted_of_kind (loopRun fail s st).2.2
      (updateStockLoop_kind fail _ _ _ _ _ _)
    cases h1 : fail 1 with
    | some msg =>
      rw [handleCheckout_run_items_failed fail st s hne hv h0 msg h1] at hsale ⊢
      simp only [saleEvent, List.head?_cons, Option.some.injEq, Event.mk.injEq,
        Response.sale.injEq, true_and] at hsale
      rw [← hsale]
      rfl
    | none =>
      cases hL : (loopRun fail s st).1.2 with
      | some msg =>
        rw [handleCheckout_run_loop_failed fail st s hne hv h0 h1 msg hL] at hsale ⊢
        simp only [saleEvent, List.head?_cons, Option.some.injEq, Event.mk.injEq,
          Response.sale.injEq, true_and] at hsale
        rw [← hsale]
        simp only [saleItemsInserted, List.filterMap_cons, saleEvent, itemsEvent]
        have := hk.2
        simp only [saleItemsInserted] at this
        rw [this]
        rfl
      | none =>
        rw [handleCheckout_run_completed fail st s hne hv h0 h1 hL] at hsale ⊢
        simp only [saleEvent, List.head?_cons, Option.some.injEq, Event.mk.injEq,
          Response.sale.injEq, true_and] at hsale
        rw [← hsale]
        simp only [saleItemsInserted, List.filterMap_cons, saleEvent, itemsEvent,
          List.filterMap_append, List.filterMap_nil, List.append_nil]
        have := hk.2
        simp only [saleItemsInserted] at this
        rw [this]
        rfl

/-- The sample cart against the sample store: the sale gets id 7 and one line. -/
theorem handleCheckout_sale_items_witness :
    (sampleApp [⟨cafe, 2⟩]).cartItems ≠ [] ∧
      verifyStock (sampleApp [⟨cafe, 2⟩]).products (sampleApp [⟨cafe, 2⟩]).cartItems = none ∧
      ((handleCheckout (sampleApp [⟨cafe, 2⟩])).run noFailure sampleStore 0).2.2.head? =
        some ⟨.insertSale (saleOf (sampleApp [⟨cafe, 2⟩])),
          .sale { saleOf (sampleApp [⟨cafe, 2⟩]) with id := 7 }⟩ ∧
      saleItemsInserted ((handleCheckout (sampleApp [⟨cafe, 2⟩])).run noFailure sampleStore 0).2.2 =
        [(sampleApp [⟨cafe, 2⟩]).cartItems.map fun item =>
          { sale_id := ({ saleOf (sampleApp [⟨cafe, 2⟩]) with id := 7 } : SaleRow).id
            product_id := item.id
            product_name := item.name
            quantity := item.quantity
            price_at_sale := item.price
            total_item_price := item.price * (item.quantity : ℚ) }] :=
  ⟨by decide, by decide, rfl,
    handleCheckout_sale_items noFailure (sampleApp [⟨cafe, 2⟩]) sampleStore (by decide)
      (by decide) { saleOf (sampleApp [⟨cafe, 2⟩]) with id := 7 } rfl⟩

/-! ## A checkout in which no call fails -/

theorem asInteger_intCast (v : Int) : asInteger (some (v : ℚ)) = some v := by
  simp [asInteger]

theorem asInteger_eq_some {x : Option ℚ} {v : Int} (h : asInteger x = some v) :
    x = some (v : ℚ) := by
  cases x with
  | none => simp [asInteger] at h
  | some q =>
    simp only [asInteger] at h
    split at h
    · rename_i hden
      simp only [Option.some.injEq] at h
      rw [← h]
      congr 1
      exact (Rat.den_eq_one_iff q).mp hden |>.symm
    · simp at h

theorem updateStockLoop_noFailure (fail : Failures) (hfail : ∀ n, fail n = none)
    (products : List Product) (saleId : Nat) (items : List CartItem) (st : AppState)
    (s : Store) (n : Nat) (hfound : ∀ x ∈ items, ∃ p, findProduct products x.id = some p) :
    ((updateStockLoop products saleId items st).run fail s n).1 = (st, none) ∧
    (∀ e ∈ ((updateStockLoop products saleId items st).run fail s n).2.2,
      e.response.isError = false) ∧
    ((updateStockLoop products saleId items st).run fail s n).2.1.products =
      items.foldl (fun ps item => setStock item.id (stockAfterSale products item) ps)
        s.products ∧
    ((updateStockLoop products saleId items st).run fail s n).2.1.inventory_logs =
      s.inventory_logs ++
        items.map fun item => saleLog saleId item (stockAfterSale products item) := by
  induction items generalizing s n with
  | nil => simp [updateStockLoop, Prog.run]
  | cons item rest ih =>
    obtain ⟨p, hf⟩ := hfound item (List.mem_cons_self _ _)
    have hr1 : respond fail s n
        (.updateStock item.id (some ((p.stock - item.quantity : Int) : ℚ))) =
        ({ s with products := setStock item.id (p.stock - item.quantity) s.products }, .ok) := by
      rw [respond_of_ok (hfail n)]
      simp only [Store.exec, asInteger_intCast]
    have hr2 : ∀ s' : Store, respond fail s' (n + 1)
        (.insertLog (saleLog saleId item (p.stock - item.quantity))) =
        ({ s' with inventory_logs :=
            s'.inventory_logs ++ [saleLog saleId item (p.stock - item.quantity)] }, .ok) := by
      intro s'
      rw [respond_of_ok (hfail (n + 1))]
      rfl
    have hv : stockAfterSale products item = p.stock - item.quantity := by
      simp [stockAfterSale, hf]
    rw [updateStockLoop_run_ok fail products saleId item rest st s n p hf (by rw [hr1]; rfl)]
    simp only [hr1, hr2, Response.isError, Bool.false_eq_true, if_false]
    have hrest := ih
      { s with
        products := setStock item.id (p.stock - item.quantity) s.products
        inventory_logs := s.inventory_logs ++ [saleLog saleId item (p.stock - item.quantity)] }
      (n + 2) fun x hx => hfound x (List.mem_cons_of_mem _ hx)
    refine ⟨hrest.1, ?_, ?_, ?_⟩
    · intro e he
      simp only [List.mem_cons] at he
      rcases he with rfl | rfl | he
      · rfl
      · rfl
      · exact hrest.2.1 e he
    · rw [hrest.2.2.1, List.foldl_cons, hv]
    · rw [hrest.2.2.2, List.map_cons, hv, List.append_assoc]
      rfl

theorem foldl_setStock (v : CartItem → Int) (items : List CartItem)
    (hnodup : (items.map fun item => item.id).Nodup) (ps : List Product) :
    items.foldl (fun ps item => setStock item.id (v item) ps) ps =
      ps.map fun r =>
        match items.find? fun item => item.id = r.id with
        | some item => { r with stock := v item }
        | none => r := by
  induction items generalizing ps with
  | nil => simp
  | cons x rest ih =>
    simp only [List.map_cons, List.nodup_cons, List.mem_map, not_exists, not_and] at hnodup
    rw [List.foldl_cons, ih hnodup.2, setStock, List.map_map]
    apply List.map_congr_left
    intro r _
    by_cases hid : r.id = x.id
    · have hnone : rest.find? (fun item => decide (item.id = x.id)) = none := by
        rw [List.find?_eq_none]
        intro y hy
        simpa using fun h => hnodup.1 y hy h
      simp [Function.comp, hid, hnone]
    · have hne : ¬ x.id = r.id := fun h => hid h.symm
      simp [Function.comp, hid, hne, List.find?_cons]

theorem findProduct_of_mem (ps : List Product) (hids : (ps.map fun p => p.id).Nodup)
    (r : Product) (hr : r ∈ ps) : findProduct ps r.id = some r := by
  induction ps with
  | nil => cases hr
  | cons a rest ih =>
    simp only [List.map_cons, List.nodup_cons, List.mem_map, not_exists, not_and] at hids
    rcases List.mem_cons.1 hr with rfl | hmem
    · simp [findProduct]
    · have hne : ¬ a.id = r.id := fun h => hids.1 r hmem h.symm
      simp only [findProduct, List.find?_cons, hne, decide_False]
      exact ih hids.2 hmem

theorem findProduct_some_id {ps : List Product} {id : Nat} {p : Product}
    (h : findProduct ps id = some p) : p.id = id ∧ p ∈ ps := by
  unfold findProduct at h
  exact ⟨by simpa using List.find?_some h, List.mem_of_find?_eq_some h⟩

theorem findProduct_map (g : Product → Product) (hg : ∀ r, (g r).id = r.id)
    (ps : List Product) (id : Nat) :
    findProduct (ps.map g) id = (findProduct ps id).map g := by
  induction ps with
  | nil => rfl
  | cons a rest ih =>
    unfold findProduct at ih ⊢
    by_cases h : a.id = id
    · simp [List.find?_cons, hg, h]
    · simp only [List.map_cons, List.find?_cons, hg, h, decide_False]
      exact ih

theorem find_cartItem_of_mem (items : List CartItem)
    (hnodup : (items.map fun item => item.id).Nodup) (item : CartItem) (hmem : item ∈ items) :
    items.find? (fun x => x.id = item.id) = some item := by
  induction items with
  | nil => cases hmem
  | cons a rest ih =>
    simp only [List.map_cons, List.nodup_cons, List.mem_map, not_exists, not_and] at hnodup
    rcases List.mem_cons.1 hmem with rfl | hm
    · simp
    · have hne : ¬ a.id = item.id := fun h => hnodup.1 item hm h.symm
      simp only [List.find?_cons, hne, decide_False]
      exact ih hnodup.2 hm

theorem handleCheckout_noFailure_run (st : AppState) (s : Store)
    (hne : st.cartItems ≠ []) (hv : verifyStock st.products st.cartItems = none) :
    ((handleCheckout st).run noFailure s 0).2.1.products =
      st.cartItems.foldl (fun ps item => setStock item.id (stockAfterSale st.products item) ps)
        s.products ∧
    ((handleCheckout st).run noFailure s 0).2.1.inventory_logs =
      s.inventory_logs ++
        st.cartItems.map (fun item => saleLog s.nextId item (stockAfterSale st.products item)) ∧
    ((handleCheckout st).run noFailure s 0).2.1.sales =
      s.sales ++ [{ saleOf st with id := s.nextId }] ∧
    ((handleCheckout st).run noFailure s 0).2.1.sale_items =
      s.sale_items ++ saleItemsToInsert s.nextId st.cartItems ∧
    ((handleCheckout st).run noFailure s 0).1.alerts = st.alerts ++ [.saleDone] ∧
    ((handleCheckout st).run noFailure s 0).1.cartItems = [] := by
  have hfound : ∀ x ∈ st.cartItems, ∃ p, findProduct st.products x.id = some p := by
    intro x hx
    obtain ⟨p, hp, _⟩ := (verifyStock_eq_none_iff _ _).1 hv x hx
    exact ⟨p, hp⟩
  have hloop := updateStockLoop_noFailure noFailure (fun _ => rfl) st.products s.nextId
    st.cartItems { st with showConfirmation := true } (itemsStore s st) 2 hfound
  have hL : (loopRun noFailure s st).1 = ({ st with showConfirmation := true }, none) := hloop.1
  have hL2 : (loopRun noFailure s st).1.2 = none := by rw [hL]
  rw [handleCheckout_run_completed noFailure st s hne hv rfl rfl hL2]
  have hR := refreshAfterSale_run noFailure (loopRun noFailure s st).1.1
    (loopRun noFailure s st).2.1 (2 + (loopRun noFailure s st).2.2.length)
  refine ⟨hloop.2.2.1, hloop.2.2.2, (loopRun_store noFailure s st).1,
    (loopRun_store noFailure s st).2.1, ?_, hR.2.2.1⟩
  rw [hR.2.2.2.1, hL]

/-- C6: for a cart with pairwise distinct product ids that passes validation
against a cached product list equal to the store's products (which are keyed by
id), when no store call fails `handleCheckout` sets the stock of each cart
product to its previous stock minus the quantity of its line and leaves every
other product as it was, and appends one `inventory_logs` row per cart line, in
cart order, with change type `salida`, `quantity_change` the quantity of the
line, `new_stock` the stock of the product in the store at the end, and a reason
naming the id of the new sale, which is the id of the one new `sales` row. -/
theorem handleCheckout_all_succeed (st : AppState) (s : Store)
    (hne : st.cartItems ≠ []) (hv : verifyStock st.products st.cartItems = none)
    (hcache : st.products = s.products)
    (hids : (s.products.map fun p => p.id).Nodup)
    (hcart : (st.cartItems.map fun item => item.id).Nodup) :
    ((handleCheckout st).run noFailure s 0).2.1.products =
      (s.products.map fun p =>
        match st.cartItems.find? fun item => item.id = p.id with
        | some item => { p with stock := p.stock - item.quantity }
        | none => p) ∧
    ((handleCheckout st).run noFailure s 0).2.1.inventory_logs =
      s.inventory_logs ++
        (st.cartItems.map fun item =>
          { product_id := item.id
            product_name := item.name
            change_type := "salida"
            quantity_change := some (item.quantity : ℚ)
            new_stock :=
              (findProduct ((handleCheckout st).run noFailure s 0).2.1.products item.id).map
                fun p => (p.stock : ℚ)
            reason := "Venta - ID de Venta: " ++ toString s.nextId }) ∧
    ((handleCheckout st).run noFailure s 0).2.1.sales =
      s.sales ++ [{ saleOf st with id := s.nextId }] := by
  have hrun := handleCheckout_noFailure_run st s hne hv
  have hprod : ((handleCheckout st).run noFailure s 0).2.1.products =
      (s.products.map fun p =>
        match st.cartItems.find? fun item => item.id = p.id with
        | some item => { p with stock := p.stock - item.quantity }
        | none => p) := by
    rw [hrun.1, foldl_setStock _ _ hcart]
    apply List.map_congr_left
    intro r hr
    cases hfind : st.cartItems.find? (fun item => decide (item.id = r.id)) with
    | none => rfl
    | some item =>
      have hid : item.id = r.id := by simpa using List.find?_some hfind
      have hfp : findProduct st.products item.id = some r := by
        rw [hcache, hid]
        exact findProduct_of_mem s.products hids r hr
      simp [stockAfterSale, hfp]
  refine ⟨hprod, ?_, hrun.2.2.1⟩
  rw [hrun.2.1, hprod]
  congr 1
  apply List.map_congr_left
  intro item hitem
  obtain ⟨p, hp, _⟩ := (verifyStock_eq_none_iff _ _).1 hv item hitem
  have hps : findProduct s.products item.id = some p := hcache ▸ hp
  have hpid := (findProduct_some_id hps).1
  rw [findProduct_map _ (fun r => by split <;> rfl), hps]
  have hfi : st.cartItems.find? (fun x => decide (x.id = p.id)) = some item := by
    rw [hpid]
    exact find_cartItem_of_mem st.cartItems hcart item hitem
  simp [saleLog, saleReason, stockAfterSale, hp, hfi]

/-- One line of quantity 2 at 2.50 against stock 5: stock 3, one outbound log
row with `new_stock` 3, for `handleCheckout_all_succeed`. -/
theorem handleCheckout_all_succeed_witness :
    (sampleApp [⟨cafe, 2⟩]).cartItems ≠ [] ∧
    verifyStock (sampleApp [⟨cafe, 2⟩]).products (sampleApp [⟨cafe, 2⟩]).cartItems = none ∧
    (sampleApp [⟨cafe, 2⟩]).products = sampleStore.products ∧
    (sampleStore.products.map fun p => p.id).Nodup ∧
    ((sampleApp [⟨cafe, 2⟩]).cartItems.map fun item => item.id).Nodup ∧
    (((handleCheckout (sampleApp [⟨cafe, 2⟩])).run noFailure sampleStore 0).2.1.products =
      (sampleStore.products.map fun p =>
        match (sampleApp [⟨cafe, 2⟩]).cartItems.find? fun item => item.id = p.id with
        | some item => { p with stock := p.stock - item.quantity }
        | none => p) ∧
    ((handleCheckout (sampleApp [⟨cafe, 2⟩])).run noFailure sampleStore 0).2.1.inventory_logs =
      sampleStore.inventory_logs ++
        ((sampleApp [⟨cafe, 2⟩]).cartItems.map fun item =>
          { product_id := item.id
            product_name := item.name
            change_type := "salida"
            quantity_change := some (item.quantity : ℚ)
            new_stock :=
              (findProduct
                ((handleCheckout (sampleApp [⟨cafe, 2⟩])).run noFailure sampleStore 0).2.1.products
                item.id).map fun p => (p.stock : ℚ)
            reason := "Venta - ID de Venta: " ++ toString sampleStore.nextId }) ∧
    ((handleCheckout (sampleApp [⟨cafe, 2⟩])).run noFailure sampleStore 0).2.1.sales =
      sampleStore.sales ++ [{ saleOf (sampleApp [⟨cafe, 2⟩]) with id := sampleStore.nextId }]) :=
  ⟨by decide, by decide, rfl, by decide, by decide,
    handleCheckout_all_succeed (sampleApp [⟨cafe, 2⟩]) sampleStore (by decide) (by decide) rfl
      (by decide) (by decide)⟩

/-! ## No rollback -/

theorem handleCheckout_run_rejected (fail : Failures) (st : AppState) (s : Store)
    (h : st.cartItems = [] ∨ verifyStock st.products st.cartItems ≠ none) :
    ((handleCheckout st).run fail s 0).2 = (s, []) ∧
      ((handleCheckout st).run fail s 0).1.cartItems = st.cartItems := by
  by_cases hempty : st.cartItems = []
  · simp [handleCheckout, hempty, Prog.run, AppState.alert]
  · rcases h with h | h
    · exact absurd h hempty
    · have hlen : st.cartItems.length ≠ 0 := by simpa [List.length_eq_zero] using hempty
      cases hv : verifyStock st.products st.cartItems with
      | none => exact absurd hv h
      | some r =>
        obtain ⟨item, available⟩ := r
        simp [handleCheckout, hlen, hv, Prog.run, AppState.alert]

theorem handleCheckout_rejected_alert (fail : Failures) (st : AppState) (s : Store)
    (h : st.cartItems = [] ∨ verifyStock st.products st.cartItems ≠ none) :
    ((handleCheckout st).run fail s 0).1.alerts = st.alerts ++ [.emptyCart] ∨
      ∃ name available,
        ((handleCheckout st).run fail s 0).1.alerts = st.alerts ++ [.stockError name available] := by
  by_cases hempty : st.cartItems = []
  · left
    simp [handleCheckout, hempty, Prog.run, AppState.alert]
  · rcases h with h | h
    · exact absurd h hempty
    · have hlen : st.cartItems.length ≠ 0 := by simpa [List.length_eq_zero] using hempty
      cases hv : verifyStock st.products st.cartItems with
      | none => exact absurd hv h
      | some r =>
        obtain ⟨item, available⟩ := r
        right
        exact ⟨item.name, available, by simp [handleCheckout, hlen, hv, Prog.run, AppState.alert]⟩

theorem checkoutFailed_alerts (st : AppState) (message : String) :
    (checkoutFailed st message).alerts = st.alerts ++ [.saleFailed message] := rfl

theorem writeCalls_loop (fail : Failures) (products : List Product) (saleId : Nat)
    (items : List CartItem) (st : AppState) (s : Store) (n : Nat) :
    writeCalls ((updateStockLoop products saleId items st).run fail s n).2.2 =
      ((updateStockLoop products saleId items st).run fail s n).2.2.map fun e => e.call := by
  unfold writeCalls
  rw [List.filter_eq_self]
  intro c hc
  obtain ⟨e, he, rfl⟩ := List.mem_map.1 hc
  rcases updateStockLoop_kind fail products saleId items st s n e he with ⟨id, v, h⟩ | ⟨row, h⟩ <;>
    rw [h] <;> rfl

theorem writeCalls_cons (e : Event) (tr : List Event) :
    writeCalls (e :: tr) = if e.call.isWrite then e.call :: writeCalls tr else writeCalls tr := by
  simp only [writeCalls, List.map_cons, List.filter_cons]

theorem writeCalls_append (tr₁ tr₂ : List Event) :
    writeCalls (tr₁ ++ tr₂) = writeCalls tr₁ ++ writeCalls tr₂ := by
  simp [writeCalls]

/-- The writes a checkout has issued are an initial segment of its plan. -/
theorem handleCheckout_writes_prefix_plan (fail : Failures) (st : AppState) (s : Store) :
    writeCalls ((handleCheckout st).run fail s 0).2.2 <+:
      plannedWrites st.products (saleOf st) s.nextId st.cartItems := by
  by_cases hvalid : st.cartItems = [] ∨ verifyStock st.products st.cartItems ≠ none
  · have h := (handleCheckout_run_rejected fail st s hvalid).1
    have htr : ((handleCheckout st).run fail s 0).2.2 = [] := by rw [h]
    rw [htr]
    exact List.nil_prefix
  · simp only [not_or, not_not] at hvalid
    obtain ⟨hne, hv⟩ := hvalid
    cases h0 : fail 0 with
    | some msg =>
      rw [handleCheckout_run_sale_failed fail st s hne hv msg h0]
      exact ⟨_, rfl⟩
    | none =>
      cases h1 : fail 1 with
      | some msg =>
        rw [handleCheckout_run_items_failed fail st s hne hv h0 msg h1]
        exact ⟨_, rfl⟩
      | none =>
        have hpre := (updateStockLoop_calls fail st.products s.nextId st.cartItems
          { st with showConfirmation := true } (itemsStore s st) 2).1
        have hw := writeCalls_loop fail st.products s.nextId st.cartItems
          { st with showConfirmation := true } (itemsStore s st) 2
        cases hL : (loopRun fail s st).1.2 with
        | some msg =>
          rw [handleCheckout_run_loop_failed fail st s hne hv h0 h1 msg hL]
          simp only [writeCalls_cons, saleEvent, itemsEvent, StoreCall.isWrite, if_true,
            plannedWrites, List.cons_prefix_cons, true_and]
          rw [loopRun, hw]
          exact hpre
        | none =>
          rw [handleCheckout_run_completed fail st s hne hv h0 h1 hL]
          simp only [writeCalls_cons, writeCalls_append, saleEvent, itemsEvent,
            StoreCall.isWrite, if_true, plannedWrites, List.cons_prefix_cons, true_and]
          rw [loopRun, hw]
          simpa [writeCalls] using hpre

/-- C1, as the code has it: `handleCheckout` never undoes a write.  The store at
the end is the store at the start with every accepted call applied, and the
writes issued are an initial segment of the plan (the sale, its lines, then per
cart line the stock update and its log row).  No write is visible when
validation rejects or the `sales` insert fails; every planned write is issued
and accepted when no call fails. -/
theorem handleCheckout_no_rollback (fail : Failures) (st : AppState) (s : Store) :
    ((handleCheckout st).run fail s 0).2.1 = replay ((handleCheckout st).run fail s 0).2.2 s ∧
    writeCalls ((handleCheckout st).run fail s 0).2.2 <+:
      plannedWrites st.products (saleOf st) s.nextId st.cartItems ∧
    ((st.cartItems = [] ∨ verifyStock st.products st.cartItems ≠ none ∨ fail 0 ≠ none) →
      ((handleCheckout st).run fail s 0).2.1 = s) ∧
    (st.cartItems ≠ [] → verifyStock st.products st.cartItems = none → (∀ n, fail n = none) →
      writeCalls ((handleCheckout st).run fail s 0).2.2 =
          plannedWrites st.products (saleOf st) s.nextId st.cartItems ∧
        ∀ e ∈ ((handleCheckout st).run fail s 0).2.2, e.response.isError = false) := by
  refine ⟨Prog.run_store_eq_replay fail _ s 0, handleCheckout_writes_prefix_plan fail st s,
    ?_, ?_⟩
  · intro h
    by_cases hvalid : st.cartItems = [] ∨ verifyStock st.products st.cartItems ≠ none
    · rw [(handleCheckout_run_rejected fail st s hvalid).1]
    · simp only [not_or, not_not] at hvalid
      rcases h with h | h | h
      · exact absurd h hvalid.1
      · exact absurd hvalid.2 h
      · cases h0 : fail 0 with
        | none => exact absurd h0 h
        | some msg => rw [handleCheckout_run_sale_failed fail st s hvalid.1 hvalid.2 msg h0]
  · intro hne hv hfail
    have hfound : ∀ x ∈ st.cartItems, ∃ p, findProduct st.products x.id = some p := by
      intro x hx
      obtain ⟨p, hp, _⟩ := (verifyStock_eq_none_iff _ _).1 hv x hx
      exact ⟨p, hp⟩
    have hloop := updateStockLoop_noFailure fail hfail st.products s.nextId
      st.cartItems { st with showConfirmation := true } (itemsStore s st) 2 hfound
    have hL2 : (loopRun fail s st).1.2 = none := by
      show ((updateStockLoop st.products s.nextId st.cartItems
        { st with showConfirmation := true }).run fail (itemsStore s st) 2).1.2 = none
      rw [hloop.1]
    have hcalls := (updateStockLoop_calls fail st.products s.nextId st.cartItems
      { st with showConfirmation := true } (itemsStore s st) 2).2 (by rw [hloop.1])
    have hw := writeCalls_loop fail st.products s.nextId st.cartItems
      { st with showConfirmation := true } (itemsStore s st) 2
    rw [handleCheckout_run_completed fail st s hne hv (hfail 0) (hfail 1) hL2]
    constructor
    · simp only [writeCalls_cons, writeCalls_append, saleEvent, itemsEvent,
        StoreCall.isWrite, if_true, plannedWrites, List.cons.injEq, true_and]
      rw [loopRun, hw, hcalls]
      simp [writeCalls, StoreCall.isWrite]
    · intro e he
      simp only [List.mem_cons, List.mem_append, List.mem_singleton, List.not_mem_nil,
        or_false] at he
      rcases he with rfl | rfl | he | rfl
      · rfl
      · rfl
      · exact hloop.2.1 e he
      · rw [respond_of_ok (hfail _)]
        rfl

/-- C1 fails as stated: when the `sale_items` insert fails after the `sales`
insert was accepted, the new `sales` row stays in the store without any
`sale_items` row, stock change or log row. -/
theorem handleCheckout_partial_write :
    ((handleCheckout (sampleApp [⟨cafe, 2⟩])).run (failAt 1 "network") sampleStore 0).2.1.sales =
        [{ saleOf (sampleApp [⟨cafe, 2⟩]) with id := 7 }] ∧
      ((handleCheckout (sampleApp [⟨cafe, 2⟩])).run (failAt 1 "network")
        sampleStore 0).2.1.sale_items = [] ∧
      ((handleCheckout (sampleApp [⟨cafe, 2⟩])).run (failAt 1 "network")
        sampleStore 0).2.1.inventory_logs = [] ∧
      ((handleCheckout (sampleApp [⟨cafe, 2⟩])).run (failAt 1 "network")
        sampleStore 0).2.1.products = sampleStore.products := by
  refine ⟨rfl, rfl, rfl, rfl⟩

/-! ## A failed write ends the checkout -/

theorem append_cons_eq_concat {α : Type} (pre : List α) (e : α) (post A : List α) (x : α)
    (h : pre ++ e :: post = A ++ [x]) :
    (post = [] ∧ e = x ∧ pre = A) ∨ ∃ post', post = post' ++ [x] ∧ A = pre ++ e :: post' := by
  rcases List.eq_nil_or_concat post with hp | ⟨post', y, hp⟩
  · subst hp
    have h' : (pre ++ [e]) = A ++ [x] := by simpa using h
    have := List.append_inj' h' rfl
    exact Or.inl ⟨rfl, by simpa using this.2, this.1⟩
  · rw [List.concat_eq_append] at hp
    subst hp
    have h' : (pre ++ e :: post') ++ [y] = A ++ [x] := by simpa using h
    have := List.append_inj' h' rfl
    refine Or.inr ⟨post', ?_, this.1.symm⟩
    have hy : y = x := by simpa using this.2
    rw [hy]

theorem checkoutFailed_fields (st : AppState) (msg : String) :
    (checkoutFailed st msg).alerts = st.alerts ++ [.saleFailed msg] ∧
      (checkoutFailed st msg).cartItems = st.cartItems ∧
      (checkoutFailed st msg).products = st.products := by
  simp [checkoutFailed, AppState.alert, AppState.consoleError]

theorem handleCheckout_failed_write (fail : Failures) (st : AppState) (s : Store)
    (pre : List Event) (e : Event) (post : List Event) (msg : String)
    (htr : ((handleCheckout st).run fail s 0).2.2 = pre ++ e :: post)
    (herr : e.response = .error msg)
    (hkind : (∃ row, e.call = .insertSale row) ∨ (∃ rows, e.call = .insertSaleItems rows) ∨
      ∃ id v, e.call = .updateStock id v) :
    post = [] ∧
      ((handleCheckout st).run fail s 0).1.alerts = st.alerts ++ [.saleFailed msg] ∧
      ((handleCheckout st).run fail s 0).1.cartItems = st.cartItems := by
  have key : post = [] ∧
      ((handleCheckout st).run fail s 0).1.alerts = st.alerts ++ [.saleFailed msg] ∧
      ((handleCheckout st).run fail s 0).1.cartItems = st.cartItems := by
    by_cases hvalid : st.cartItems = [] ∨ verifyStock st.products st.cartItems ≠ none
    · have h := (handleCheckout_run_rejected fail st s hvalid).1
      have h2 : ((handleCheckout st).run fail s 0).2.2 = [] := by rw [h]
      rw [h2] at htr
      simp at htr
    simp only [not_or, not_not] at hvalid
    obtain ⟨hne, hv⟩ := hvalid
    have hst := updateStockLoop_state fail st.products s.nextId st.cartItems
      { st with showConfirmation := true } (itemsStore s st) 2
    cases h0 : fail 0 with
    | some m0 =>
      rw [handleCheckout_run_sale_failed fail st s hne hv m0 h0] at htr ⊢
      cases pre with
      | nil =>
        simp only [List.nil_append, List.cons.injEq] at htr
        obtain ⟨he, hpost⟩ := htr
        subst he
        simp only [Response.error.injEq] at herr
        subst herr
        exact ⟨hpost.symm, (checkoutFailed_fields _ _).1, (checkoutFailed_fields _ _).2.1⟩
      | cons a pre' => simp at htr
    | none =>
      cases h1 : fail 1 with
      | some m1 =>
        rw [handleCheckout_run_items_failed fail st s hne hv h0 m1 h1] at htr ⊢
        cases pre with
        | nil =>
          simp only [List.nil_append, List.cons.injEq, saleEvent] at htr
          obtain ⟨he, _⟩ := htr
          subst he
          simp at herr
        | cons a pre' =>
          cases pre' with
          | nil =>
            simp only [List.cons_append, List.nil_append, List.cons.injEq] at htr
            obtain ⟨_, he, hpost⟩ := htr
            subst he
            simp only [Response.error.injEq] at herr
            subst herr
            exact ⟨hpost.symm, (checkoutFailed_fields _ _).1, (checkoutFailed_fields _ _).2.1⟩
          | cons b pre'' => simp at htr
      | none =>
        cases hL : (loopRun fail s st).1.2 with
        | some mL =>
          rw [handleCheckout_run_loop_failed fail st s hne hv h0 h1 mL hL] at htr ⊢
          cases pre with
          | nil =>
            simp only [List.nil_append, List.cons.injEq, saleEvent] at htr
            obtain ⟨he, _⟩ := htr
            subst he
            simp at herr
          | cons a pre' =>
            cases pre' with
            | nil =>
              simp only [List.cons_append, List.nil_append, List.cons.injEq, itemsEvent] at htr
              obtain ⟨_, he, _⟩ := htr
              subst he
              simp at herr
            | cons b pre'' =>
              simp only [List.cons_append, List.cons.injEq] at htr
              have hupd : ∃ id v, e.call = .updateStock id v := by
                have hmem : e ∈ (loopRun fail s st).2.2 := by
                  rw [htr.2.2]; simp
                rcases updateStockLoop_kind fail _ _ _ _ _ _ e hmem with h | ⟨row, h⟩
                · exact h
                · rcases hkind with ⟨r, hk⟩ | ⟨r, hk⟩ | hk
                  · rw [h] at hk; simp at hk
                  · rw [h] at hk; simp at hk
                  · exact hk
              have hlast := updateStockLoop_failure_last fail st.products s.nextId st.cartItems
                { st with showConfirmation := true } (itemsStore s st) 2 pre'' e post msg
                htr.2.2 herr hupd
              have hm : mL = msg := by
                have h2 : (loopRun fail s st).1.2 = some msg := hlast.2
                rw [hL] at h2
                simpa using h2
              subst hm
              exact ⟨hlast.1,
                (checkoutFailed_fields _ _).1.trans (by
                  rw [show (loopRun fail s st).1.1.alerts = st.alerts from hst.2.2.1]),
                (checkoutFailed_fields _ _).2.1.trans hst.1⟩
        | none =>
          exfalso
          rw [handleCheckout_run_completed fail st s hne hv h0 h1 hL] at htr
          cases pre with
          | nil =>
            simp only [List.nil_append, List.cons.injEq, saleEvent] at htr
            obtain ⟨he, _⟩ := htr
            subst he
            simp at herr
          | cons a pre' =>
            cases pre' with
            | nil =>
              simp only [List.cons_append, List.nil_append, List.cons.injEq, itemsEvent] at htr
              obtain ⟨_, he, _⟩ := htr
              subst he
              simp at herr
            | cons b pre'' =>
              simp only [List.cons_append, List.cons.injEq] at htr
              rcases append_cons_eq_concat pre'' e post _ _ htr.2.2.symm with
                ⟨_, he, _⟩ | ⟨post', _, hA⟩
              · subst he
                rcases hkind with ⟨r, hk⟩ | ⟨r, hk⟩ | ⟨id, v, hk⟩ <;> simp at hk
              · have hupd : ∃ id v, e.call = .updateStock id v := by
                  have hmem : e ∈ (loopRun fail s st).2.2 := by
                    rw [hA]; simp
                  rcases updateStockLoop_kind fail _ _ _ _ _ _ e hmem with h | ⟨row, h⟩
                  · exact h
                  · rcases hkind with ⟨r, hk⟩ | ⟨r, hk⟩ | hk
                    · rw [h] at hk; simp at hk
                    · rw [h] at hk; simp at hk
                    · exact hk
                have hlast := updateStockLoop_failure_last fail st.products s.nextId
                  st.cartItems { st with showConfirmation := true } (itemsStore s st) 2
                  pre'' e post' msg hA herr hupd
                have h2 : (loopRun fail s st).1.2 = some msg := hlast.2
                rw [hL] at h2
                simp at h2
  exact key

/-- C16: when a `sales` insert, a `sale_items` insert or a stock update of
`handleCheckout` fails, it is the last call of the run: no store call follows,
the alert carries the message of the failure, and the cart is what it was.  In
every run the writes issued are an initial segment of the plan, which names
each write once, so no write is repeated. -/
theorem handleCheckout_failure_stops (fail : Failures) (st : AppState) (s : Store)
    (pre : List Event) (e : Event) (post : List Event) (msg : String)
    (htr : ((handleCheckout st).run fail s 0).2.2 = pre ++ e :: post)
    (herr : e.response = .error msg)
    (hkind : (∃ row, e.call = .insertSale row) ∨ (∃ rows, e.call = .insertSaleItems rows) ∨
      ∃ id v, e.call = .updateStock id v) :
    post = [] ∧
      ((handleCheckout st).run fail s 0).1.alerts = st.alerts ++ [.saleFailed msg] ∧
      ((handleCheckout st).run fail s 0).1.cartItems = st.cartItems ∧
      writeCalls ((handleCheckout st).run fail s 0).2.2 <+:
        plannedWrites st.products (saleOf st) s.nextId st.cartItems :=
  ⟨(handleCheckout_failed_write fail st s pre e post msg htr herr hkind).1,
    (handleCheckout_failed_write fail st s pre e post msg htr herr hkind).2.1,
    (handleCheckout_failed_write fail st s pre e post msg htr herr hkind).2.2,
    handleCheckout_writes_prefix_plan fail st s⟩

/-- A stock update that times out after both inserts were accepted, for
`handleCheckout_failure_stops`. -/
theorem handleCheckout_failure_stops_witness :
    ((handleCheckout (sampleApp [⟨cafe, 2⟩])).run (failAt 2 "timeout") sampleStore 0).2.2 =
        [saleEvent sampleStore (sampleApp [⟨cafe, 2⟩]),
          itemsEvent sampleStore (sampleApp [⟨cafe, 2⟩])] ++
          (⟨.updateStock 1 (some ((5 - 2 : Int) : ℚ)), .error "timeout"⟩ : Event) :: [] ∧
      (⟨.updateStock 1 (some ((5 - 2 : Int) : ℚ)), .error "timeout"⟩ : Event).response =
        .error "timeout" ∧
      ((∃ row, (⟨.updateStock 1 (some ((5 - 2 : Int) : ℚ)), .error "timeout"⟩ : Event).call =
            .insertSale row) ∨
        (∃ rows, (⟨.updateStock 1 (some ((5 - 2 : Int) : ℚ)), .error "timeout"⟩ : Event).call =
            .insertSaleItems rows) ∨
        ∃ id v, (⟨.updateStock 1 (some ((5 - 2 : Int) : ℚ)), .error "timeout"⟩ : Event).call =
            .updateStock id v) ∧
      (([] : List Event) = [] ∧
        ((handleCheckout (sampleApp [⟨cafe, 2⟩])).run (failAt 2 "timeout") sampleStore 0).1.alerts =
          (sampleApp [⟨cafe, 2⟩]).alerts ++ [.saleFailed "timeout"] ∧
        ((handleCheckout (sampleApp [⟨cafe, 2⟩])).run (failAt 2 "timeout")
          sampleStore 0).1.cartItems = (sampleApp [⟨cafe, 2⟩]).cartItems ∧
        writeCalls
            ((handleCheckout (sampleApp [⟨cafe, 2⟩])).run (failAt 2 "timeout") sampleStore 0).2.2 <+:
          plannedWrites (sampleApp [⟨cafe, 2⟩]).products (saleOf (sampleApp [⟨cafe, 2⟩]))
            sampleStore.nextId (sampleApp [⟨cafe, 2⟩]).cartItems) :=
  ⟨rfl, rfl, Or.inr (Or.inr ⟨_, _, rfl⟩),
    handleCheckout_failure_stops (failAt 2 "timeout") (sampleApp [⟨cafe, 2⟩]) sampleStore
      [saleEvent sampleStore (sampleApp [⟨cafe, 2⟩]),
        itemsEvent sampleStore (sampleApp [⟨cafe, 2⟩])]
      ⟨.updateStock 1 (some ((5 - 2 : Int) : ℚ)), .error "timeout"⟩ [] "timeout" rfl rfl
      (Or.inr (Or.inr ⟨_, _, rfl⟩))⟩

/-! ## The cart after a checkout -/

/-- C19: after a `handleCheckout` of a valid cart in which no `sales` insert,
`sale_items` insert or stock update fails, the cart is empty (a failed log
insert or a failed refresh does not matter); after a `handleCheckout` that
stops — empty cart, insufficient stock, or one of those writes failing — the
cart is what it was.  A confirmed `handleClearCart` empties the cart, an
unconfirmed one changes nothing. -/
theorem handleCheckout_cart_after (fail : Failures) (st : AppState) (s : Store) :
    (st.cartItems ≠ [] → verifyStock st.products st.cartItems = none →
      (∀ e ∈ ((handleCheckout st).run fail s 0).2.2,
        ((∃ row, e.call = .insertSale row) ∨ (∃ rows, e.call = .insertSaleItems rows) ∨
          ∃ id v, e.call = .updateStock id v) → e.response.isError = false) →
      ((handleCheckout st).run fail s 0).1.cartItems = []) ∧
    ((st.cartItems = [] ∨ verifyStock st.products st.cartItems ≠ none ∨
        ∃ e ∈ ((handleCheckout st).run fail s 0).2.2,
          ((∃ row, e.call = .insertSale row) ∨ (∃ rows, e.call = .insertSaleItems rows) ∨
            ∃ id v, e.call = .updateStock id v) ∧ e.response.isError = true) →
      ((handleCheckout st).run fail s 0).1.cartItems = st.cartItems) ∧
    (handleClearCart st true).cartItems = [] ∧
    handleClearCart st false = st := by
  refine ⟨?_, ?_, rfl, rfl⟩
  · intro hne hv hok
    cases h0 : fail 0 with
    | some m0 =>
      rw [handleCheckout_run_sale_failed fail st s hne hv m0 h0] at hok
      have := hok _ (List.mem_singleton_self _) (Or.inl ⟨_, rfl⟩)
      simp [Response.isError] at this
    | none =>
      cases h1 : fail 1 with
      | some m1 =>
        rw [handleCheckout_run_items_failed fail st s hne hv h0 m1 h1] at hok
        have := hok ⟨.insertSaleItems (saleItemsToInsert s.nextId st.cartItems), .error m1⟩
          (by simp) (Or.inr (Or.inl ⟨_, rfl⟩))
        simp [Response.isError] at this
      | none =>
        have hfound : ∀ x ∈ st.cartItems, ∃ p, findProduct st.products x.id = some p := by
          intro x hx
          obtain ⟨p, hp, _⟩ := (verifyStock_eq_none_iff _ _).1 hv x hx
          exact ⟨p, hp⟩
        cases hL : (loopRun fail s st).1.2 with
        | some mL =>
          exfalso
          rw [handleCheckout_run_loop_failed fail st s hne hv h0 h1 mL hL] at hok
          have hnone := updateStockLoop_no_error fail st.products s.nextId st.cartItems
            { st with showConfirmation := true } (itemsStore s st) 2 hfound
            (fun e he hk => hok e
              (List.mem_cons_of_mem _ (List.mem_cons_of_mem _ he)) (Or.inr (Or.inr hk)))
          have h2 : (loopRun fail s st).1.2 = none := hnone
          rw [hL] at h2
          simp at h2
        | none =>
          rw [handleCheckout_run_completed fail st s hne hv h0 h1 hL]
          exact (refreshAfterSale_run fail _ _ _).2.2.1
  · intro h
    by_cases hvalid : st.cartItems = [] ∨ verifyStock st.products st.cartItems ≠ none
    · exact (handleCheckout_run_rejected fail st s hvalid).2
    · rcases h with h | h | ⟨e, he, hk, herr⟩
      · exact absurd (Or.inl h) hvalid
      · exact absurd (Or.inr h) hvalid
      · obtain ⟨pre, post, htr⟩ := List.append_of_mem he
        obtain ⟨msg, hmsg⟩ := (isError_eq_true_iff _).1 herr
        exact (handleCheckout_failed_write fail st s pre e post msg htr hmsg hk).2.2

/-! ## What the stock check reads -/

/-- C14 fails as stated: with the same cart (3 units of the first sample
product) and the same store (stock 5), a client whose cached list says 5
accepts and issues the `sales` insert, and a client whose cached list says 2
rejects, reporting 2 available although the store holds 5. -/
theorem handleCheckout_decision_reads_cache :
    (((handleCheckout (sampleApp [⟨cafe, 3⟩])).run noFailure sampleStore 0).2.2.map
        fun e => e.call).head? = some (.insertSale (saleOf (sampleApp [⟨cafe, 3⟩]))) ∧
      ((handleCheckout { sampleApp [⟨cafe, 3⟩] with products := [{ cafe with stock := 2 }] }).run
          noFailure sampleStore 0).2.2 = [] ∧
      ((handleCheckout { sampleApp [⟨cafe, 3⟩] with products := [{ cafe with stock := 2 }] }).run
          noFailure sampleStore 0).1.alerts = [.stockError "Cafe" 2] ∧
      (findProduct sampleStore.products 1).map (fun p => p.stock) = some 5 := by
  refine ⟨rfl, rfl, rfl, rfl⟩

/-- C14, as the code has it: the decision of the stock check is a function of
the cart and of the client's cached product list only.  For one client state and
any two stores and failure patterns, either both runs stop before any store call
with the same alert — the empty-cart alert, or the stock alert naming the first
short line and its cached stock — or both runs start with the same `sales`
insert. -/
theorem handleCheckout_decision_from_cache (st : AppState) (s₁ s₂ : Store)
    (fail₁ fail₂ : Failures) :
    (st.cartItems = [] →
      (handleCheckout st).run fail₁ s₁ 0 = (st.alert .emptyCart, s₁, []) ∧
        (handleCheckout st).run fail₂ s₂ 0 = (st.alert .emptyCart, s₂, [])) ∧
    (∀ item available, st.cartItems ≠ [] →
      verifyStock st.products st.cartItems = some (item, available) →
      (handleCheckout st).run fail₁ s₁ 0 =
          (st.alert (.stockError item.name available), s₁, []) ∧
        (handleCheckout st).run fail₂ s₂ 0 =
          (st.alert (.stockError item.name available), s₂, [])) ∧
    (st.cartItems ≠ [] → verifyStock st.products st.cartItems = none →
      (((handleCheckout st).run fail₁ s₁ 0).2.2.map fun e => e.call).head? =
          some (.insertSale (saleOf st)) ∧
        (((handleCheckout st).run fail₂ s₂ 0).2.2.map fun e => e.call).head? =
          some (.insertSale (saleOf st))) := by
  have hhead : ∀ (fail : Failures) (s : Store), st.cartItems ≠ [] →
      verifyStock st.products st.cartItems = none →
      (((handleCheckout st).run fail s 0).2.2.map fun e => e.call).head? =
        some (.insertSale (saleOf st)) := by
    intro fail s hne hv
    rw [handleCheckout_valid st hne hv]
    simp [Prog.run]
  refine ⟨?_, ?_, fun hne hv => ⟨hhead fail₁ s₁ hne hv, hhead fail₂ s₂ hne hv⟩⟩
  · intro hempty
    simp [handleCheckout, hempty, Prog.run]
  · intro item available hne hv
    have hlen : st.cartItems.length ≠ 0 := by simpa [List.length_eq_zero] using hne
    simp [handleCheckout, hlen, hv, Prog.run]

/-! ## Prices of cart lines -/

theorem findProduct_withoutPrice (ps₁ ps₂ : List Product)
    (h : ps₁.map withoutPrice = ps₂.map withoutPrice) (id : Nat) :
    (findProduct ps₁ id).map (fun p => p.stock) = (findProduct ps₂ id).map fun p => p.stock := by
  have h1 := findProduct_map withoutPrice (fun _ => rfl) ps₁ id
  have h2 := findProduct_map withoutPrice (fun _ => rfl) ps₂ id
  rw [h] at h1
  rw [h1] at h2
  cases hf1 : findProduct ps₁ id <;> cases hf2 : findProduct ps₂ id <;>
    simp [hf1, hf2] at h2 ⊢
  have := congrArg Product.stock h2
  simpa [withoutPrice] using this

theorem verifyStock_withoutPrice (ps₁ ps₂ : List Product)
    (h : ps₁.map withoutPrice = ps₂.map withoutPrice) (cart : List CartItem) :
    verifyStock ps₁ cart = verifyStock ps₂ cart := by
  induction cart with
  | nil => rfl
  | cons x rest ih =>
    have hs := findProduct_withoutPrice ps₁ ps₂ h x.id
    cases hf1 : findProduct ps₁ x.id <;> cases hf2 : findProduct ps₂ x.id <;>
      simp [hf1, hf2] at hs
    · simp [verifyStock, hf1, hf2]
    · simp [verifyStock, hf1, hf2, hs, ih]

theorem salesInserted_handleCheckout (fail : Failures) (st : AppState) (s : Store) :
    salesInserted ((handleCheckout st).run fail s 0).2.2 =
      if st.cartItems ≠ [] ∧ verifyStock st.products st.cartItems = none then [saleOf st]
      else [] := by
  by_cases hvalid : st.cartItems = [] ∨ verifyStock st.products st.cartItems ≠ none
  · have h := (handleCheckout_run_rejected fail st s hvalid).1
    have h2 : ((handleCheckout st).run fail s 0).2.2 = [] := by rw [h]
    have hn : ¬ (st.cartItems ≠ [] ∧ verifyStock st.products st.cartItems = none) := by
      rintro ⟨h1, h2⟩
      rcases hvalid with h | h
      · exact h1 h
      · exact h h2
    rw [h2, if_neg hn]
    rfl
  · simp only [not_or, not_not] at hvalid
    obtain ⟨hne, hv⟩ := hvalid
    rw [if_pos ⟨hne, hv⟩]
    cases h0 : fail 0 with
    | some msg =>
      rw [handleCheckout_run_sale_failed fail st s hne hv msg h0]
      rfl
    | none =>
      cases h1 : fail 1 with
      | some msg =>
        rw [handleCheckout_run_items_failed fail st s hne hv h0 msg h1]
        rfl
      | none =>
        have hk := salesInserted_of_kind (loopRun fail s st).2.2
          (updateStockLoop_kind fail _ _ _ _ _ _)
        cases hL : (loopRun fail s st).1.2 with
        | some msg =>
          rw [handleCheckout_run_loop_failed fail st s hne hv h0 h1 msg hL]
          simp only [salesInserted, List.filterMap_cons, saleEvent, itemsEvent]
          simpa [salesInserted] using hk.1
        | none =>
          rw [handleCheckout_run_completed fail st s hne hv h0 h1 hL]
          simp only [salesInserted, List.filterMap_cons, saleEvent, itemsEvent,
            List.filterMap_append, List.filterMap_nil, List.append_nil]
          simpa [salesInserted] using hk.1

theorem saleItemsInserted_handleCheckout (fail : Failures) (st : AppState) (s : Store) :
    saleItemsInserted ((handleCheckout st).run fail s 0).2.2 =
      if st.cartItems ≠ [] ∧ verifyStock st.products st.cartItems = none ∧ fail 0 = none then
        [saleItemsToInsert s.nextId st.cartItems]
      else [] := by
  by_cases hvalid : st.cartItems = [] ∨ verifyStock st.products st.cartItems ≠ none
  · have h := (handleCheckout_run_rejected fail st s hvalid).1
    have h2 : ((handleCheckout st).run fail s 0).2.2 = [] := by rw [h]
    have hn : ¬ (st.cartItems ≠ [] ∧ verifyStock st.products st.cartItems = none ∧
        fail 0 = none) := by
      rintro ⟨h1, h2, _⟩
      rcases hvalid with h | h
      · exact h1 h
      · exact h h2
    rw [h2, if_neg hn]
    rfl
  · simp only [not_or, not_not] at hvalid
    obtain ⟨hne, hv⟩ := hvalid
    cases h0 : fail 0 with
    | some msg =>
      rw [handleCheckout_run_sale_failed fail st s hne hv msg h0, if_neg (by simp)]
      rfl
    | none =>
      rw [if_pos ⟨hne, hv, rfl⟩]
      cases h1 : fail 1 with
      | some msg =>
        rw [handleCheckout_run_items_failed fail st s hne hv h0 msg h1]
        rfl
      | none =>
        have hk := salesInserted_of_kind (loopRun fail s st).2.2
          (updateStockLoop_kind fail _ _ _ _ _ _)
        cases hL : (loopRun fail s st).1.2 with
        | some msg =>
          rw [handleCheckout_run_loop_failed fail st s hne hv h0 h1 msg hL]
          simp only [saleItemsInserted, List.filterMap_cons, saleEvent, itemsEvent]
          simpa [saleItemsInserted] using hk.2
        | none =>
          rw [handleCheckout_run_completed fail st s hne hv h0 h1 hL]
          simp only [saleItemsInserted, List.filterMap_cons, saleEvent, itemsEvent,
            List.filterMap_append, List.filterMap_nil, List.append_nil]
          simpa [saleItemsInserted] using hk.2

/-- C15: a cart line keeps the product object it was created from, price
included.  `handleAddToCart` either leaves the product objects of all lines as
they are or appends one line holding the product passed to it, at quantity 1;
`handleUpdateQuantity` leaves the product objects as they are or removes the
lines of the given id; replacing the cached product list does not touch the
cart.  Two checkouts with the same cart and operator whose product lists differ
only in prices issue the same `sales` and `sale_items` inserts. -/
theorem cart_prices_stable (st : AppState) (productToAdd : Product) (itemId : Nat)
    (newQuantity : Int) (products' : List Product) :
    (((handleAddToCart st productToAdd).cartItems.map fun item => item.toProduct) =
          (st.cartItems.map fun item => item.toProduct) ∨
        (handleAddToCart st productToAdd).cartItems =
          st.cartItems ++ [{ toProduct := productToAdd, quantity := 1 }]) ∧
    (((handleUpdateQuantity st itemId newQuantity).cartItems.map fun item => item.toProduct) =
          (st.cartItems.map fun item => item.toProduct) ∨
        (handleUpdateQuantity st itemId newQuantity).cartItems =
          st.cartItems.filter fun item => item.id ≠ itemId) ∧
    ({ st with products := products' } : AppState).cartItems = st.cartItems ∧
    (∀ (st₂ : AppState) (fail : Failures) (s : Store),
      st₂.cartItems = st.cartItems → st₂.currentUser = st.currentUser →
      st₂.products.map withoutPrice = st.products.map withoutPrice →
      salesInserted ((handleCheckout st₂).run fail s 0).2.2 =
          salesInserted ((handleCheckout st).run fail s 0).2.2 ∧
        saleItemsInserted ((handleCheckout st₂).run fail s 0).2.2 =
          saleItemsInserted ((handleCheckout st).run fail s 0).2.2) := by
  refine ⟨?_, ?_, rfl, ?_⟩
  · unfold handleAddToCart
    split
    · exact Or.inl rfl
    · split
      · exact Or.inl rfl
      · split
        · split
          · exact Or.inl rfl
          · left
            simp only [List.map_map]
            apply List.map_congr_left
            intro item _
            simp only [Function.comp]
            split <;> rfl
        · exact Or.inr rfl
  · unfold handleUpdateQuantity
    split
    · exact Or.inl rfl
    · split
      · exact Or.inl rfl
      · split
        · exact Or.inr rfl
        · left
          simp only [List.map_map]
          apply List.map_congr_left
          intro item _
          simp only [Function.comp]
          split <;> rfl
  · intro st₂ fail s hcart huser hprod
    have hv : verifyStock st₂.products st₂.cartItems = verifyStock st.products st.cartItems := by
      rw [hcart]
      exact verifyStock_withoutPrice _ _ hprod _
    have hsale : saleOf st₂ = saleOf st := by
      simp only [saleOf, hcart, huser]
    rw [salesInserted_handleCheckout, salesInserted_handleCheckout,
      saleItemsInserted_handleCheckout, saleItemsInserted_handleCheckout, hv, hcart, hsale]
    exact ⟨rfl, rfl⟩

/-! ## The number a quantity field holds -/

theorem decDigit_isSome_iff (c : Char) :
    (decDigit c).isSome = true ↔ 48 ≤ c.toNat ∧ c.toNat ≤ 57 := by
  unfold decDigit
  split <;> simp_all

/-- The number a run of digits stands for, on top of the digits read so far. -/
theorem readDigits_allDigits (cs : List Char) (h : ∀ c ∈ cs, (decDigit c).isSome = true)
    (acc : Option Nat) :
    ∃ n : Nat, readDigits decDigit 10 acc cs = (if cs = [] then acc else some n, []) := by
  induction cs generalizing acc with
  | nil => exact ⟨0, rfl⟩
  | cons c rest ih =>
    have hc := h c (List.mem_cons_self _ _)
    obtain ⟨d, hd⟩ := Option.isSome_iff_exists.1 hc
    obtain ⟨n, hn⟩ := ih (fun x hx => h x (List.mem_cons_of_mem _ hx))
      (some (acc.getD 0 * 10 + d))
    by_cases hrest : rest = []
    · subst hrest
      exact ⟨acc.getD 0 * 10 + d, by simp [readDigits, hd]⟩
    · refine ⟨n, ?_⟩
      simp only [readDigits, hd, hn, hrest, if_false]
      simp

theorem digit_not_whiteSpace (c : Char) (h : (decDigit c).isSome = true) :
    isWhiteSpace c = false := by
  have hb := (decDigit_isSome_iff c).1 h
  unfold isWhiteSpace
  rw [Bool.or_eq_false_iff]
  constructor
  · rw [decide_eq_false_iff_not]
    simp only [List.mem_cons, List.mem_singleton, List.not_mem_nil, or_false]
    omega
  · rw [Bool.and_eq_false_iff]
    left
    rw [decide_eq_false_iff_not]
    omega

theorem digit_ne_ofNat (c : Char) (h : (decDigit c).isSome = true) (k : Nat)
    (hk : (Char.ofNat k).toNat < 48 ∨ 57 < (Char.ofNat k).toNat) : c ≠ Char.ofNat k := by
  have hb := (decDigit_isSome_iff c).1 h
  intro hc
  rw [hc] at hb
  omega

theorem dropWhile_whiteSpace_digits (l : List Char)
    (h : ∀ c ∈ l, (decDigit c).isSome = true) : l.dropWhile isWhiteSpace = l := by
  cases l with
  | nil => rfl
  | cons c rest =>
    rw [List.dropWhile_cons_of_neg]
    rw [digit_not_whiteSpace c (h c (List.mem_cons_self _ _))]
    simp

theorem readSign_digits (c : Char) (rest : List Char) (h : (decDigit c).isSome = true) :
    readSign (c :: rest) = (false, c :: rest) := by
  simp [readSign, digit_ne_ofNat c h 45 (by decide), digit_ne_ofNat c h 43 (by decide)]

theorem bareDot_digits (l : List Char) (h : ∀ c ∈ l, (decDigit c).isSome = true) :
    bareDot l = false := by
  induction l with
  | nil => rfl
  | cons c rest ih =>
    have hc := digit_ne_ofNat c (h c (List.mem_cons_self _ _)) 46 (by decide)
    cases rest with
    | nil => simp [bareDot, hc]
    | cons d rest' =>
      simp only [bareDot, hc, decide_False, Bool.false_and, Bool.false_or]
      exact ih fun x hx => h x (List.mem_cons_of_mem _ hx)

theorem readDecimal_digits (c : Char) (rest : List Char) (n : Nat)
    (hn : readDigits decDigit 10 none (c :: rest) = (some n, [])) :
    readDecimal (c :: rest) = some ((n : ℚ), []) := by
  simp [readDecimal, hn, readExponent]

/-- Text that is a run of digits is read as the same whole number by the field,
by `parseInt` with and without the radix, and passes `isNaN`. -/
theorem typedAsDigits_reads (text : String) (q : Int) (h : typedAsDigits text q) :
    text ≠ "" ∧ isNaN text = false ∧ parseInt text = some q ∧ parseInt10 text = some q := by
  obtain ⟨hall, hval⟩ := h
  simp only [allDigits, Bool.and_eq_true, decide_eq_true_eq, List.all_eq_true] at hall
  obtain ⟨hne, hdig⟩ := hall
  obtain ⟨c, rest, hcs⟩ := List.exists_cons_of_ne_nil hne
  rw [hcs] at hdig
  have hc := hdig c (List.mem_cons_self _ _)
  obtain ⟨n, hn⟩ := readDigits_allDigits (c :: rest) hdig none
  simp only [reduceCtorEq, if_false] at hn
  have hdec := readDecimal_digits c rest n hn
  have hcs' : text.data = c :: rest := hcs
  have hq : q = (n : Int) := by
    have hv : valueAsNumber text = some (n : ℚ) := by
      simp [valueAsNumber, hcs', digit_ne_ofNat c hc 45 (by decide), bareDot_digits _ hdig, hdec]
    rw [hv] at hval
    have : (n : ℚ) = (q : ℚ) := Option.some.inj hval
    exact_mod_cast this.symm
  subst hq
  have hdrop := dropWhile_whiteSpace_digits (c :: rest) hdig
  have hsign := readSign_digits c rest hc
  refine ⟨?_, ?_, ?_, ?_⟩
  · intro ht
    rw [ht] at hcs
    simp at hcs
  · have hrev : ∀ x ∈ (c :: rest).reverse, (decDigit x).isSome = true :=
      fun x hx => hdig x (List.mem_reverse.1 hx)
    have ht : (((c :: rest).dropWhile isWhiteSpace).reverse.dropWhile isWhiteSpace).reverse =
        c :: rest := by
      rw [hdrop, dropWhile_whiteSpace_digits _ hrev, List.reverse_reverse]
    have hinf : c :: rest ≠ "Infinity".toList := by
      intro hi
      have : c = Char.ofNat 73 := by
        have := congrArg List.head? hi
        simpa using this
      exact digit_ne_ofNat c hc 73 (by decide) this
    unfold isNaN
    rw [hcs]
    simp only [ht]
    cases rest with
    | nil => simp [hsign, hinf, hdec]
    | cons x rest' =>
      have hx := hdig x (List.mem_cons_of_mem _ (List.mem_cons_self _ _))
      simp [hsign, hinf, hdec, digit_ne_ofNat x hx 120 (by decide),
        digit_ne_ofNat x hx 88 (by decide), digit_ne_ofNat x hx 111 (by decide),
        digit_ne_ofNat x hx 79 (by decide), digit_ne_ofNat x hx 98 (by decide),
        digit_ne_ofNat x hx 66 (by decide)]
  · unfold parseInt
    rw [hcs]
    simp only [hdrop, hsign]
    cases rest with
    | nil => simp [hn]
    | cons x rest' =>
      have hx := hdig x (List.mem_cons_of_mem _ (List.mem_cons_self _ _))
      simp [hn, digit_ne_ofNat x hx 120 (by decide), digit_ne_ofNat x hx 88 (by decide)]
  · unfold parseInt10
    rw [hcs]
    simp [hdrop, hsign, hn]

/-! ## Stock adjustments -/

theorem respond_updateStockSingle (fail : Failures) (s : Store) (n : Nat) (id : Nat)
    (x : Option ℚ) :
    (∃ msg, respond fail s n (.updateStockSingle id x) = (s, .error msg)) ∨
      ∃ v row, x = some ((v : Int) : ℚ) ∧ (s.products.filter fun r => r.id = id) = [row] ∧
        respond fail s n (.updateStockSingle id x) =
          ({ s with products := setStock id v s.products }, .product { row with stock := v }) := by
  unfold respond
  cases fail n with
  | some msg => exact Or.inl ⟨msg, rfl⟩
  | none =>
    simp only [Store.exec]
    cases hx : asInteger x with
    | none => exact Or.inl ⟨_, rfl⟩
    | some v =>
      simp only
      split
      · rename_i row hrow
        exact Or.inr ⟨v, row, asInteger_eq_some hx, hrow, rfl⟩
      · exact Or.inl ⟨_, rfl⟩

theorem appAdjustStock_rejected (fail : Failures) (st : AppState) (s : Store)
    (productId : Nat) (productName type : String) (quantity : ℚ) (reason : String)
    (p : Product) (hfind : findProduct st.products productId = some p)
    (hneg : adjustedStock p.stock type quantity < 0) :
    (App.handleAdjustStock st productId productName type quantity reason).run fail s 0 =
      (st.alert .negativeStock, s, []) := by
  simp [App.handleAdjustStock, hfind, hneg, Prog.run]

theorem appAdjustStock_issued (fail : Failures) (st : AppState) (s : Store)
    (productId : Nat) (productName type : String) (quantity : ℚ) (reason : String)
    (p : Product) (hfind : findProduct st.products productId = some p)
    (hnn : ¬ adjustedStock p.stock type quantity < 0) :
    (∃ msg,
        (App.handleAdjustStock st productId productName type quantity reason).run fail s 0 =
          ((st.consoleError "Error adjusting stock:").alert (.adjustFailed msg), s,
            [⟨.updateStockSingle productId (some (adjustedStock p.stock type quantity)),
              .error msg⟩])) ∨
      ∃ v row, adjustedStock p.stock type quantity = ((v : Int) : ℚ) ∧
        (s.products.filter fun r => r.id = productId) = [row] ∧
        ((App.handleAdjustStock st productId productName type quantity reason).run fail s 0).2.2 =
          [⟨.updateStockSingle productId (some (adjustedStock p.stock type quantity)),
              .product { row with stock := v }⟩,
            ⟨.insertLog (adjustLog productId productName type (some quantity)
                (some (adjustedStock p.stock type quantity)) reason),
              (respond fail { s with products := setStock productId v s.products } 1
                (.insertLog (adjustLog productId productName type (some quantity)
                  (some (adjustedStock p.stock type quantity)) reason))).2⟩] ∧
        ((App.handleAdjustStock st productId productName type quantity reason).run fail s 0).2.1 =
          (respond fail { s with products := setStock productId v s.products } 1
            (.insertLog (adjustLog productId productName type (some quantity)
              (some (adjustedStock p.stock type quantity)) reason))).1 ∧
        ((App.handleAdjustStock st productId productName type quantity reason).run fail
            s 0).1.products = replaceProduct productId { row with stock := v } st.products ∧
        ((App.handleAdjustStock st productId productName type quantity reason).run fail
            s 0).1.alerts = st.alerts ++ [.stockAdjusted] := by
  rcases respond_updateStockSingle fail s 0 productId
      (some (adjustedStock p.stock type quantity)) with ⟨msg, hr⟩ | ⟨v, row, hx, hrow, hr⟩
  · left
    refine ⟨msg, ?_⟩
    simp only [App.handleAdjustStock, hfind, hnn, if_false, Prog.run, hr]
  · right
    refine ⟨v, row, by simpa using hx, hrow, ?_⟩
    simp only [App.handleAdjustStock, hfind, hnn, if_false, Prog.run, hr, Nat.zero_add,
      adjustLog]
    generalize respond fail { s with products := setStock productId v s.products } 1
      (.insertLog _) = r
    obtain ⟨s', resp⟩ := r
    cases resp <;>
      simp [Prog.run, AppState.alert, AppState.consoleError]

theorem respond_selectLogs_store (fail : Failures) (s : Store) (n : Nat) (pid : Option Nat) :
    (respond fail s n (.selectLogs pid)).1 = s := by
  unfold respond
  cases fail n with
  | some msg => rfl
  | none => cases pid <;> rfl

theorem refreshInventory_run (fail : Failures) (st : InventoryState) (selected : Option Nat)
    (s : Store) (n : Nat) :
    ((refreshInventory st selected).run fail s n).2.1 = s ∧
    ((refreshInventory st selected).run fail s n).2.2 =
      [⟨.selectProducts, (respond fail s n .selectProducts).2⟩,
        ⟨.selectLogs selected, (respond fail s (n + 1) (.selectLogs selected)).2⟩] ∧
    ((refreshInventory st selected).run fail s n).1.alerts = st.alerts ++ [.stockAdjusted] ∧
    (∀ ps, (respond fail s n .selectProducts).2 = .products ps →
      ((refreshInventory st selected).run fail s n).1.products = ps) := by
  have h1 := respond_selectProducts_store fail s n
  have h2 := respond_selectLogs_store fail s (n + 1) selected
  simp only [refreshInventory, fetchProducts, fetchInventoryLogs, Prog.bind, Prog.run, h1, h2]
  generalize (respond fail s n .selectProducts).2 = r1
  generalize (respond fail s (n + 1) (.selectLogs selected)).2 = r2
  cases r1 <;> cases r2 <;>
    simp [InventoryState.alert, InventoryState.consoleError]

theorem inventoryAdjustStock_invalid (fail : Failures) (st : InventoryState)
    (s : Store)
    (h : st.adjustmentDetails.quantity = "" ∨ isNaN st.adjustmentDetails.quantity = true ∨
      nonPositive (parseInt st.adjustmentDetails.quantity) = true) :
    (InventoryManagement.handleAdjustStock st).run fail s 0 =
      (st.alert .invalidQuantity, s, []) := by
  simp only [InventoryManagement.handleAdjustStock, h, if_true, Prog.run]

theorem inventoryAdjustStock_rejected (fail : Failures) (st : InventoryState)
    (s : Store) (q : Int) (hq : 0 < q)
    (hread : st.adjustmentDetails.quantity ≠ "" ∧ isNaN st.adjustmentDetails.quantity = false ∧
      parseInt st.adjustmentDetails.quantity = some q ∧
      parseInt10 st.adjustmentDetails.quantity = some q)
    (p : Product) (hid : st.adjustmentDetails.productId = some p.id)
    (hfind : findProduct st.products p.id = some p)
    (hneg : isNegative (adjustedStockParsed p.stock st.adjustmentDetails.type (some q)) = true) :
    (InventoryManagement.handleAdjustStock st).run fail s 0 =
      (st.alert .negativeStock, s, []) := by
  obtain ⟨hne, hnan, hp, hp10⟩ := hread
  have hguard : ¬ (st.adjustmentDetails.quantity = "" ∨
      isNaN st.adjustmentDetails.quantity = true ∨
      nonPositive (parseInt st.adjustmentDetails.quantity) = true) := by
    simp [hne, hnan, hp, nonPositive, hq]
  simp only [InventoryManagement.handleAdjustStock, hguard, if_false, hid, Option.some_bind,
    hfind, hp10, hneg, if_true, Prog.run]

theorem inventoryAdjustStock_issued (fail : Failures) (st : InventoryState)
    (s : Store) (q : Int) (hq : 0 < q)
    (hread : st.adjustmentDetails.quantity ≠ "" ∧ isNaN st.adjustmentDetails.quantity = false ∧
      parseInt st.adjustmentDetails.quantity = some q ∧
      parseInt10 st.adjustmentDetails.quantity = some q)
    (p : Product) (hid : st.adjustmentDetails.productId = some p.id)
    (hfind : findProduct st.products p.id = some p) (w : Int)
    (hw : adjustedStockParsed p.stock st.adjustmentDetails.type (some q) = some w)
    (hnn : 0 ≤ w) :
    (∃ msg, (InventoryManagement.handleAdjustStock st).run fail s 0 =
        ((st.consoleError "Error adjusting stock:").alert (.adjustFailed msg), s,
          [⟨.updateStockSingle p.id (some (w : ℚ)), .error msg⟩])) ∨
      ∃ row, (s.products.filter fun r => r.id = p.id) = [row] ∧
        ((InventoryManagement.handleAdjustStock st).run fail s 0).2.2 =
          [⟨.updateStockSingle p.id (some (w : ℚ)), .product { row with stock := w }⟩,
            ⟨.insertLog (adjustLog p.id st.adjustmentDetails.productName
                st.adjustmentDetails.type (some (q : ℚ)) (some (w : ℚ))
                st.adjustmentDetails.reason),
              (respond fail { s with products := setStock p.id w s.products } 1
                (.insertLog (adjustLog p.id st.adjustmentDetails.productName
                  st.adjustmentDetails.type (some (q : ℚ)) (some (w : ℚ))
                  st.adjustmentDetails.reason))).2⟩,
            ⟨.selectProducts,
              (respond fail
                (respond fail { s with products := setStock p.id w s.products } 1
                  (.insertLog (adjustLog p.id st.adjustmentDetails.productName
                    st.adjustmentDetails.type (some (q : ℚ)) (some (w : ℚ))
                    st.adjustmentDetails.reason))).1 2 .selectProducts).2⟩,
            ⟨.selectLogs (st.selectedProductForLogs.map fun x => x.id),
              (respond fail
                (respond fail { s with products := setStock p.id w s.products } 1
                  (.insertLog (adjustLog p.id st.adjustmentDetails.productName
                    st.adjustmentDetails.type (some (q : ℚ)) (some (w : ℚ))
                    st.adjustmentDetails.reason))).1 3
                (.selectLogs (st.selectedProductForLogs.map fun x => x.id))).2⟩] ∧
        ((InventoryManagement.handleAdjustStock st).run fail s 0).2.1 =
          (respond fail { s with products := setStock p.id w s.products } 1
            (.insertLog (adjustLog p.id st.adjustmentDetails.productName
              st.adjustmentDetails.type (some (q : ℚ)) (some (w : ℚ))
              st.adjustmentDetails.reason))).1 ∧
        ((InventoryManagement.handleAdjustStock st).run fail s 0).1.alerts =
          st.alerts ++ [.stockAdjusted] ∧
        (∀ ps,
          (respond fail
            (respond fail { s with products := setStock p.id w s.products } 1
              (.insertLog (adjustLog p.id st.adjustmentDetails.productName
                st.adjustmentDetails.type (some (q : ℚ)) (some (w : ℚ))
                st.adjustmentDetails.reason))).1 2 .selectProducts).2 = .products ps →
          ((InventoryManagement.handleAdjustStock st).run fail s 0).1.products = ps) := by
  obtain ⟨hne, hnan, hp, hp10⟩ := hread
  have hguard : ¬ (st.adjustmentDetails.quantity = "" ∨
      isNaN st.adjustmentDetails.quantity = true ∨
      nonPositive (parseInt st.adjustmentDetails.quantity) = true) := by
    simp [hne, hnan, hp, nonPositive, hq]
  have hneg : ¬ isNegative (some w) = true := by simp [isNegative, hnn]
  have hprog : InventoryManagement.handleAdjustStock st =
      .call (.updateStockSingle p.id (some (w : ℚ))) fun r =>
        match r with
        | .error message =>
          .done ((st.consoleError "Error adjusting stock:").alert (.adjustFailed message))
        | _ =>
          .call (.insertLog (adjustLog p.id st.adjustmentDetails.productName
              st.adjustmentDetails.type (some (q : ℚ)) (some (w : ℚ))
              st.adjustmentDetails.reason)) fun log =>
            refreshInventory (adjustmentClosed st log.isError)
              (st.selectedProductForLogs.map fun x => x.id) := by
    simp only [InventoryManagement.handleAdjustStock, hguard, if_false, hid, Option.some_bind,
      hfind, hp10, hw, hneg, Option.map_some', adjustLog, Bool.false_eq_true]
    congr 1
    funext r
    cases r <;> first
      | rfl
      | (dsimp only
         congr 1
         funext log
         cases log <;> rfl)
  rw [hprog]
  rcases respond_updateStockSingle fail s 0 p.id (some (w : ℚ)) with
    ⟨msg, hr⟩ | ⟨v, row, hx, hrow, hr⟩
  · left
    exact ⟨msg, by simp only [Prog.run, hr]⟩
  · right
    have hv : v = w := by
      have : ((w : Int) : ℚ) = ((v : Int) : ℚ) := by simpa using hx
      exact_mod_cast this.symm
    subst hv
    refine ⟨row, hrow, ?_⟩
    simp only [Prog.run_call, hr, Nat.zero_add, Nat.reduceAdd]
    have hR := refreshInventory_run fail
      (adjustmentClosed st (respond fail { s with products := setStock p.id v s.products } 1
        (.insertLog (adjustLog p.id st.adjustmentDetails.productName
          st.adjustmentDetails.type (some (q : ℚ)) (some (v : ℚ))
          st.adjustmentDetails.reason))).2.isError)
      (st.selectedProductForLogs.map fun x => x.id)
      (respond fail { s with products := setStock p.id v s.products } 1
        (.insertLog (adjustLog p.id st.adjustmentDetails.productName
          st.adjustmentDetails.type (some (q : ℚ)) (some (v : ℚ))
          st.adjustmentDetails.reason))).1 2
    simp only [Nat.reduceAdd] at hR
    refine ⟨?_, hR.1, ?_, hR.2.2.2⟩
    · rw [hR.2.1]
    · rw [hR.2.2.1]
      simp only [adjustmentClosed]
      split <;> rfl

theorem adjustedStock_salida (stock q : Int) :
    adjustedStock (stock : ℚ) "salida" (q : ℚ) = ((stock - q : Int) : ℚ) := by
  simp [adjustedStock]

theorem adjustedStock_entrada (stock q : Int) :
    adjustedStock (stock : ℚ) "entrada" (q : ℚ) = ((stock + q : Int) : ℚ) := by
  simp [adjustedStock]

theorem adjustedStock_ajuste (stock : ℚ) (q : ℚ) : adjustedStock stock "ajuste" q = q := by
  simp [adjustedStock]

theorem respond_insertLog_products (fail : Failures) (s : Store) (n : Nat)
    (row : InventoryLog) : (respond fail s n (.insertLog row)).1.products = s.products := by
  unfold respond
  cases fail n <;> rfl

theorem respond_updateStockSingle_ok (fail : Failures) (s : Store) (n : Nat) (id : Nat)
    (v : Int) (row : Product) (h0 : fail n = none)
    (hrow : (s.products.filter fun r => r.id = id) = [row]) :
    respond fail s n (.updateStockSingle id (some (v : ℚ))) =
      ({ s with products := setStock id v s.products }, .product { row with stock := v }) := by
  rw [respond_of_ok h0]
  simp only [Store.exec, asInteger_intCast, hrow]

theorem appAdjustStock_accepted (fail : Failures) (st : AppState) (s : Store)
    (productId : Nat) (productName type : String) (quantity : ℚ) (reason : String)
    (p : Product) (hfind : findProduct st.products productId = some p) (v : Int)
    (hv : adjustedStock p.stock type quantity = (v : ℚ)) (hnn : 0 ≤ v) (row : Product)
    (hrow : (s.products.filter fun r => r.id = productId) = [row]) (h0 : fail 0 = none) :
    ((App.handleAdjustStock st productId productName type quantity reason).run fail
        s 0).2.1.products = setStock productId v s.products ∧
    ((App.handleAdjustStock st productId productName type quantity reason).run fail
        s 0).1.alerts = st.alerts ++ [.stockAdjusted] ∧
    ((App.handleAdjustStock st productId productName type quantity reason).run fail
        s 0).1.products = replaceProduct productId { row with stock := v } st.products ∧
    ((App.handleAdjustStock st productId productName type quantity reason).run fail
        s 0).2.2.head? =
      some ⟨.updateStockSingle productId (some (v : ℚ)), .product { row with stock := v }⟩ := by
  have hnn' : ¬ ((v : ℚ) < 0) := by
    exact_mod_cast not_lt.mpr hnn
  have hr := respond_updateStockSingle_ok fail s 0 productId v row h0 hrow
  simp only [App.handleAdjustStock, hfind, hv, hnn', if_false, Prog.run_call, hr, Nat.zero_add]
  generalize hg : respond fail { s with products := setStock productId v s.products } 1
    (.insertLog _) = r
  have hprod := respond_insertLog_products fail
    { s with products := setStock productId v s.products } 1
    { product_id := productId, product_name := productName, change_type := type,
      quantity_change := some quantity, new_stock := some (v : ℚ),
      reason := adjustReason reason type }
  rw [hg] at hprod
  obtain ⟨s', resp⟩ := r
  cases resp <;>
    simp [Prog.run, AppState.alert, AppState.consoleError] <;> exact hprod

theorem inventoryAdjustStock_accepted (fail : Failures)
    (st : InventoryState) (s : Store) (q : Int) (hq : 0 < q)
    (hread : st.adjustmentDetails.quantity ≠ "" ∧ isNaN st.adjustmentDetails.quantity = false ∧
      parseInt st.adjustmentDetails.quantity = some q ∧
      parseInt10 st.adjustmentDetails.quantity = some q)
    (p : Product) (hid : st.adjustmentDetails.productId = some p.id)
    (hfind : findProduct st.products p.id = some p) (w : Int)
    (hw : adjustedStockParsed p.stock st.adjustmentDetails.type (some q) = some w)
    (hnn : 0 ≤ w) (row : Product)
    (hrow : (s.products.filter fun r => r.id = p.id) = [row]) (h0 : fail 0 = none) :
    ((InventoryManagement.handleAdjustStock st).run fail s 0).2.1.products =
      setStock p.id w s.products ∧
    ((InventoryManagement.handleAdjustStock st).run fail s 0).1.alerts =
      st.alerts ++ [.stockAdjusted] ∧
    (fail 2 = none →
      ((InventoryManagement.handleAdjustStock st).run fail s 0).1.products =
        (setStock p.id w s.products).insertionSort fun a b => a.name ≤ b.name) := by
  rcases inventoryAdjustStock_issued fail st s q hq hread p hid hfind w hw hnn
    with ⟨msg, h⟩ | ⟨row', _, htr, hstore, halert, hprod⟩
  · exfalso
    have hr := respond_updateStockSingle_ok fail s 0 p.id w row h0 hrow
    have hguard : ¬ (st.adjustmentDetails.quantity = "" ∨
        isNaN st.adjustmentDetails.quantity = true ∨
        nonPositive (parseInt st.adjustmentDetails.quantity) = true) := by
      simp [hread.1, hread.2.1, hread.2.2.1, nonPositive, hq]
    have hneg : ¬ isNegative (some w) = true := by simp [isNegative, hnn]
    have htrace : ((InventoryManagement.handleAdjustStock st).run fail s 0).2.2.head? =
        some ⟨.updateStockSingle p.id (some (w : ℚ)), .product { row with stock := w }⟩ := by
      simp only [InventoryManagement.handleAdjustStock, hguard, if_false, hid,
        Option.some_bind, hfind, hread.2.2.2, hw, hneg, Option.map_some', Bool.false_eq_true,
        Prog.run_call, hr, List.head?_cons]
    rw [h] at htrace
    simp at htrace
  · refine ⟨?_, halert, ?_⟩
    · rw [hstore, respond_insertLog_products]
    · intro h2
      apply hprod
      rw [respond_of_ok h2]
      simp only [Store.exec]
      rw [respond_insertLog_products]

/-- C9, at its failing input.  The quantity field of `InventoryManagement` holds
the text "1e1", the number ten, for an outbound adjustment (`salida`) of a
product with stock 5: 5 - 10 is below 0, so the claim wants the negative-stock
alert and no store call.  The handler reads the text with `parseInt`, which
stops at the `e` and gives 1: the stock update carries 4, the store ends with
stock 4, the log row records a change of 1, and success is reported.  (Typed as
"100", a quantity of a hundred is refused as the claim says.)  For a quantity
typed as plain digits the handler does what the claim says: when `s - q < 0` it
stops before any store call with the negative-stock alert, the store and the
cached list being what they were, and when `s - q ≥ 0` its one stock write
carries exactly `s - q`; so does `App.handleAdjustStock`, for which the quantity
is a number. -/
theorem stock_out_exponent_quantity :
    valueAsNumber "1e1" = some 10 ∧
    (findProduct (sampleInventory "salida" "1e1").products 1).map (fun p => p.stock) = some 5 ∧
    stockWrites ((InventoryManagement.handleAdjustStock (sampleInventory "salida" "1e1")).run
        noFailure sampleStore 0).2.2 = [some 4] ∧
    ((InventoryManagement.handleAdjustStock (sampleInventory "salida" "1e1")).run
        noFailure sampleStore 0).1.alerts = [.stockAdjusted] ∧
    (findProduct ((InventoryManagement.handleAdjustStock (sampleInventory "salida" "1e1")).run
        noFailure sampleStore 0).2.1.products 1).map (fun p => p.stock) = some 4 ∧
    ((InventoryManagement.handleAdjustStock (sampleInventory "salida" "1e1")).run
        noFailure sampleStore 0).2.1.inventory_logs.map
      (fun row => (row.quantity_change, row.new_stock)) = [(some 1, some 4)] ∧
    (InventoryManagement.handleAdjustStock (sampleInventory "salida" "100")).run
        noFailure sampleStore 0 =
      ((sampleInventory "salida" "100").alert .negativeStock, sampleStore, []) ∧
    (∀ (fail : Failures) (inv : InventoryState) (s : Store) (p : Product) (q : Int),
      0 < q → findProduct inv.products p.id = some p →
      inv.adjustmentDetails.productId = some p.id → inv.adjustmentDetails.type = "salida" →
      typedAsDigits inv.adjustmentDetails.quantity q →
      (p.stock - q < 0 →
        (InventoryManagement.handleAdjustStock inv).run fail s 0 =
          ({ inv with alerts := inv.alerts ++ [.negativeStock] }, s, [])) ∧
      (0 ≤ p.stock - q →
        stockWrites ((InventoryManagement.handleAdjustStock inv).run fail s 0).2.2 =
          [some ((p.stock - q : Int) : ℚ)])) ∧
    (∀ (fail : Failures) (app : AppState) (s : Store) (p : Product)
        (productName reason : String),
      findProduct app.products p.id = some p →
      (∀ x : ℚ, (p.stock : ℚ) - x < 0 →
        (App.handleAdjustStock app p.id productName "salida" x reason).run fail s 0 =
          ({ app with alerts := app.alerts ++ [.negativeStock] }, s, [])) ∧
      (∀ q : Int, 0 ≤ p.stock - q →
        stockWrites ((App.handleAdjustStock app p.id productName "salida" q reason).run
          fail s 0).2.2 = [some ((p.stock - q : Int) : ℚ)])) := by
  refine ⟨by decide!, by decide!, by decide!, by decide!, by decide!, by decide!, by decide!,
    ?_, ?_⟩
  · intro fail inv s p q hq hinv hid htype hread
    have hreads := typedAsDigits_reads _ _ hread
    constructor
    · intro hneg
      refine inventoryAdjustStock_rejected fail inv s q hq hreads p hid hinv ?_
      simp [adjustedStockParsed, htype, isNegative, hneg]
    · intro hnn
      have hw : adjustedStockParsed p.stock inv.adjustmentDetails.type (some q) =
          some (p.stock - q) := by
        simp [adjustedStockParsed, htype]
      rcases inventoryAdjustStock_issued fail inv s q hq hreads p hid hinv
          (p.stock - q) hw hnn with ⟨msg, h⟩ | ⟨row, _, h, _⟩
      · rw [h]
        rfl
      · rw [h]
        rfl
  · intro fail app s p productName reason happ
    constructor
    · intro x hx
      refine appAdjustStock_rejected fail app s p.id productName "salida" x reason p
        happ ?_
      simpa [adjustedStock] using hx
    · intro q hnn
      have hnn' : ¬ adjustedStock (p.stock : ℚ) "salida" (q : ℚ) < 0 := by
        rw [adjustedStock_salida]
        exact_mod_cast not_lt.mpr hnn
      rcases appAdjustStock_issued fail app s p.id productName "salida" q reason p happ
          hnn' with ⟨msg, h⟩ | ⟨v, row, _, _, h, _⟩
      · rw [h, adjustedStock_salida]
        rfl
      · rw [h, adjustedStock_salida]
        rfl

/-- C10, at its failing input.  The quantity field of `InventoryManagement` holds
the text "1e2", the number one hundred, for an inbound adjustment (`entrada`) of
a product with stock 5: the claim wants stock 105 written.  The handler reads
the text with `parseInt`, which stops at the `e` and gives 1: the stock update
carries 6, the store ends with stock 6, and success is reported.  A second
divergence: for a product that holds the negative stock -3 in the store and in
the cache (the add form of `AdminPanel` lets such a stock in) an inbound
adjustment by 2 ends with the negative-stock alert and no store call.  For a quantity typed as plain digits and a sum
`s + q ≥ 0` both handlers do what the claim says: the one stock write carries
`s + q`, the writes are an initial segment of the stock update of that product
followed by its log row, so no other product is written, and the closing alert
is not the negative-stock alert. -/
theorem stock_in_exponent_quantity :
    valueAsNumber "1e2" = some 100 ∧
    (findProduct (sampleInventory "entrada" "1e2").products 1).map (fun p => p.stock) = some 5 ∧
    stockWrites ((InventoryManagement.handleAdjustStock (sampleInventory "entrada" "1e2")).run
        noFailure sampleStore 0).2.2 = [some 6] ∧
    ((InventoryManagement.handleAdjustStock (sampleInventory "entrada" "1e2")).run
        noFailure sampleStore 0).1.alerts = [.stockAdjusted] ∧
    (findProduct ((InventoryManagement.handleAdjustStock (sampleInventory "entrada" "1e2")).run
        noFailure sampleStore 0).2.1.products 1).map (fun p => p.stock) = some 6 ∧
    (InventoryManagement.handleAdjustStock (inventoryWithStock (-3) "entrada" "2")).run
        noFailure (storeWithStock (-3)) 0 =
      ((inventoryWithStock (-3) "entrada" "2").alert .negativeStock, storeWithStock (-3), []) ∧
    (∀ (fail : Failures) (inv : InventoryState) (s : Store) (p : Product) (q : Int),
      0 < q → 0 ≤ p.stock + q → findProduct inv.products p.id = some p →
      inv.adjustmentDetails.productId = some p.id → inv.adjustmentDetails.type = "entrada" →
      typedAsDigits inv.adjustmentDetails.quantity q →
      stockWrites ((InventoryManagement.handleAdjustStock inv).run fail s 0).2.2 =
          [some ((p.stock + q : Int) : ℚ)] ∧
        writeCalls ((InventoryManagement.handleAdjustStock inv).run fail s 0).2.2 <+:
          [.updateStockSingle p.id (some ((p.stock + q : Int) : ℚ)),
            .insertLog (adjustLog p.id inv.adjustmentDetails.productName "entrada"
              (some (q : ℚ)) (some ((p.stock + q : Int) : ℚ)) inv.adjustmentDetails.reason)] ∧
        ∃ a, ((InventoryManagement.handleAdjustStock inv).run fail s 0).1.alerts =
            inv.alerts ++ [a] ∧ a ≠ .negativeStock) ∧
    (∀ (fail : Failures) (app : AppState) (s : Store) (p : Product)
        (productName reason : String) (q : Int),
      0 ≤ p.stock + q → findProduct app.products p.id = some p →
      stockWrites ((App.handleAdjustStock app p.id productName "entrada" q reason).run
          fail s 0).2.2 = [some ((p.stock + q : Int) : ℚ)] ∧
        writeCalls ((App.handleAdjustStock app p.id productName "entrada" q reason).run
            fail s 0).2.2 <+:
          [.updateStockSingle p.id (some ((p.stock + q : Int) : ℚ)),
            .insertLog (adjustLog p.id productName "entrada" (some (q : ℚ))
              (some ((p.stock + q : Int) : ℚ)) reason)] ∧
        ∃ a, ((App.handleAdjustStock app p.id productName "entrada" q reason).run
            fail s 0).1.alerts = app.alerts ++ [a] ∧ a ≠ .negativeStock) := by
  refine ⟨by decide!, by decide!, by decide!, by decide!, by decide!, by decide!, ?_, ?_⟩
  · intro fail inv s p q hq hsum hinv hid htype hread
    have hreads := typedAsDigits_reads _ _ hread
    have hw : adjustedStockParsed p.stock inv.adjustmentDetails.type (some q) =
        some (p.stock + q) := by
      simp [adjustedStockParsed, htype]
    rcases inventoryAdjustStock_issued fail inv s q hq hreads p hid hinv
        (p.stock + q) hw hsum with ⟨msg, h⟩ | ⟨row, _, h, _, halert, _⟩
    · rw [h]
      exact ⟨rfl, ⟨_, rfl⟩, _, rfl, by simp⟩
    · rw [halert, h, htype]
      exact ⟨rfl, ⟨[], rfl⟩, _, rfl, by simp⟩
  · intro fail app s p productName reason q hsum happ
    have hnn' : ¬ adjustedStock (p.stock : ℚ) "entrada" (q : ℚ) < 0 := by
      rw [adjustedStock_entrada]
      exact_mod_cast not_lt.mpr hsum
    rcases appAdjustStock_issued fail app s p.id productName "entrada" q reason p happ
        hnn' with ⟨msg, h⟩ | ⟨v, row, _, _, h, _, _, halert⟩
    · rw [h, adjustedStock_entrada]
      exact ⟨rfl, ⟨_, rfl⟩, _, rfl, by simp⟩
    · rw [halert, h, adjustedStock_entrada]
      exact ⟨rfl, ⟨[], rfl⟩, _, rfl, by simp⟩

/-- C11, at its failing input.  The quantity field of `InventoryManagement` holds
the text "1e1", the number ten, for an absolute adjustment (`ajuste`) of a
product with stock 5: the claim wants the stock set to 10.  The handler reads
the text with `parseInt`, which stops at the `e` and gives 1: the stock update
carries 1, the store ends with stock 1, and success is reported.  The guard of
the same handler also refuses the quantities 0 and -3 with the invalid-quantity
alert, where the claim wants 0 set and the negative-stock alert for -3, as
`App.handleAdjustStock` does.  For a quantity `q > 0` typed as plain digits the
handler does what the claim says: the one stock write carries `q`, and when the
update reaches a store that holds exactly one row of that id the stock of the
product becomes `q` and success is reported. -/
theorem stock_set_exponent_quantity :
    valueAsNumber "1e1" = some 10 ∧
    stockWrites ((InventoryManagement.handleAdjustStock (sampleInventory "ajuste" "1e1")).run
        noFailure sampleStore 0).2.2 = [some 1] ∧
    ((InventoryManagement.handleAdjustStock (sampleInventory "ajuste" "1e1")).run
        noFailure sampleStore 0).1.alerts = [.stockAdjusted] ∧
    (findProduct ((InventoryManagement.handleAdjustStock (sampleInventory "ajuste" "1e1")).run
        noFailure sampleStore 0).2.1.products 1).map (fun p => p.stock) = some 1 ∧
    (InventoryManagement.handleAdjustStock (sampleInventory "ajuste" "0")).run
        noFailure sampleStore 0 =
      ((sampleInventory "ajuste" "0").alert .invalidQuantity, sampleStore, []) ∧
    (InventoryManagement.handleAdjustStock (sampleInventory "ajuste" "-3")).run
        noFailure sampleStore 0 =
      ((sampleInventory "ajuste" "-3").alert .invalidQuantity, sampleStore, []) ∧
    (findProduct ((App.handleAdjustStock (sampleApp []) 1 "Cafe" "ajuste" 0 "").run
        noFailure sampleStore 0).2.1.products 1).map (fun p => p.stock) = some 0 ∧
    (App.handleAdjustStock (sampleApp []) 1 "Cafe" "ajuste" (-3) "").run
        noFailure sampleStore 0 = ((sampleApp []).alert .negativeStock, sampleStore, []) ∧
    (∀ (fail : Failures) (inv : InventoryState) (s : Store) (p : Product) (q : Int),
      0 < q → findProduct inv.products p.id = some p →
      inv.adjustmentDetails.productId = some p.id → inv.adjustmentDetails.type = "ajuste" →
      typedAsDigits inv.adjustmentDetails.quantity q →
      stockWrites ((InventoryManagement.handleAdjustStock inv).run fail s 0).2.2 =
          [some (q : ℚ)] ∧
        ∀ row, (s.products.filter fun r => r.id = p.id) = [row] → fail 0 = none →
          ((InventoryManagement.handleAdjustStock inv).run fail s 0).2.1.products =
              setStock p.id q s.products ∧
            ((InventoryManagement.handleAdjustStock inv).run fail s 0).1.alerts =
              inv.alerts ++ [.stockAdjusted]) ∧
    (∀ (fail : Failures) (app : AppState) (s : Store) (p : Product)
        (productName reason : String) (q : Int),
      findProduct app.products p.id = some p →
      (0 ≤ q →
        stockWrites ((App.handleAdjustStock app p.id productName "ajuste" q reason).run
            fail s 0).2.2 = [some (q : ℚ)] ∧
          ∀ row, (s.products.filter fun r => r.id = p.id) = [row] → fail 0 = none →
            ((App.handleAdjustStock app p.id productName "ajuste" q reason).run
                fail s 0).2.1.products = setStock p.id q s.products ∧
              ((App.handleAdjustStock app p.id productName "ajuste" q reason).run
                fail s 0).1.alerts = app.alerts ++ [.stockAdjusted]) ∧
      (q < 0 →
        (App.handleAdjustStock app p.id productName "ajuste" q reason).run fail s 0 =
          (app.alert .negativeStock, s, []))) := by
  refine ⟨by decide!, by decide!, by decide!, by decide!, by decide!, by decide!, by decide!,
    by decide!, ?_, ?_⟩
  · intro fail inv s p q hq hinv hid htype hread
    have hreads := typedAsDigits_reads _ _ hread
    have hw : adjustedStockParsed p.stock inv.adjustmentDetails.type (some q) = some q := by
      simp [adjustedStockParsed, htype]
    constructor
    · rcases inventoryAdjustStock_issued fail inv s q hq hreads p hid hinv
          q hw hq.le with ⟨msg, h⟩ | ⟨row, _, h, _⟩
      · rw [h]
        rfl
      · rw [h]
        rfl
    · intro row hrow h0
      have h := inventoryAdjustStock_accepted fail inv s q hq hreads p hid hinv
        q hw hq.le row hrow h0
      exact ⟨h.1, h.2.1⟩
  · intro fail app s p productName reason q happ
    constructor
    · intro hq
      have hnn' : ¬ adjustedStock (p.stock : ℚ) "ajuste" (q : ℚ) < 0 := by
        rw [adjustedStock_ajuste]
        exact_mod_cast not_lt.mpr hq
      constructor
      · rcases appAdjustStock_issued fail app s p.id productName "ajuste" q reason p happ
            hnn' with ⟨msg, h⟩ | ⟨v, row, _, _, h, _⟩
        · rw [h, adjustedStock_ajuste]
          rfl
        · rw [h, adjustedStock_ajuste]
          rfl
      · intro row hrow h0
        have h := appAdjustStock_accepted fail app s p.id productName "ajuste" q reason p
          happ q (adjustedStock_ajuste _ _) hq row hrow h0
        exact ⟨h.1, h.2.1⟩
    · intro hq
      refine appAdjustStock_rejected fail app s p.id productName "ajuste" q reason p
        happ ?_
      rw [adjustedStock_ajuste]
      exact_mod_cast hq

/-! ## Inputs the handlers let through -/

/-- C8, at its failing input: `AdminPanel.handleSaveEdit` with "-5" typed into
the stock field passes `stock: -5` to `handleUpdateProduct`, which writes it; the
store ends with stock -5 for the product and the handler reports success.
`handleAddSubmit` with "-3" inserts a product with stock -3 in the same way. -/
theorem handleSaveEdit_negative_stock :
    stockWrites ((handleSaveEdit (sampleEdit "-5") (sampleApp [])).run
        noFailure sampleStore 0).2.2 = [some (-5)] ∧
    (findProduct ((handleSaveEdit (sampleEdit "-5") (sampleApp [])).run
        noFailure sampleStore 0).2.1.products 1).map (fun p => p.stock) = some (-5) ∧
    ((handleSaveEdit (sampleEdit "-5") (sampleApp [])).run
        noFailure sampleStore 0).1.2.alerts = [.productUpdated] ∧
    stockWrites ((handleAddSubmit (sampleAdd "-3") (sampleApp [])).run
        noFailure sampleStore 0).2.2 = [some (-3)] ∧
    (findProduct ((handleAddSubmit (sampleAdd "-3") (sampleApp [])).run
        noFailure sampleStore 0).2.1.products 7).map (fun p => p.stock) = some (-3) := by
  refine ⟨?_, ?_, ?_, ?_, ?_⟩ <;> decide!

/-- C12, at its failing inputs: `InventoryManagement.handleAdjustStock` with
"2.5" typed as the quantity of an inbound adjustment reads it as 2, writes stock
5 + 2 = 7 and reports success, and reads "1e2" as 1; `App.handleAdjustStock` has no quantity check, so
an inbound adjustment by 0 writes the unchanged stock 5 and one by -2 writes 3,
both reported as success. -/
theorem stock_adjustment_invalid_quantity_applied :
    stockWrites ((InventoryManagement.handleAdjustStock (sampleInventory "entrada" "2.5")).run
        noFailure sampleStore 0).2.2 = [some 7] ∧
    ((InventoryManagement.handleAdjustStock (sampleInventory "entrada" "2.5")).run
        noFailure sampleStore 0).1.alerts = [.stockAdjusted] ∧
    (findProduct ((InventoryManagement.handleAdjustStock (sampleInventory "entrada" "2.5")).run
        noFailure sampleStore 0).2.1.products 1).map (fun p => p.stock) = some 7 ∧
    stockWrites ((InventoryManagement.handleAdjustStock (sampleInventory "entrada" "1e2")).run
        noFailure sampleStore 0).2.2 = [some 6] ∧
    stockWrites ((App.handleAdjustStock (sampleApp []) 1 "Cafe" "entrada" 0 "").run
        noFailure sampleStore 0).2.2 = [some 5] ∧
    ((App.handleAdjustStock (sampleApp []) 1 "Cafe" "entrada" 0 "").run
        noFailure sampleStore 0).1.alerts = [.stockAdjusted] ∧
    stockWrites ((App.handleAdjustStock (sampleApp []) 1 "Cafe" "entrada" (-2) "").run
        noFailure sampleStore 0).2.2 = [some 3] ∧
    ((App.handleAdjustStock (sampleApp []) 1 "Cafe" "entrada" (-2) "").run
        noFailure sampleStore 0).1.alerts = [.stockAdjusted] := by
  refine ⟨?_, ?_, ?_, ?_, ?_, ?_, ?_, ?_⟩ <;> decide!

/-- C17, at its failing input: an absolute adjustment (`ajuste`) of a product
with stock 5 to the level 8 logs `quantity_change = 8` next to `new_stock = 8`,
in both handlers, although the stock changed by 3. -/
theorem stock_set_logs_level_as_change :
    (findProduct sampleStore.products 1).map (fun p => p.stock) = some 5 ∧
    ((App.handleAdjustStock (sampleApp []) 1 "Cafe" "ajuste" 8 "").run
        noFailure sampleStore 0).2.1.inventory_logs =
      [{ product_id := 1, product_name := "Cafe", change_type := "ajuste",
         quantity_change := some 8, new_stock := some 8,
         reason := "Ajuste de stock: ajuste" }] ∧
    ((InventoryManagement.handleAdjustStock (sampleInventory "ajuste" "8")).run
        noFailure sampleStore 0).2.1.inventory_logs =
      [{ product_id := 1, product_name := "Cafe", change_type := "ajuste",
         quantity_change := some 8, new_stock := some 8,
         reason := "Ajuste de stock: ajuste" }] := by
  refine ⟨?_, ?_, ?_⟩ <;> decide!

/-! ## Stock writes and their log rows -/

theorem exec_inventory_logs_other (s : Store) (c : StoreCall)
    (h : ∀ row, c ≠ .insertLog row) : (s.exec c).1.inventory_logs = s.inventory_logs := by
  cases c with
  | insertLog row => exact absurd rfl (h row)
  | updateStock id stock => simp only [Store.exec]; cases asInteger stock <;> rfl
  | updateStockSingle id stock =>
    simp only [Store.exec]
    cases asInteger stock with
    | none => rfl
    | some v =>
      simp only
      split <;> rfl
  | insertProduct row => simp only [Store.exec]; split <;> rfl
  | updateProduct id data =>
    simp only [Store.exec]
    split
    · split <;> rfl
    · rfl
  | selectLogs pid => cases pid <;> rfl
  | _ => rfl

theorem replay_inventory_logs (tr : List Event) (s : Store) :
    (replay tr s).inventory_logs = s.inventory_logs ++ storedLogs tr := by
  induction tr generalizing s with
  | nil => simp [replay, storedLogs]
  | cons e rest ih =>
    rw [replay_cons, ih]
    obtain ⟨c, r⟩ := e
    by_cases hlog : ∃ row, c = .insertLog row
    · obtain ⟨row, rfl⟩ := hlog
      cases hr : r.isError <;> simp [storedLogs, List.filterMap_cons, hr, Store.exec]
    · have hother : ∀ row, c ≠ .insertLog row := fun row h => hlog ⟨row, h⟩
      have hs : (if r.isError = true then s else (s.exec c).1).inventory_logs =
          s.inventory_logs := by
        split
        · rfl
        · exact exec_inventory_logs_other s c hother
      have hnone : storedLogs (⟨c, r⟩ :: rest) = storedLogs rest := by
        cases c <;> first
          | rfl
          | exact absurd rfl (hother _)
      rw [hs, hnone]

theorem updateStockLoop_logged (fail : Failures) (products : List Product) (saleId : Nat)
    (items : List CartItem) (st : AppState) (s : Store) (n : Nat) :
    (loggedRows ((updateStockLoop products saleId items st).run fail s n).2.2).map
        (fun row => row.new_stock) =
      acceptedStocks ((updateStockLoop products saleId items st).run fail s n).2.2 := by
  induction items generalizing st s n with
  | nil => simp [updateStockLoop, Prog.run, loggedRows, acceptedStocks]
  | cons item rest ih =>
    cases hf : findProduct products item.id with
    | none =>
      simp [updateStockLoop_run_missing fail products saleId item rest st s n hf, loggedRows,
        acceptedStocks]
    | some p =>
      cases hr : (respond fail s n
        (.updateStock item.id (some ((p.stock - item.quantity : Int) : ℚ)))).2.isError with
      | true =>
        obtain ⟨msg, hmsg⟩ := (isError_eq_true_iff _).1 hr
        rw [updateStockLoop_run_fail fail products saleId item rest st s n p hf msg hmsg]
        simp [loggedRows, acceptedStocks, Response.isError]
      | false =>
        rw [updateStockLoop_run_ok fail products saleId item rest st s n p hf hr]
        simp only [loggedRows, acceptedStocks, List.filterMap_cons, hr, Bool.false_eq_true,
          if_false, StoreCall.stockWritten, List.map_cons, saleLog]
        split <;> exact congrArg _ (ih _ _ _)

theorem handleCheckout_logged (fail : Failures) (st : AppState) (s : Store) :
    (loggedRows ((handleCheckout st).run fail s 0).2.2).map (fun row => row.new_stock) =
      acceptedStocks ((handleCheckout st).run fail s 0).2.2 := by
  by_cases hvalid : st.cartItems = [] ∨ verifyStock st.products st.cartItems ≠ none
  · have h := (handleCheckout_run_rejected fail st s hvalid).1
    have h2 : ((handleCheckout st).run fail s 0).2.2 = [] := by rw [h]
    rw [h2]
    rfl
  · simp only [not_or, not_not] at hvalid
    obtain ⟨hne, hv⟩ := hvalid
    cases h0 : fail 0 with
    | some msg =>
      rw [handleCheckout_run_sale_failed fail st s hne hv msg h0]
      rfl
    | none =>
      cases h1 : fail 1 with
      | some msg =>
        rw [handleCheckout_run_items_failed fail st s hne hv h0 msg h1]
        rfl
      | none =>
        have hloop := updateStockLoop_logged fail st.products s.nextId st.cartItems
          { st with showConfirmation := true } (itemsStore s st) 2
        cases hL : (loopRun fail s st).1.2 with
        | some msg =>
          rw [handleCheckout_run_loop_failed fail st s hne hv h0 h1 msg hL]
          simpa [loggedRows, acceptedStocks, saleEvent, itemsEvent, StoreCall.stockWritten,
            Response.isError, loopRun] using hloop
        | none =>
          rw [handleCheckout_run_completed fail st s hne hv h0 h1 hL]
          simp only [loggedRows, acceptedStocks, saleEvent, itemsEvent, List.filterMap_cons,
            List.filterMap_append, StoreCall.stockWritten, Response.isError,
            Bool.false_eq_true, if_false, List.filterMap_nil, List.append_nil, ite_self]
          exact hloop

theorem appAdjustStock_logged (fail : Failures) (st : AppState) (s : Store)
    (productId : Nat) (productName type : String) (quantity : ℚ) (reason : String) :
    (loggedRows ((App.handleAdjustStock st productId productName type quantity reason).run
        fail s 0).2.2).map (fun row => row.new_stock) =
      acceptedStocks ((App.handleAdjustStock st productId productName type quantity reason).run
        fail s 0).2.2 := by
  cases hfind : findProduct st.products productId with
  | none => simp [App.handleAdjustStock, hfind, Prog.run, loggedRows, acceptedStocks]
  | some p =>
    by_cases hneg : adjustedStock p.stock type quantity < 0
    · rw [appAdjustStock_rejected fail st s productId productName type quantity reason p
        hfind hneg]
      rfl
    · rcases appAdjustStock_issued fail st s productId productName type quantity reason
          p hfind hneg with ⟨msg, h⟩ | ⟨v, row, _, _, h, _⟩
      · rw [h]
        rfl
      · rw [h]
        simp [loggedRows, acceptedStocks, StoreCall.stockWritten, Response.isError, adjustLog]

theorem refresh_chain_trace (fail : Failures) (st : InventoryState) (selected : Option Nat)
    (s : Store) (n : Nat) :
    (((fetchProducts st).bind fun st3 =>
        (fetchInventoryLogs st3 selected).bind fun st4 =>
          Prog.done (st4.alert .stockAdjusted)).run fail s n).2.2 =
      [⟨.selectProducts, (respond fail s n .selectProducts).2⟩,
        ⟨.selectLogs selected, (respond fail s (n + 1) (.selectLogs selected)).2⟩] :=
  (refreshInventory_run fail st selected s n).2.1

theorem inventoryAdjustStock_shape (fail : Failures) (st : InventoryState)
    (s : Store) :
    ((InventoryManagement.handleAdjustStock st).run fail s 0).2.2 = [] ∨
    (∃ id x msg, ((InventoryManagement.handleAdjustStock st).run fail s 0).2.2 =
      [⟨.updateStockSingle id x, .error msg⟩]) ∨
    ∃ id x r row rl r3 r4 sel, r.isError = false ∧ row.new_stock = x ∧
      ((InventoryManagement.handleAdjustStock st).run fail s 0).2.2 =
        [⟨.updateStockSingle id x, r⟩, ⟨.insertLog row, rl⟩, ⟨.selectProducts, r3⟩,
          ⟨.selectLogs sel, r4⟩] := by
  unfold InventoryManagement.handleAdjustStock
  simp only
  split
  · exact Or.inl rfl
  · split
    · exact Or.inl rfl
    · rename_i currentProduct _
      split
      · exact Or.inl rfl
      · rw [Prog.run_call]
        generalize respond fail s 0 _ = r0
        obtain ⟨s0, resp0⟩ := r0
        cases resp0 <;> first
          | exact Or.inr (Or.inl ⟨_, _, _, rfl⟩)
          | (simp only [Prog.run_call, refresh_chain_trace]
             exact Or.inr (Or.inr ⟨_, _, _, _, _, _, _, _, by rfl, by rfl, rfl⟩))

theorem inventoryAdjustStock_logged (fail : Failures) (st : InventoryState)
    (s : Store) :
    (loggedRows ((InventoryManagement.handleAdjustStock st).run fail s 0).2.2).map
        (fun row => row.new_stock) =
      acceptedStocks ((InventoryManagement.handleAdjustStock st).run fail s 0).2.2 := by
  rcases inventoryAdjustStock_shape fail st s with h | ⟨id, x, msg, h⟩ |
    ⟨id, x, r, row, rl, r3, r4, sel, hr, hrow, h⟩
  · rw [h]; rfl
  · rw [h]; rfl
  · rw [h]
    simp [loggedRows, acceptedStocks, StoreCall.stockWritten, hr, hrow]

theorem respond_insertProduct (fail : Failures) (s : Store) (n : Nat) (row : ProductData) :
    (∃ msg, (respond fail s n (.insertProduct row)).2 = .error msg) ∨
      ∃ data : Product, row.stock = some ((data.stock : Int) : ℚ) ∧
        (respond fail s n (.insertProduct row)).2 = .product data := by
  unfold respond
  cases fail n with
  | some msg => exact Or.inl ⟨msg, rfl⟩
  | none =>
    simp only [Store.exec]
    cases hp : row.price with
    | none => exact Or.inl ⟨_, rfl⟩
    | some price =>
      cases hx : asInteger row.stock with
      | none => exact Or.inl ⟨_, rfl⟩
      | some v => exact Or.inr ⟨_, asInteger_eq_some hx, rfl⟩

theorem respond_updateProduct (fail : Failures) (s : Store) (n : Nat) (id : Nat)
    (row : ProductData) :
    (∃ msg, (respond fail s n (.updateProduct id row)).2 = .error msg) ∨
      ∃ data : Product, row.stock = some ((data.stock : Int) : ℚ) ∧
        (respond fail s n (.updateProduct id row)).2 = .product data := by
  unfold respond
  cases fail n with
  | some msg => exact Or.inl ⟨msg, rfl⟩
  | none =>
    simp only [Store.exec]
    cases hp : row.price with
    | none => exact Or.inl ⟨_, rfl⟩
    | some price =>
      cases hx : asInteger row.stock with
      | none => exact Or.inl ⟨_, rfl⟩
      | some v =>
        simp only
        split
        · exact Or.inr ⟨_, asInteger_eq_some hx, rfl⟩
        · exact Or.inl ⟨_, rfl⟩

theorem handleAddProduct_logged (fail : Failures) (st : AppState) (s : Store)
    (productData : ProductData) :
    (loggedRows ((handleAddProduct st productData).run fail s 0).2.2).map
        (fun row => row.new_stock) =
      acceptedStocks ((handleAddProduct st productData).run fail s 0).2.2 := by
  unfold handleAddProduct
  rw [Prog.run_call]
  rcases respond_insertProduct fail s 0 productData with ⟨msg, h⟩ | ⟨data, hstock, h⟩
  · rw [h]
    rfl
  · rw [h]
    simp only [Prog.run_call, Nat.zero_add]
    generalize respond fail (respond fail s 0 (.insertProduct productData)).1 1 (.insertLog _) = r1
    obtain ⟨s1, resp1⟩ := r1
    cases resp1 <;>
      simp [Prog.run, loggedRows, acceptedStocks, StoreCall.stockWritten, Response.isError, hstock]

theorem handleUpdateProduct_logged (fail : Failures) (st : AppState) (s : Store)
    (productId : Nat) (updatedData : ProductData) (old : Product)
    (hold : findProduct st.products productId = some old)
    (hne : updatedData.stock ≠ some ((old.stock : Int) : ℚ)) :
    (loggedRows ((handleUpdateProduct st productId updatedData).run fail s 0).2.2).map
        (fun row => row.new_stock) =
      acceptedStocks ((handleUpdateProduct st productId updatedData).run fail s 0).2.2 := by
  unfold handleUpdateProduct
  simp only [hold]
  rw [Prog.run_call]
  rcases respond_updateProduct fail s 0 productId updatedData with ⟨msg, h⟩ | ⟨data, hstock, h⟩
  · rw [h]
    rfl
  · rw [h]
    have hd : old.stock ≠ data.stock := by
      intro he
      exact hne (by rw [hstock, he])
    simp only [hd, ne_eq, not_false_eq_true, if_true, Prog.run_call, Nat.zero_add]
    generalize respond fail (respond fail s 0 (.updateProduct productId updatedData)).1 1
      (.insertLog _) = r1
    obtain ⟨s1, resp1⟩ := r1
    cases resp1 <;>
      simp [Prog.run, loggedRows, acceptedStocks, StoreCall.stockWritten, Response.isError, hstock]

theorem handleUpdateProduct_unlogged (fail : Failures) (st : AppState) (s : Store)
    (productId : Nat) (updatedData : ProductData)
    (h : findProduct st.products productId = none ∨
      ∃ old, findProduct st.products productId = some old ∧
        updatedData.stock = some ((old.stock : Int) : ℚ)) :
    loggedRows ((handleUpdateProduct st productId updatedData).run fail s 0).2.2 = [] := by
  unfold handleUpdateProduct
  rw [Prog.run_call]
  rcases respond_updateProduct fail s 0 productId updatedData with ⟨msg, hr⟩ | ⟨data, hstock, hr⟩
  · rw [hr]
    rfl
  · rw [hr]
    rcases h with h | ⟨old, hold, hs⟩
    · simp only [h]
      rfl
    · have hd : old.stock = data.stock := by
        rw [hstock] at hs
        exact_mod_cast (Option.some.inj hs).symm
      simp only [hold, hd, ne_eq, not_true_eq_false, if_false]
      rfl

/-! ## The cached product list after a write -/

theorem findProduct_of_filter {ps : List Product} {id : Nat} {row : Product}
    (h : (ps.filter fun r => r.id = id) = [row]) : findProduct ps id = some row := by
  unfold findProduct
  induction ps with
  | nil => simp at h
  | cons a rest ih =>
    by_cases ha : a.id = id
    · simp only [List.filter_cons, ha, decide_True, if_true, List.cons.injEq] at h
      obtain ⟨rfl, _⟩ := h
      simp [List.find?_cons, ha]
    · simp only [List.filter_cons, ha, decide_False] at h
      simp only [List.find?_cons, ha, decide_False]
      exact ih h

theorem handleCheckout_noFailure_cache (st : AppState) (s : Store)
    (hne : st.cartItems ≠ []) (hv : verifyStock st.products st.cartItems = none) :
    ((handleCheckout st).run noFailure s 0).1.products =
      ((handleCheckout st).run noFailure s 0).2.1.products.insertionSort
        fun a b => a.name ≤ b.name := by
  have hfound : ∀ x ∈ st.cartItems, ∃ p, findProduct st.products x.id = some p := by
    intro x hx
    obtain ⟨p, hp, _⟩ := (verifyStock_eq_none_iff _ _).1 hv x hx
    exact ⟨p, hp⟩
  have hloop := updateStockLoop_noFailure noFailure (fun _ => rfl) st.products s.nextId
    st.cartItems { st with showConfirmation := true } (itemsStore s st) 2 hfound
  have hL : (loopRun noFailure s st).1 = ({ st with showConfirmation := true }, none) := hloop.1
  have hL2 : (loopRun noFailure s st).1.2 = none := by rw [hL]
  rw [handleCheckout_run_completed noFailure st s hne hv rfl rfl hL2]
  have hR := refreshAfterSale_run noFailure (loopRun noFailure s st).1.1
    (loopRun noFailure s st).2.1 (2 + (loopRun noFailure s st).2.2.length)
  exact hR.2.2.2.2.2 _ rfl

theorem respond_selectProducts_answered (fail : Failures) (s : Store) (n : Nat)
    (h : (respond fail s n .selectProducts).2.isError = false) :
    (respond fail s n .selectProducts).2 =
      .products (s.products.insertionSort fun a b => a.name ≤ b.name) := by
  unfold respond at h ⊢
  cases hf : fail n with
  | some msg => simp [hf, Response.isError] at h
  | none => rfl

theorem refreshAfterSale_run_error (fail : Failures) (st : AppState) (s : Store) (n : Nat)
    (msg : String) (h : (respond fail s n .selectProducts).2 = .error msg) :
    ((refreshAfterSale st).run fail s n).1.products = st.products := by
  simp only [refreshAfterSale, Prog.run, h]
  rfl

theorem refreshInventory_run_error (fail : Failures) (st : InventoryState)
    (selected : Option Nat) (s : Store) (n : Nat) (msg : String)
    (h : (respond fail s n .selectProducts).2 = .error msg) :
    ((refreshInventory st selected).run fail s n).1.products = st.products := by
  have h1 := respond_selectProducts_store fail s n
  simp only [refreshInventory, fetchProducts, fetchInventoryLogs, Prog.bind, Prog.run, h1, h]
  generalize (respond fail s (n + 1) (.selectLogs selected)).2 = r2
  cases r2 <;> simp [InventoryState.alert, InventoryState.consoleError]

/-- The runs of `handleCheckout` that issue the closing read of the product
list: the two inserts were accepted and the stock loop ended without an error. -/
theorem handleCheckout_refresh_event (fail : Failures) (st : AppState) (s : Store)
    (r : Response) (h : (⟨.selectProducts, r⟩ : Event) ∈ ((handleCheckout st).run fail s 0).2.2) :
    st.cartItems ≠ [] ∧ verifyStock st.products st.cartItems = none ∧ fail 0 = none ∧
      fail 1 = none ∧ (loopRun fail s st).1.2 = none ∧
      r = (respond fail (loopRun fail s st).2.1 (2 + (loopRun fail s st).2.2.length)
        .selectProducts).2 := by
  by_cases hvalid : st.cartItems = [] ∨ verifyStock st.products st.cartItems ≠ none
  · rw [(handleCheckout_run_rejected fail st s hvalid).1] at h
    simp at h
  · simp only [not_or, not_not] at hvalid
    obtain ⟨hne, hv⟩ := hvalid
    have hloop : ∀ e ∈ (loopRun fail s st).2.2, e.call ≠ .selectProducts := by
      intro e he hc
      rcases updateStockLoop_kind fail st.products s.nextId st.cartItems
        { st with showConfirmation := true } (itemsStore s st) 2 e he with ⟨id, v, hk⟩ | ⟨row, hk⟩ <;>
        rw [hk] at hc <;> simp at hc
    cases h0 : fail 0 with
    | some m0 =>
      rw [handleCheckout_run_sale_failed fail st s hne hv m0 h0] at h
      simp at h
    | none =>
      cases h1 : fail 1 with
      | some m1 =>
        rw [handleCheckout_run_items_failed fail st s hne hv h0 m1 h1] at h
        simp [saleEvent] at h
      | none =>
        cases hL : (loopRun fail s st).1.2 with
        | some mL =>
          rw [handleCheckout_run_loop_failed fail st s hne hv h0 h1 mL hL] at h
          simp only [List.mem_cons] at h
          rcases h with h | h | h
          · simp [saleEvent] at h
          · simp [itemsEvent] at h
          · exact absurd rfl (hloop _ h)
        | none =>
          rw [handleCheckout_run_completed fail st s hne hv h0 h1 hL] at h
          simp only [List.mem_cons, List.mem_append, List.mem_singleton, List.not_mem_nil,
            or_false] at h
          rcases h with h | h | h | h
          · simp [saleEvent] at h
          · simp [itemsEvent] at h
          · exact absurd rfl (hloop _ h)
          · simp only [Event.mk.injEq, true_and] at h
            exact ⟨hne, hv, rfl, rfl, rfl, h⟩

theorem handleCheckout_done_event (fail : Failures) (st : AppState) (s : Store)
    (h : ((handleCheckout st).run fail s 0).1.alerts = st.alerts ++ [.saleDone]) :
    ∃ r, (⟨.selectProducts, r⟩ : Event) ∈ ((handleCheckout st).run fail s 0).2.2 := by
  have hloopst : (loopRun fail s st).1.1.alerts = st.alerts :=
    (updateStockLoop_state fail st.products s.nextId st.cartItems
      { st with showConfirmation := true } (itemsStore s st) 2).2.2.1
  by_cases hvalid : st.cartItems = [] ∨ verifyStock st.products st.cartItems ≠ none
  · rcases handleCheckout_rejected_alert fail st s hvalid with h' | ⟨name, k, h'⟩ <;>
      rw [h'] at h <;> simp at h
  · simp only [not_or, not_not] at hvalid
    obtain ⟨hne, hv⟩ := hvalid
    cases h0 : fail 0 with
    | some m0 =>
      rw [handleCheckout_run_sale_failed fail st s hne hv m0 h0, checkoutFailed_alerts] at h
      simp at h
    | none =>
      cases h1 : fail 1 with
      | some m1 =>
        rw [handleCheckout_run_items_failed fail st s hne hv h0 m1 h1, checkoutFailed_alerts] at h
        simp at h
      | none =>
        cases hL : (loopRun fail s st).1.2 with
        | some mL =>
          rw [handleCheckout_run_loop_failed fail st s hne hv h0 h1 mL hL,
            checkoutFailed_alerts, hloopst] at h
          simp at h
        | none =>
          rw [handleCheckout_run_completed fail st s hne hv h0 h1 hL]
          exact ⟨_, List.mem_cons_of_mem _ (List.mem_cons_of_mem _
            (List.mem_append_right _ (List.mem_singleton_self _)))⟩

theorem handleCheckout_refreshed (fail : Failures) (st : AppState) (s : Store)
    (r : Response) (h : (⟨.selectProducts, r⟩ : Event) ∈ ((handleCheckout st).run fail s 0).2.2) :
    ((handleCheckout st).run fail s 0).1.alerts = st.alerts ++ [.saleDone] ∧
    (r.isError = false →
      ((handleCheckout st).run fail s 0).1.products =
        ((handleCheckout st).run fail s 0).2.1.products.insertionSort
          fun a b => a.name ≤ b.name) ∧
    (r.isError = true → ((handleCheckout st).run fail s 0).1.products = st.products) := by
  obtain ⟨hne, hv, h0, h1, hL, hr⟩ := handleCheckout_refresh_event fail st s r h
  have hloopst := updateStockLoop_state fail st.products s.nextId st.cartItems
      { st with showConfirmation := true } (itemsStore s st) 2
  have hal : (loopRun fail s st).1.1.alerts = st.alerts := hloopst.2.2.1
  have hpr : (loopRun fail s st).1.1.products = st.products := hloopst.2.1
  rw [handleCheckout_run_completed fail st s hne hv h0 h1 hL]
  have hR := refreshAfterSale_run fail (loopRun fail s st).1.1 (loopRun fail s st).2.1
    (2 + (loopRun fail s st).2.2.length)
  refine ⟨by rw [hR.2.2.2.1, hal], ?_, ?_⟩
  · intro hok
    rw [hr] at hok
    exact hR.2.2.2.2.2 _ (respond_selectProducts_answered _ _ _ hok)
  · intro herr
    rw [hr] at herr
    obtain ⟨msg, hmsg⟩ := (isError_eq_true_iff _).1 herr
    rw [refreshAfterSale_run_error fail _ _ _ msg hmsg, hpr]

theorem refresh_chain_eq (st : InventoryState) (selected : Option Nat) :
    ((fetchProducts st).bind fun st3 =>
        (fetchInventoryLogs st3 selected).bind fun st4 =>
          Prog.done (st4.alert .stockAdjusted)) = refreshInventory st selected := rfl

/-- The handler once its three checks have let the adjustment through: the stock
update, then the log insert, then the two refreshes. -/
theorem inventoryAdjustStock_prog (st : InventoryState)
    (hguard : ¬ (st.adjustmentDetails.quantity = "" ∨
      isNaN st.adjustmentDetails.quantity = true ∨
      nonPositive (parseInt st.adjustmentDetails.quantity) = true))
    (p : Product)
    (hfind : (st.adjustmentDetails.productId.bind fun id => findProduct st.products id) = some p)
    (hneg : ¬ isNegative (adjustedStockParsed p.stock st.adjustmentDetails.type
      (parseInt10 st.adjustmentDetails.quantity)) = true) :
    InventoryManagement.handleAdjustStock st =
      .call (.updateStockSingle p.id (Option.map (Int.cast : Int → ℚ)
          (adjustedStockParsed p.stock st.adjustmentDetails.type
            (parseInt10 st.adjustmentDetails.quantity)))) fun r =>
        match r with
        | .error message =>
          .done ((st.consoleError "Error adjusting stock:").alert (.adjustFailed message))
        | _ =>
          .call (.insertLog (adjustLog p.id st.adjustmentDetails.productName
              st.adjustmentDetails.type
              (Option.map (Int.cast : Int → ℚ) (parseInt10 st.adjustmentDetails.quantity))
              (Option.map (Int.cast : Int → ℚ)
                (adjustedStockParsed p.stock st.adjustmentDetails.type
                  (parseInt10 st.adjustmentDetails.quantity)))
              st.adjustmentDetails.reason)) fun log =>
            refreshInventory (adjustmentClosed st log.isError)
              (st.selectedProductForLogs.map fun x => x.id) := by
  simp only [InventoryManagement.handleAdjustStock, hguard, if_false, hfind, hneg, adjustLog,
    Bool.false_eq_true]
  congr 1
  funext r
  cases r <;> first
    | rfl
    | (dsimp only
       congr 1
       funext log
       cases log <;> rfl)

theorem adjustmentClosed_alerts (st : InventoryState) (b : Bool) :
    (adjustmentClosed st b).alerts = st.alerts ∧ (adjustmentClosed st b).products = st.products := by
  cases b <;> exact ⟨rfl, rfl⟩

theorem refreshInventory_refreshed (fail : Failures) (st : InventoryState)
    (selected : Option Nat) (s : Store) (n : Nat) (r : Response)
    (h : (⟨.selectProducts, r⟩ : Event) ∈ ((refreshInventory st selected).run fail s n).2.2) :
    (r.isError = false →
      ((refreshInventory st selected).run fail s n).1.products =
        ((refreshInventory st selected).run fail s n).2.1.products.insertionSort
          fun a b => a.name ≤ b.name) ∧
    (r.isError = true → ((refreshInventory st selected).run fail s n).1.products = st.products) := by
  have hR := refreshInventory_run fail st selected s n
  rw [hR.2.1] at h
  have hr : r = (respond fail s n .selectProducts).2 := by
    simp only [List.mem_cons, Event.mk.injEq, true_and, List.mem_singleton, false_and, or_false,
      List.not_mem_nil] at h
    rcases h with h | ⟨h, _⟩
    · exact h
    · cases selected <;> simp at h
  subst hr
  refine ⟨fun hok => ?_, fun herr => ?_⟩
  · rw [hR.1]
    exact hR.2.2.2 _ (respond_selectProducts_answered _ _ _ hok)
  · obtain ⟨msg, hmsg⟩ := (isError_eq_true_iff _).1 herr
    exact refreshInventory_run_error fail st selected s n msg hmsg

theorem inventoryAdjustStock_refreshed (fail : Failures) (st : InventoryState) (s : Store)
    (r : Response)
    (h : (⟨.selectProducts, r⟩ : Event) ∈
      ((InventoryManagement.handleAdjustStock st).run fail s 0).2.2) :
    ((InventoryManagement.handleAdjustStock st).run fail s 0).1.alerts =
      st.alerts ++ [.stockAdjusted] ∧
    (r.isError = false →
      ((InventoryManagement.handleAdjustStock st).run fail s 0).1.products =
        ((InventoryManagement.handleAdjustStock st).run fail s 0).2.1.products.insertionSort
          fun a b => a.name ≤ b.name) ∧
    (r.isError = true →
      ((InventoryManagement.handleAdjustStock st).run fail s 0).1.products = st.products) := by
  by_cases hguard : st.adjustmentDetails.quantity = "" ∨
      isNaN st.adjustmentDetails.quantity = true ∨
      nonPositive (parseInt st.adjustmentDetails.quantity) = true
  · rw [inventoryAdjustStock_invalid fail st s hguard] at h
    simp at h
  · cases hfind : st.adjustmentDetails.productId.bind fun id => findProduct st.products id with
    | none =>
      simp [InventoryManagement.handleAdjustStock, hguard, hfind, Prog.run] at h
    | some p =>
      by_cases hneg : isNegative (adjustedStockParsed p.stock st.adjustmentDetails.type
          (parseInt10 st.adjustmentDetails.quantity)) = true
      · simp [InventoryManagement.handleAdjustStock, hguard, hfind, hneg, Prog.run] at h
      · rw [inventoryAdjustStock_prog st hguard p hfind hneg] at h ⊢
        rw [Prog.run_call] at h ⊢
        generalize respond fail s 0 _ = r0 at h ⊢
        obtain ⟨s0, resp0⟩ := r0
        cases resp0 <;> first
          | (simp [Prog.run] at h; done)
          | (simp only [Prog.run_call] at h ⊢
             simp only [List.mem_cons, Event.mk.injEq, reduceCtorEq, false_and, false_or] at h
             obtain ⟨h1, h2⟩ := refreshInventory_refreshed fail _ _ _ _ r h
             refine ⟨?_, h1, fun herr => (h2 herr).trans (adjustmentClosed_alerts _ _).2⟩
             rw [(refreshInventory_run fail _ _ _ _).2.2.1]
             exact congrArg (· ++ [Alert.stockAdjusted]) (adjustmentClosed_alerts _ _).1)

theorem inventoryAdjustStock_done_event (fail : Failures) (st : InventoryState) (s : Store)
    (h : ((InventoryManagement.handleAdjustStock st).run fail s 0).1.alerts =
      st.alerts ++ [.stockAdjusted]) :
    ∃ r, (⟨.selectProducts, r⟩ : Event) ∈
      ((InventoryManagement.handleAdjustStock st).run fail s 0).2.2 := by
  by_cases hguard : st.adjustmentDetails.quantity = "" ∨
      isNaN st.adjustmentDetails.quantity = true ∨
      nonPositive (parseInt st.adjustmentDetails.quantity) = true
  · rw [inventoryAdjustStock_invalid fail st s hguard] at h
    simp [InventoryState.alert] at h
  · cases hfind : st.adjustmentDetails.productId.bind fun id => findProduct st.products id with
    | none =>
      simp [InventoryManagement.handleAdjustStock, hguard, hfind, Prog.run,
        InventoryState.alert] at h
    | some p =>
      by_cases hneg : isNegative (adjustedStockParsed p.stock st.adjustmentDetails.type
          (parseInt10 st.adjustmentDetails.quantity)) = true
      · simp [InventoryManagement.handleAdjustStock, hguard, hfind, hneg, Prog.run,
          InventoryState.alert] at h
      · rw [inventoryAdjustStock_prog st hguard p hfind hneg] at h ⊢
        rw [Prog.run_call] at h ⊢
        generalize respond fail s 0 _ = r0 at h ⊢
        obtain ⟨s0, resp0⟩ := r0
        cases resp0 <;> first
          | (simp [Prog.run, InventoryState.alert, InventoryState.consoleError] at h; done)
          | (simp only [Prog.run_call]
             rw [(refreshInventory_run fail _ _ _ _).2.1]
             exact ⟨_, List.mem_cons_of_mem _ (List.mem_cons_of_mem _
               (List.mem_cons_self _ _))⟩)

/-- C20 fails as stated: a checkout of 2 units of the first sample product
(stock 5) whose writes are all accepted and whose closing read of the product
list fails.  The handler reports success, the store holds stock 3, and the
cached list still holds stock 5.  The same happens to an inbound adjustment by 2
in `InventoryManagement` whose refresh read fails: success is reported, the
store holds 7 and the cache 5. -/
theorem refresh_failure_leaves_cache_stale :
    ((handleCheckout (sampleApp [⟨cafe, 2⟩])).run (failAt 4 "network") sampleStore 0).1.alerts =
      [.saleDone] ∧
    (findProduct ((handleCheckout (sampleApp [⟨cafe, 2⟩])).run (failAt 4 "network")
      sampleStore 0).2.1.products 1).map (fun p => p.stock) = some 3 ∧
    (findProduct ((handleCheckout (sampleApp [⟨cafe, 2⟩])).run (failAt 4 "network")
      sampleStore 0).1.products 1).map (fun p => p.stock) = some 5 ∧
    ((InventoryManagement.handleAdjustStock (sampleInventory "entrada" "2")).run
      (failAt 2 "network") sampleStore 0).1.alerts = [.stockAdjusted] ∧
    (findProduct ((InventoryManagement.handleAdjustStock (sampleInventory "entrada" "2")).run
      (failAt 2 "network") sampleStore 0).2.1.products 1).map (fun p => p.stock) = some 7 ∧
    (findProduct ((InventoryManagement.handleAdjustStock (sampleInventory "entrada" "2")).run
      (failAt 2 "network") sampleStore 0).1.products 1).map (fun p => p.stock) = some 5 := by
  refine ⟨?_, ?_, ?_, ?_, ?_, ?_⟩ <;> decide!

/-- C20, amended: a `handleCheckout` and a stock adjustment by
`InventoryManagement.handleAdjustStock` that report success have issued their
closing read of the product list.  When that read is answered, the cached
product list is the product list of the store, in the order of the read, so the
cached stock of every product is its stock in the store; when the read fails,
success is reported all the same and the cached list is the one from before the
operation.  After an adjustment by `App.handleAdjustStock` whose stock update the
store accepted, the cached list is the old one with the row the store returned
in place of every entry with the adjusted id, all other entries and the order
kept, and a lookup of the adjusted product gives that same row in the cache and
in the store.  (For the first sample product: a sale of 2 leaves 3, an inbound
adjustment by 2 leaves 7, an outbound one by 2 leaves 3, in the cache as in the
store.) -/
theorem cache_after_refresh :
    (∀ (fail : Failures) (st : AppState) (s : Store),
      ((handleCheckout st).run fail s 0).1.alerts = st.alerts ++ [.saleDone] →
      ∃ r, (⟨.selectProducts, r⟩ : Event) ∈ ((handleCheckout st).run fail s 0).2.2) ∧
    (∀ (fail : Failures) (st : AppState) (s : Store) (r : Response),
      (⟨.selectProducts, r⟩ : Event) ∈ ((handleCheckout st).run fail s 0).2.2 →
      ((handleCheckout st).run fail s 0).1.alerts = st.alerts ++ [.saleDone] ∧
      (r.isError = false →
        ((handleCheckout st).run fail s 0).1.products =
            ((handleCheckout st).run fail s 0).2.1.products.insertionSort
              (fun a b => a.name ≤ b.name) ∧
          ((handleCheckout st).run fail s 0).1.products.Perm
            ((handleCheckout st).run fail s 0).2.1.products) ∧
      (r.isError = true → ((handleCheckout st).run fail s 0).1.products = st.products)) ∧
    (∀ (fail : Failures) (st : InventoryState) (s : Store),
      ((InventoryManagement.handleAdjustStock st).run fail s 0).1.alerts =
        st.alerts ++ [.stockAdjusted] →
      ∃ r, (⟨.selectProducts, r⟩ : Event) ∈
        ((InventoryManagement.handleAdjustStock st).run fail s 0).2.2) ∧
    (∀ (fail : Failures) (st : InventoryState) (s : Store) (r : Response),
      (⟨.selectProducts, r⟩ : Event) ∈
        ((InventoryManagement.handleAdjustStock st).run fail s 0).2.2 →
      ((InventoryManagement.handleAdjustStock st).run fail s 0).1.alerts =
        st.alerts ++ [.stockAdjusted] ∧
      (r.isError = false →
        ((InventoryManagement.handleAdjustStock st).run fail s 0).1.products =
            ((InventoryManagement.handleAdjustStock st).run fail s 0).2.1.products.insertionSort
              (fun a b => a.name ≤ b.name) ∧
          ((InventoryManagement.handleAdjustStock st).run fail s 0).1.products.Perm
            ((InventoryManagement.handleAdjustStock st).run fail s 0).2.1.products) ∧
      (r.isError = true →
        ((InventoryManagement.handleAdjustStock st).run fail s 0).1.products = st.products)) ∧
    (∀ (fail : Failures) (st : AppState) (s : Store) (productId : Nat)
        (productName type : String) (quantity : ℚ) (reason : String) (p row : Product)
        (v : Int),
      findProduct st.products productId = some p →
      adjustedStock p.stock type quantity = (v : ℚ) → 0 ≤ v →
      (s.products.filter fun r => r.id = productId) = [row] → fail 0 = none →
      ((App.handleAdjustStock st productId productName type quantity reason).run fail
          s 0).2.2.head? =
        some ⟨.updateStockSingle productId (some (v : ℚ)), .product { row with stock := v }⟩ ∧
      ((App.handleAdjustStock st productId productName type quantity reason).run fail
          s 0).1.products =
        st.products.map (fun c => if c.id = productId then { row with stock := v } else c) ∧
      findProduct ((App.handleAdjustStock st productId productName type quantity reason).run
          fail s 0).1.products productId = some { row with stock := v } ∧
      findProduct ((App.handleAdjustStock st productId productName type quantity reason).run
          fail s 0).2.1.products productId = some { row with stock := v }) ∧
    (((handleCheckout (sampleApp [⟨cafe, 2⟩])).run noFailure sampleStore 0).1.products =
        [{ cafe with stock := 3 }, croissant] ∧
      ((handleCheckout (sampleApp [⟨cafe, 2⟩])).run noFailure sampleStore 0).2.1.products =
        [{ cafe with stock := 3 }, croissant]) ∧
    ((App.handleAdjustStock (sampleApp []) 1 "Cafe" "entrada" 2 "").run
        noFailure sampleStore 0).1.products = [{ cafe with stock := 7 }, croissant] ∧
    ((App.handleAdjustStock (sampleApp []) 1 "Cafe" "entrada" 2 "").run
        noFailure sampleStore 0).2.1.products = [{ cafe with stock := 7 }, croissant] ∧
    ((InventoryManagement.handleAdjustStock (sampleInventory "salida" "2")).run
        noFailure sampleStore 0).1.products = [{ cafe with stock := 3 }, croissant] ∧
    ((InventoryManagement.handleAdjustStock (sampleInventory "salida" "2")).run
        noFailure sampleStore 0).2.1.products = [{ cafe with stock := 3 }, croissant] := by
  refine ⟨handleCheckout_done_event, ?_, inventoryAdjustStock_done_event, ?_, ?_,
    ⟨by decide!, by decide!⟩, by decide!, by decide!, by decide!, by decide!⟩
  · intro fail st s r h
    obtain ⟨h1, h2, h3⟩ := handleCheckout_refreshed fail st s r h
    refine ⟨h1, fun hok => ⟨h2 hok, ?_⟩, h3⟩
    rw [h2 hok]
    exact List.perm_insertionSort _ _
  · intro fail st s r h
    obtain ⟨h1, h2, h3⟩ := inventoryAdjustStock_refreshed fail st s r h
    refine ⟨h1, fun hok => ⟨h2 hok, ?_⟩, h3⟩
    rw [h2 hok]
    exact List.perm_insertionSort _ _
  · intro fail st s productId productName type quantity reason p row v hfind hv hnn hrow h0
    obtain ⟨hstore, _, hcache, hhead⟩ := appAdjustStock_accepted fail st s productId
      productName type quantity reason p hfind v hv hnn row hrow h0
    have hrowid : row.id = productId := by
      have hmem : row ∈ s.products.filter fun r => r.id = productId := by
        rw [hrow]
        exact List.mem_singleton_self row
      simpa using (List.mem_filter.1 hmem).2
    refine ⟨hhead, hcache, ?_, ?_⟩
    · rw [hcache, replaceProduct, findProduct_map _ _ st.products productId, hfind]
      · have hp := (findProduct_some_id hfind).1
        simp [hp]
      · intro r
        by_cases hr : r.id = productId
        · simp [hr, hrowid]
        · simp [hr]
    · rw [hstore, setStock, findProduct_map _ _ s.products productId,
        findProduct_of_filter hrow]
      · simp [hrowid]
      · intro r
        by_cases hr : r.id = productId <;> simp [hr]

/-! ## A stock write stays when its log row is lost -/

theorem inventoryAdjustStock_write_stays (fail : Failures) (st : InventoryState) (s : Store)
    (id : Nat) (x : Option ℚ) (r : Response)
    (h : ((InventoryManagement.handleAdjustStock st).run fail s 0).2.2.head? =
      some ⟨.updateStockSingle id x, r⟩) (hr : r.isError = false) :
    ∃ v : Int, x = some (v : ℚ) ∧
      ((InventoryManagement.handleAdjustStock st).run fail s 0).2.1.products =
        setStock id v s.products ∧
      ((InventoryManagement.handleAdjustStock st).run fail s 0).1.alerts =
        st.alerts ++ [.stockAdjusted] := by
  by_cases hguard : st.adjustmentDetails.quantity = "" ∨
      isNaN st.adjustmentDetails.quantity = true ∨
      nonPositive (parseInt st.adjustmentDetails.quantity) = true
  · rw [inventoryAdjustStock_invalid fail st s hguard] at h
    simp at h
  · cases hfind : st.adjustmentDetails.productId.bind fun id => findProduct st.products id with
    | none =>
      simp [InventoryManagement.handleAdjustStock, hguard, hfind, Prog.run] at h
    | some p =>
      by_cases hneg : isNegative (adjustedStockParsed p.stock st.adjustmentDetails.type
          (parseInt10 st.adjustmentDetails.quantity)) = true
      · simp [InventoryManagement.handleAdjustStock, hguard, hfind, hneg, Prog.run] at h
      · rw [inventoryAdjustStock_prog st hguard p hfind hneg] at h ⊢
        rw [Prog.run_call] at h ⊢
        simp only [List.head?_cons, Option.some.injEq, Event.mk.injEq,
          StoreCall.updateStockSingle.injEq] at h
        obtain ⟨⟨hid, hx⟩, hresp⟩ := h
        subst hid
        rcases respond_updateStockSingle fail s 0 p.id
            (Option.map (Int.cast : Int → ℚ)
              (adjustedStockParsed p.stock st.adjustmentDetails.type
                (parseInt10 st.adjustmentDetails.quantity))) with
          ⟨msg, hm⟩ | ⟨v, row, hv, hrow, hm⟩
        · rw [hm] at hresp
          rw [← hresp] at hr
          simp [Response.isError] at hr
        · refine ⟨v, by rw [← hx, hv], ?_, ?_⟩
          · simp only [hm, Prog.run_call]
            rw [(refreshInventory_run fail _ _ _ _).1, respond_insertLog_products]
          · simp only [hm, Prog.run_call]
            rw [(refreshInventory_run fail _ _ _ _).2.2.1]
            exact congrArg (· ++ [Alert.stockAdjusted]) (adjustmentClosed_alerts _ _).1

theorem appAdjustStock_write_stays (fail : Failures) (st : AppState) (s : Store)
    (productId : Nat) (productName type : String) (quantity : ℚ) (reason : String)
    (id : Nat) (x : Option ℚ) (r : Response)
    (h : ((App.handleAdjustStock st productId productName type quantity reason).run
      fail s 0).2.2.head? = some ⟨.updateStockSingle id x, r⟩) (hr : r.isError = false) :
    ∃ v : Int, x = some (v : ℚ) ∧
      ((App.handleAdjustStock st productId productName type quantity reason).run
        fail s 0).2.1.products = setStock id v s.products ∧
      ((App.handleAdjustStock st productId productName type quantity reason).run
        fail s 0).1.alerts = st.alerts ++ [.stockAdjusted] := by
  cases hfind : findProduct st.products productId with
  | none => simp [App.handleAdjustStock, hfind, Prog.run] at h
  | some p =>
    by_cases hneg : adjustedStock p.stock type quantity < 0
    · rw [appAdjustStock_rejected fail st s productId productName type quantity reason p
        hfind hneg] at h
      simp at h
    · rcases appAdjustStock_issued fail st s productId productName type quantity reason
          p hfind hneg with ⟨msg, hrun⟩ | ⟨v, row, hv, hrow, htr, hstore, _, halert⟩
      · rw [hrun] at h
        simp only [List.head?_cons, Option.some.injEq, Event.mk.injEq] at h
        rw [← h.2] at hr
        simp [Response.isError] at hr
      · rw [htr] at h
        simp only [List.head?_cons, Option.some.injEq, Event.mk.injEq,
          StoreCall.updateStockSingle.injEq] at h
        obtain ⟨⟨hid, hx⟩, _⟩ := h
        subst hid
        refine ⟨v, by rw [← hx, hv], ?_, halert⟩
        rw [hstore, respond_insertLog_products]

theorem handleAddProduct_write_stays (fail : Failures) (st : AppState) (s : Store)
    (productData row : ProductData) (r : Response)
    (h : ((handleAddProduct st productData).run fail s 0).2.2.head? =
      some ⟨.insertProduct row, r⟩) (hr : r.isError = false) :
    ∃ data : Product, r = .product data ∧ row.stock = some ((data.stock : Int) : ℚ) ∧
      ((handleAddProduct st productData).run fail s 0).2.1.products = s.products ++ [data] ∧
      ((handleAddProduct st productData).run fail s 0).1.alerts =
        st.alerts ++ [.productAdded] := by
  unfold handleAddProduct at h ⊢
  rw [Prog.run_call] at h ⊢
  simp only [List.head?_cons, Option.some.injEq, Event.mk.injEq,
    StoreCall.insertProduct.injEq] at h
  obtain ⟨hrow, hresp⟩ := h
  subst hrow
  cases hf : fail 0 with
  | some msg =>
    rw [respond_of_fail hf] at hresp
    rw [← hresp] at hr
    simp [Response.isError] at hr
  | none =>
    rw [respond_of_ok hf] at hresp ⊢
    cases hp : productData.price with
    | none =>
      simp only [Store.exec, hp] at hresp
      rw [← hresp] at hr
      simp [Response.isError] at hr
    | some price =>
      cases hx : asInteger productData.stock with
      | none =>
        simp only [Store.exec, hp, hx] at hresp
        rw [← hresp] at hr
        simp [Response.isError] at hr
      | some v =>
        simp only [Store.exec, hp, hx] at hresp ⊢
        refine ⟨_, hresp.symm, asInteger_eq_some hx, ?_⟩
        simp only [Prog.run_call, Nat.zero_add]
        generalize hg : respond fail _ 1 (.insertLog _) = r1
        obtain ⟨s1, resp1⟩ := r1
        have hprod := congrArg (fun x => x.1.products) hg
        simp only [respond_insertLog_products] at hprod
        cases resp1 <;>
          simp [Prog.run, AppState.alert, AppState.consoleError] <;> exact hprod.symm

theorem handleUpdateProduct_write_stays (fail : Failures) (st : AppState) (s : Store)
    (productId : Nat) (updatedData : ProductData) (id : Nat) (data : ProductData)
    (r : Response)
    (h : ((handleUpdateProduct st productId updatedData).run fail s 0).2.2.head? =
      some ⟨.updateProduct id data, r⟩) (hr : r.isError = false) :
    ∃ row : Product, r = .product row ∧ data.stock = some ((row.stock : Int) : ℚ) ∧
      ((handleUpdateProduct st productId updatedData).run fail s 0).2.1.products =
        s.products.map (fun p => if p.id = id then row else p) ∧
      ((handleUpdateProduct st productId updatedData).run fail s 0).1.alerts =
        st.alerts ++ [.productUpdated] := by
  unfold handleUpdateProduct at h ⊢
  simp only at h ⊢
  rw [Prog.run_call] at h ⊢
  simp only [List.head?_cons, Option.some.injEq, Event.mk.injEq,
    StoreCall.updateProduct.injEq] at h
  obtain ⟨⟨hid, hdata⟩, hresp⟩ := h
  subst hid hdata
  cases hf : fail 0 with
  | some msg =>
    rw [respond_of_fail hf] at hresp
    rw [← hresp] at hr
    simp [Response.isError] at hr
  | none =>
    rw [respond_of_ok hf] at hresp ⊢
    cases hp : updatedData.price with
    | none =>
      simp only [Store.exec, hp] at hresp
      rw [← hresp] at hr
      simp [Response.isError] at hr
    | some price =>
      cases hx : asInteger updatedData.stock with
      | none =>
        simp only [Store.exec, hp, hx] at hresp
        rw [← hresp] at hr
        simp [Response.isError] at hr
      | some v =>
        simp only [Store.exec, hp, hx] at hresp ⊢
        split at hresp
        · rename_i row0 hrow0
          simp only [hrow0]
          refine ⟨_, hresp.symm, asInteger_eq_some hx, ?_⟩
          cases hold : findProduct st.products productId with
          | none => simp [Prog.run, AppState.alert]
          | some old =>
            by_cases hne : old.stock = v
            · simp [hne, Prog.run, AppState.alert]
            · simp only [ne_eq, hne, not_false_eq_true, if_true, Prog.run_call, Nat.zero_add]
              generalize hg : respond fail _ 1 (.insertLog _) = r1
              obtain ⟨s1, resp1⟩ := r1
              have hprod := congrArg (fun x => x.1.products) hg
              simp only [respond_insertLog_products] at hprod
              cases resp1 <;>
                simp [Prog.run, AppState.alert, AppState.consoleError] <;> exact hprod.symm
        · rw [← hresp] at hr
          simp [Response.isError] at hr

theorem updateStockLoop_updates_accepted (fail : Failures) (products : List Product)
    (saleId : Nat) (items : List CartItem) (st : AppState) (s : Store) (n : Nat)
    (hfound : ∀ x ∈ items, ∃ p, findProduct products x.id = some p)
    (hok : ∀ e ∈ ((updateStockLoop products saleId items st).run fail s n).2.2,
      (∃ id v, e.call = .updateStock id v) → e.response.isError = false) :
    ((updateStockLoop products saleId items st).run fail s n).2.1.products =
      items.foldl (fun ps item => setStock item.id (stockAfterSale products item) ps)
        s.products := by
  induction items generalizing st s n with
  | nil => simp [updateStockLoop, Prog.run]
  | cons item rest ih =>
    obtain ⟨p, hf⟩ := hfound item (List.mem_cons_self _ _)
    have hv : stockAfterSale products item = p.stock - item.quantity := by
      simp [stockAfterSale, hf]
    cases hr : (respond fail s n
      (.updateStock item.id (some ((p.stock - item.quantity : Int) : ℚ)))).2.isError with
    | true =>
      obtain ⟨m, hm⟩ := (isError_eq_true_iff _).1 hr
      rw [updateStockLoop_run_fail fail products saleId item rest st s n p hf m hm] at hok
      have := hok _ (List.mem_singleton_self _) ⟨_, _, rfl⟩
      simp [Response.isError] at this
    | false =>
      have hfn : fail n = none := by
        cases hfn : fail n with
        | none => rfl
        | some msg =>
          rw [respond_of_fail hfn] at hr
          simp [Response.isError] at hr
      have hr1 : respond fail s n
          (.updateStock item.id (some ((p.stock - item.quantity : Int) : ℚ))) =
          ({ s with products := setStock item.id (p.stock - item.quantity) s.products },
            .ok) := by
        rw [respond_of_ok hfn]
        simp only [Store.exec, asInteger_intCast]
      rw [updateStockLoop_run_ok fail products saleId item rest st s n p hf hr] at hok ⊢
      simp only
      rw [ih _ _ _ (fun x hx => hfound x (List.mem_cons_of_mem _ hx))
        (fun e he => hok e (List.mem_cons_of_mem _ (List.mem_cons_of_mem _ he)))]
      rw [respond_insertLog_products, hr1, List.foldl_cons, hv]

theorem handleCheckout_writes_stay (fail : Failures) (st : AppState) (s : Store)
    (hne : st.cartItems ≠ []) (hv : verifyStock st.products st.cartItems = none)
    (hok : ∀ e ∈ ((handleCheckout st).run fail s 0).2.2,
      ((∃ row, e.call = .insertSale row) ∨ (∃ rows, e.call = .insertSaleItems rows) ∨
        ∃ id v, e.call = .updateStock id v) → e.response.isError = false) :
    ((handleCheckout st).run fail s 0).1.alerts = st.alerts ++ [.saleDone] ∧
    ((handleCheckout st).run fail s 0).2.1.products =
      st.cartItems.foldl
        (fun ps item => setStock item.id (stockAfterSale st.products item) ps) s.products := by
  have hfound : ∀ x ∈ st.cartItems, ∃ p, findProduct st.products x.id = some p := by
    intro x hx
    obtain ⟨p, hp, _⟩ := (verifyStock_eq_none_iff _ _).1 hv x hx
    exact ⟨p, hp⟩
  cases h0 : fail 0 with
  | some m0 =>
    rw [handleCheckout_run_sale_failed fail st s hne hv m0 h0] at hok
    have := hok _ (List.mem_singleton_self _) (Or.inl ⟨_, rfl⟩)
    simp [Response.isError] at this
  | none =>
    cases h1 : fail 1 with
    | some m1 =>
      rw [handleCheckout_run_items_failed fail st s hne hv h0 m1 h1] at hok
      have := hok ⟨.insertSaleItems (saleItemsToInsert s.nextId st.cartItems), .error m1⟩
        (by simp) (Or.inr (Or.inl ⟨_, rfl⟩))
      simp [Response.isError] at this
    | none =>
      have hloopok : ∀ e ∈ (loopRun fail s st).2.2,
          (∃ id v, e.call = .updateStock id v) → e.response.isError = false := by
        intro e he hk
        cases hL : (loopRun fail s st).1.2 with
        | some mL =>
          rw [handleCheckout_run_loop_failed fail st s hne hv h0 h1 mL hL] at hok
          exact hok e (List.mem_cons_of_mem _ (List.mem_cons_of_mem _ he)) (Or.inr (Or.inr hk))
        | none =>
          rw [handleCheckout_run_completed fail st s hne hv h0 h1 hL] at hok
          exact hok e (List.mem_cons_of_mem _ (List.mem_cons_of_mem _
            (List.mem_append_left _ he))) (Or.inr (Or.inr hk))
      have hL : (loopRun fail s st).1.2 = none :=
        updateStockLoop_no_error fail st.products s.nextId st.cartItems
          { st with showConfirmation := true } (itemsStore s st) 2 hfound hloopok
      rw [handleCheckout_run_completed fail st s hne hv h0 h1 hL]
      have hal : (loopRun fail s st).1.1.alerts = st.alerts :=
        (updateStockLoop_state fail st.products s.nextId st.cartItems
          { st with showConfirmation := true } (itemsStore s st) 2).2.2.1
      refine ⟨by rw [(refreshAfterSale_run fail _ _ _).2.2.2.1, hal], ?_⟩
      exact updateStockLoop_updates_accepted fail st.products s.nextId st.cartItems
        { st with showConfirmation := true } (itemsStore s st) 2 hfound hloopok

/-! ## Audit rows -/

/-- C7, runs that contradict the claim.  An inbound adjustment by 2 of a product
with stock 5 in `InventoryManagement` whose `inventory_logs` insert fails: the
store keeps the new stock 7, no log row is stored, and the handler reports
success, the failure going to the console only.  A checkout of 2 units of that
product whose log insert fails: the store keeps stock 3, no log row is stored,
and the sale is reported as done.  An edit that writes stock 5 while the cached
row of the product holds 5 and the store holds 3: the store accepts the write,
its stock goes from 3 to 5, and no `inventory_logs` insert is issued. -/
theorem stock_write_without_log :
    acceptedStocks ((InventoryManagement.handleAdjustStock (sampleInventory "entrada" "2")).run
        (failAt 1 "network") sampleStore 0).2.2 = [some 7] ∧
    (findProduct ((InventoryManagement.handleAdjustStock (sampleInventory "entrada" "2")).run
        (failAt 1 "network") sampleStore 0).2.1.products 1).map (fun p => p.stock) = some 7 ∧
    ((InventoryManagement.handleAdjustStock (sampleInventory "entrada" "2")).run
        (failAt 1 "network") sampleStore 0).2.1.inventory_logs = [] ∧
    ((InventoryManagement.handleAdjustStock (sampleInventory "entrada" "2")).run
        (failAt 1 "network") sampleStore 0).1.alerts = [.stockAdjusted] ∧
    ((InventoryManagement.handleAdjustStock (sampleInventory "entrada" "2")).run
        (failAt 1 "network") sampleStore 0).1.console = ["Error logging inventory:"] ∧
    acceptedStocks ((handleCheckout (sampleApp [⟨cafe, 2⟩])).run
        (failAt 3 "network") sampleStore 0).2.2 = [some 3] ∧
    (findProduct ((handleCheckout (sampleApp [⟨cafe, 2⟩])).run
        (failAt 3 "network") sampleStore 0).2.1.products 1).map (fun p => p.stock) = some 3 ∧
    ((handleCheckout (sampleApp [⟨cafe, 2⟩])).run
        (failAt 3 "network") sampleStore 0).2.1.inventory_logs = [] ∧
    ((handleCheckout (sampleApp [⟨cafe, 2⟩])).run
        (failAt 3 "network") sampleStore 0).1.alerts = [.saleDone] ∧
    (findProduct (storeWithStock 3).products 1).map (fun p => p.stock) = some 3 ∧
    acceptedStocks ((handleSaveEdit (sampleEdit "5") (sampleApp [])).run
        noFailure (storeWithStock 3) 0).2.2 = [some 5] ∧
    (findProduct ((handleSaveEdit (sampleEdit "5") (sampleApp [])).run
        noFailure (storeWithStock 3) 0).2.1.products 1).map (fun p => p.stock) = some 5 ∧
    loggedRows ((handleSaveEdit (sampleEdit "5") (sampleApp [])).run
        noFailure (storeWithStock 3) 0).2.2 = [] := by
  refine ⟨?_, ?_, ?_, ?_, ?_, ?_, ?_, ?_, ?_, ?_, ?_, ?_, ?_⟩ <;> decide!

/-- C7, amended.  In every run of every handler the log table ends as it began
plus the rows of the `inventory_logs` inserts the store accepted, in order: a
failed insert stores no row.  `handleCheckout`, both `handleAdjustStock`
handlers and `handleAddProduct` issue, for every stock write the store accepted,
one `inventory_logs` insert whose `new_stock` is the stock written, and no
other; `handleUpdateProduct` does so when the cached row of the product holds
another stock than the one written.  The stock write and its log row are not one
unit.  Once the store has accepted the stock write of an adjustment, of
`handleAddProduct` or of `handleUpdateProduct`, the store ends with the product
list that write left and the handler reports success, whatever the log insert
was answered; and a checkout of a cart that passed the stock check in which no
`sales` insert, `sale_items` insert or stock update fails ends with the stock of
every cart line written and the sale reported as done, whatever its log inserts
were answered.  (A checkout of 2
units of the first sample product writes stock 3; an edit that sets its stock to
8 logs one row, 3 in, new stock 8.) -/
theorem stock_writes_logged :
    (∀ (α : Type) (p : Prog α) (fail : Failures) (s : Store),
      (p.run fail s 0).2.1.inventory_logs = s.inventory_logs ++ storedLogs (p.run fail s 0).2.2) ∧
    (∀ (fail : Failures) (st : AppState) (s : Store),
      (loggedRows ((handleCheckout st).run fail s 0).2.2).map (fun row => row.new_stock) =
        acceptedStocks ((handleCheckout st).run fail s 0).2.2) ∧
    (∀ (fail : Failures) (st : AppState) (s : Store) (productId : Nat)
        (productName type : String) (quantity : ℚ) (reason : String),
      (loggedRows ((App.handleAdjustStock st productId productName type quantity reason).run
          fail s 0).2.2).map (fun row => row.new_stock) =
        acceptedStocks ((App.handleAdjustStock st productId productName type quantity
          reason).run fail s 0).2.2) ∧
    (∀ (fail : Failures) (st : InventoryState) (s : Store),
      (loggedRows ((InventoryManagement.handleAdjustStock st).run fail s 0).2.2).map
          (fun row => row.new_stock) =
        acceptedStocks ((InventoryManagement.handleAdjustStock st).run fail s 0).2.2) ∧
    (∀ (fail : Failures) (st : AppState) (s : Store) (productData : ProductData),
      (loggedRows ((handleAddProduct st productData).run fail s 0).2.2).map
          (fun row => row.new_stock) =
        acceptedStocks ((handleAddProduct st productData).run fail s 0).2.2) ∧
    (∀ (fail : Failures) (st : AppState) (s : Store) (productId : Nat)
        (updatedData : ProductData) (old : Product),
      findProduct st.products productId = some old →
      updatedData.stock ≠ some ((old.stock : Int) : ℚ) →
      (loggedRows ((handleUpdateProduct st productId updatedData).run fail s 0).2.2).map
          (fun row => row.new_stock) =
        acceptedStocks ((handleUpdateProduct st productId updatedData).run fail s 0).2.2) ∧
    (∀ (fail : Failures) (st : AppState) (s : Store),
      st.cartItems ≠ [] → verifyStock st.products st.cartItems = none →
      (∀ e ∈ ((handleCheckout st).run fail s 0).2.2,
        ((∃ row, e.call = .insertSale row) ∨ (∃ rows, e.call = .insertSaleItems rows) ∨
          ∃ id v, e.call = .updateStock id v) → e.response.isError = false) →
      ((handleCheckout st).run fail s 0).1.alerts = st.alerts ++ [.saleDone] ∧
      ((handleCheckout st).run fail s 0).2.1.products =
        st.cartItems.foldl
          (fun ps item => setStock item.id (stockAfterSale st.products item) ps) s.products) ∧
    (∀ (fail : Failures) (st : InventoryState) (s : Store) (id : Nat) (x : Option ℚ)
        (r : Response),
      ((InventoryManagement.handleAdjustStock st).run fail s 0).2.2.head? =
        some ⟨.updateStockSingle id x, r⟩ → r.isError = false →
      ∃ v : Int, x = some (v : ℚ) ∧
        ((InventoryManagement.handleAdjustStock st).run fail s 0).2.1.products =
          setStock id v s.products ∧
        ((InventoryManagement.handleAdjustStock st).run fail s 0).1.alerts =
          st.alerts ++ [.stockAdjusted]) ∧
    (∀ (fail : Failures) (st : AppState) (s : Store) (productId : Nat)
        (productName type : String) (quantity : ℚ) (reason : String) (id : Nat)
        (x : Option ℚ) (r : Response),
      ((App.handleAdjustStock st productId productName type quantity reason).run
        fail s 0).2.2.head? = some ⟨.updateStockSingle id x, r⟩ → r.isError = false →
      ∃ v : Int, x = some (v : ℚ) ∧
        ((App.handleAdjustStock st productId productName type quantity reason).run
          fail s 0).2.1.products = setStock id v s.products ∧
        ((App.handleAdjustStock st productId productName type quantity reason).run
          fail s 0).1.alerts = st.alerts ++ [.stockAdjusted]) ∧
    (∀ (fail : Failures) (st : AppState) (s : Store) (productData row : ProductData)
        (r : Response),
      ((handleAddProduct st productData).run fail s 0).2.2.head? =
        some ⟨.insertProduct row, r⟩ → r.isError = false →
      ∃ data : Product, r = .product data ∧ row.stock = some ((data.stock : Int) : ℚ) ∧
        ((handleAddProduct st productData).run fail s 0).2.1.products = s.products ++ [data] ∧
        ((handleAddProduct st productData).run fail s 0).1.alerts =
          st.alerts ++ [.productAdded]) ∧
    (∀ (fail : Failures) (st : AppState) (s : Store) (productId : Nat)
        (updatedData : ProductData) (id : Nat) (data : ProductData) (r : Response),
      ((handleUpdateProduct st productId updatedData).run fail s 0).2.2.head? =
        some ⟨.updateProduct id data, r⟩ → r.isError = false →
      ∃ row : Product, r = .product row ∧ data.stock = some ((row.stock : Int) : ℚ) ∧
        ((handleUpdateProduct st productId updatedData).run fail s 0).2.1.products =
          s.products.map (fun p => if p.id = id then row else p) ∧
        ((handleUpdateProduct st productId updatedData).run fail s 0).1.alerts =
          st.alerts ++ [.productUpdated]) ∧
    acceptedStocks ((handleCheckout (sampleApp [⟨cafe, 2⟩])).run noFailure sampleStore 0).2.2 =
      [some 3] ∧
    (loggedRows ((handleSaveEdit (sampleEdit "8") (sampleApp [])).run
        noFailure sampleStore 0).2.2).map
      (fun row => (row.change_type, row.quantity_change, row.new_stock)) =
        [("entrada", some 3, some 8)] := by
  refine ⟨?_, handleCheckout_logged, appAdjustStock_logged,
    inventoryAdjustStock_logged, handleAddProduct_logged, ?_, handleCheckout_writes_stay,
    inventoryAdjustStock_write_stays, appAdjustStock_write_stays,
    handleAddProduct_write_stays, handleUpdateProduct_write_stays, by decide!, by decide!⟩
  · intro α p fail s
    rw [Prog.run_store_eq_replay, replay_inventory_logs]
  · intro fail st s productId updatedData old hold hne
    exact handleUpdateProduct_logged fail st s productId updatedData old hold hne

/-! ## The ledger tables -/

theorem exec_ledger_prefix (s : Store) (c : StoreCall) :
    s.sales <+: (s.exec c).1.sales ∧ s.sale_items <+: (s.exec c).1.sale_items ∧
      s.inventory_logs <+: (s.exec c).1.inventory_logs := by
  cases c with
  | insertSale row => exact ⟨List.prefix_append _ _, List.prefix_rfl, List.prefix_rfl⟩
  | insertSaleItems rows => exact ⟨List.prefix_rfl, List.prefix_append _ _, List.prefix_rfl⟩
  | insertLog row => exact ⟨List.prefix_rfl, List.prefix_rfl, List.prefix_append _ _⟩
  | updateStock id stock =>
    simp only [Store.exec]
    cases asInteger stock <;> exact ⟨List.prefix_rfl, List.prefix_rfl, List.prefix_rfl⟩
  | updateStockSingle id stock =>
    simp only [Store.exec]
    cases asInteger stock with
    | none => exact ⟨List.prefix_rfl, List.prefix_rfl, List.prefix_rfl⟩
    | some v =>
      simp only
      split <;> exact ⟨List.prefix_rfl, List.prefix_rfl, List.prefix_rfl⟩
  | insertProduct row =>
    simp only [Store.exec]
    split <;> exact ⟨List.prefix_rfl, List.prefix_rfl, List.prefix_rfl⟩
  | updateProduct id data =>
    simp only [Store.exec]
    split
    · split <;> exact ⟨List.prefix_rfl, List.prefix_rfl, List.prefix_rfl⟩
    · exact ⟨List.prefix_rfl, List.prefix_rfl, List.prefix_rfl⟩
  | selectLogs pid => cases pid <;> exact ⟨List.prefix_rfl, List.prefix_rfl, List.prefix_rfl⟩
  | _ => exact ⟨List.prefix_rfl, List.prefix_rfl, List.prefix_rfl⟩

theorem replay_ledger_prefix (tr : List Event) (s : Store) :
    s.sales <+: (replay tr s).sales ∧ s.sale_items <+: (replay tr s).sale_items ∧
      s.inventory_logs <+: (replay tr s).inventory_logs := by
  induction tr generalizing s with
  | nil => exact ⟨List.prefix_rfl, List.prefix_rfl, List.prefix_rfl⟩
  | cons e rest ih =>
    rw [replay_cons]
    split
    · exact ih s
    · have h1 := exec_ledger_prefix s e.call
      have h2 := ih (s.exec e.call).1
      exact ⟨h1.1.trans h2.1, h1.2.1.trans h2.2.1, h1.2.2.trans h2.2.2⟩

theorem Prog.Issues.bind {α β : Type} {P : StoreCall → Prop} {p : Prog α} {f : α → Prog β}
    (hp : p.Issues P) (hf : ∀ a, (f a).Issues P) : (p.bind f).Issues P := by
  induction p with
  | done a => exact hf a
  | call c k ih => exact ⟨hp.1, fun r => ih r (hp.2 r)⟩

theorem Prog.Issues.calls {α : Type} {P : StoreCall → Prop} {p : Prog α} (hp : p.Issues P) :
    p.calls.Issues P :=
  hp.bind fun _ => trivial

theorem Prog.Issues.run {α : Type} {P : StoreCall → Prop} {p : Prog α} (hp : p.Issues P)
    (fail : Failures) (s : Store) (n : Nat) : ∀ e ∈ (p.run fail s n).2.2, P e.call := by
  induction p generalizing s n with
  | done a =>
    intro e he
    simp [Prog.run] at he
  | call c k ih =>
    intro e he
    rw [Prog.run_call] at he
    simp only [List.mem_cons] at he
    rcases he with rfl | he
    · exact hp.1
    · exact ih _ (hp.2 _) _ _ e he

theorem keepsLedger_of_table {c : StoreCall} (h : c.table ∉ ledgerTables) : c.keepsLedger :=
  fun ht _ => absurd ht h

theorem keepsLedger_of_products {c : StoreCall} (h : c.table = "products") : c.keepsLedger :=
  keepsLedger_of_table (by rw [h]; decide)

theorem keepsLedger_of_insert {c : StoreCall} (h : c.kind = .insert) : c.keepsLedger :=
  fun _ _ => h

theorem keepsLedger_of_read {c : StoreCall} (h : c.isWrite = false) : c.keepsLedger := by
  intro _ hw
  rw [h] at hw
  exact absurd hw (by decide)

theorem updateStockLoop_issues (products : List Product) (saleId : Nat)
    (items : List CartItem) (st : AppState) :
    (updateStockLoop products saleId items st).Issues StoreCall.keepsLedger := by
  induction items generalizing st with
  | nil => trivial
  | cons item rest ih =>
    unfold updateStockLoop
    cases findProduct products item.id with
    | none => trivial
    | some currentProduct =>
      refine ⟨keepsLedger_of_products rfl, fun r => ?_⟩
      cases r <;> first
        | trivial
        | (refine ⟨keepsLedger_of_insert rfl, fun log => ?_⟩
           cases log <;> exact ih _)

theorem refreshAfterSale_issues (st : AppState) :
    (refreshAfterSale st).Issues StoreCall.keepsLedger :=
  ⟨keepsLedger_of_table (by decide), fun _ => trivial⟩

theorem handleCheckout_issues (st : AppState) :
    (handleCheckout st).Issues StoreCall.keepsLedger := by
  unfold handleCheckout
  split
  · trivial
  · split
    · trivial
    · refine ⟨keepsLedger_of_insert rfl, fun r => ?_⟩
      cases r <;> first
        | trivial
        | (refine ⟨keepsLedger_of_insert rfl, fun r2 => ?_⟩
           cases r2 <;> first
             | trivial
             | (refine (updateStockLoop_issues _ _ _ _).bind fun res => ?_
                cases res.2 with
                | none => exact refreshAfterSale_issues _
                | some message => trivial))

theorem appAdjustStock_issues (st : AppState) (productId : Nat) (productName type : String)
    (quantity : ℚ) (reason : String) :
    (App.handleAdjustStock st productId productName type quantity reason).Issues
      StoreCall.keepsLedger := by
  unfold App.handleAdjustStock
  split
  · trivial
  · simp only
    split
    · trivial
    · refine ⟨keepsLedger_of_products rfl, fun r => ?_⟩
      cases r <;> first
        | trivial
        | (refine ⟨keepsLedger_of_insert rfl, fun log => ?_⟩
           cases log <;> trivial)

theorem handleAddProduct_issues (st : AppState) (productData : ProductData) :
    (handleAddProduct st productData).Issues StoreCall.keepsLedger := by
  refine ⟨keepsLedger_of_products rfl, fun r => ?_⟩
  cases r <;> first
    | trivial
    | (refine ⟨keepsLedger_of_insert rfl, fun log => ?_⟩
       cases log <;> trivial)

theorem handleUpdateProduct_issues (st : AppState) (productId : Nat)
    (updatedData : ProductData) :
    (handleUpdateProduct st productId updatedData).Issues StoreCall.keepsLedger := by
  refine ⟨keepsLedger_of_products rfl, fun r => ?_⟩
  cases r <;> first
    | trivial
    | (simp only
       split
       · split
         · refine ⟨keepsLedger_of_insert rfl, fun log => ?_⟩
           cases log <;> trivial
         · trivial
       · trivial)

theorem handleDeleteProduct_issues (st : AppState) (productId : Nat) (confirmed : Bool) :
    (handleDeleteProduct st productId confirmed).Issues StoreCall.keepsLedger := by
  unfold handleDeleteProduct
  split
  · refine ⟨keepsLedger_of_products rfl, fun r => ?_⟩
    cases r <;> trivial
  · trivial

theorem handleAddSubmit_issues (panel : PanelState) (st : AppState) :
    (handleAddSubmit panel st).Issues StoreCall.keepsLedger := by
  unfold handleAddSubmit
  split
  · trivial
  · exact (handleAddProduct_issues _ _).bind fun _ => trivial

theorem handleSaveEdit_issues (panel : PanelState) (st : AppState) :
    (handleSaveEdit panel st).Issues StoreCall.keepsLedger := by
  unfold handleSaveEdit
  simp only
  split
  · trivial
  · exact (handleUpdateProduct_issues _ _ _).bind fun _ => trivial

theorem fetchProducts_issues (st : InventoryState) :
    (fetchProducts st).Issues StoreCall.keepsLedger :=
  ⟨keepsLedger_of_table (by decide), fun _ => trivial⟩

theorem fetchInventoryLogs_issues (st : InventoryState) (productId : Option Nat) :
    (fetchInventoryLogs st productId).Issues StoreCall.keepsLedger :=
  ⟨keepsLedger_of_read rfl, fun _ => trivial⟩

theorem refreshInventory_issues (st : InventoryState) (selected : Option Nat) :
    (refreshInventory st selected).Issues StoreCall.keepsLedger :=
  (fetchProducts_issues st).bind fun st3 =>
    (fetchInventoryLogs_issues st3 selected).bind fun _ => trivial

theorem inventoryAdjustStock_issues (st : InventoryState) :
    (InventoryManagement.handleAdjustStock st).Issues StoreCall.keepsLedger := by
  unfold InventoryManagement.handleAdjustStock
  simp only
  split
  · trivial
  · split
    · trivial
    · split
      · trivial
      · refine ⟨keepsLedger_of_products rfl, fun r => ?_⟩
        cases r <;> first
          | trivial
          | (refine ⟨keepsLedger_of_insert rfl, fun log => ?_⟩
             exact refreshInventory_issues _ _)

theorem operation_issues (op : Operation) : op.prog.Issues StoreCall.keepsLedger := by
  cases op with
  | appFetchProducts st =>
    exact Prog.Issues.calls ⟨keepsLedger_of_table (by decide), fun r => by cases r <;> trivial⟩
  | checkout st => exact (handleCheckout_issues st).calls
  | addProduct st productData => exact (handleAddProduct_issues st productData).calls
  | updateProduct st productId updatedData =>
    exact (handleUpdateProduct_issues st productId updatedData).calls
  | deleteProduct st productId confirmed =>
    exact (handleDeleteProduct_issues st productId confirmed).calls
  | adjustStock st productId productName type quantity reason =>
    exact (appAdjustStock_issues st productId productName type quantity reason).calls
  | addSubmit panel st => exact (handleAddSubmit_issues panel st).calls
  | saveEdit panel st => exact (handleSaveEdit_issues panel st).calls
  | inventoryFetchProducts st => exact (fetchProducts_issues st).calls
  | inventoryFetchLogs st productId => exact (fetchInventoryLogs_issues st productId).calls
  | inventoryAdjustStock st => exact (inventoryAdjustStock_issues st).calls
  | sales =>
    exact Prog.Issues.calls ⟨keepsLedger_of_read rfl, fun r => by cases r <;> trivial⟩
  | saleItems saleId =>
    exact Prog.Issues.calls ⟨keepsLedger_of_read rfl, fun r => by cases r <;> trivial⟩
  | dailySummary =>
    refine Prog.Issues.calls ⟨keepsLedger_of_read rfl, fun r => ?_⟩
    cases r <;> first
      | trivial
      | exact ⟨keepsLedger_of_read rfl, fun r2 => by cases r2 <;> trivial⟩
  | customers =>
    exact Prog.Issues.calls ⟨keepsLedger_of_table (by decide), fun r => by cases r <;> trivial⟩
  | addCustomer name =>
    refine Prog.Issues.calls ?_
    unfold handleAddCustomerSubmit
    split
    · trivial
    · exact ⟨keepsLedger_of_table (by decide), fun r => by cases r <;> trivial⟩
  | saveCustomer name =>
    refine Prog.Issues.calls ?_
    unfold CustomerManagement.handleSaveEdit
    split
    · trivial
    · exact ⟨keepsLedger_of_table (by decide), fun r => by cases r <;> trivial⟩
  | deleteCustomer confirmed =>
    refine Prog.Issues.calls ?_
    unfold handleDeleteCustomer
    split
    · exact ⟨keepsLedger_of_table (by decide), fun r => by cases r <;> trivial⟩
    · trivial
  | users =>
    exact Prog.Issues.calls ⟨keepsLedger_of_table (by decide), fun r => by cases r <;> trivial⟩
  | deleteUser confirmed =>
    refine Prog.Issues.calls ?_
    unfold handleDeleteUser
    split
    · exact ⟨keepsLedger_of_table (by decide), fun r => by cases r <;> trivial⟩
    · trivial
  | rolesAndPermissions =>
    refine Prog.Issues.calls ⟨keepsLedger_of_table (by decide), fun r => ?_⟩
    cases r <;> first
      | trivial
      | (refine ⟨keepsLedger_of_table (by decide), fun r2 => ?_⟩
         cases r2 <;> first
           | trivial
           | exact ⟨keepsLedger_of_table (by decide), fun r3 => by cases r3 <;> trivial⟩)
  | saveRolePermissions rolePermissions roleName =>
    refine Prog.Issues.calls ⟨keepsLedger_of_table (by decide), fun r => ?_⟩
    cases r <;> first
      | trivial
      | (simp only
         split
         · trivial
         · split
           · exact ⟨keepsLedger_of_table (by decide), fun r2 => by cases r2 <;> trivial⟩
           · trivial)
  | deleteRole roleName confirmed =>
    refine Prog.Issues.calls ?_
    unfold handleDeleteRole
    split
    · refine ⟨keepsLedger_of_table (by decide), fun r => ?_⟩
      cases r <;> first
        | trivial
        | exact ⟨keepsLedger_of_table (by decide), fun r2 => by cases r2 <;> trivial⟩
    · trivial
  | returns =>
    exact Prog.Issues.calls ⟨keepsLedger_of_table (by decide), fun r => by cases r <;> trivial⟩
  | returnItems =>
    exact Prog.Issues.calls ⟨keepsLedger_of_table (by decide), fun r => by cases r <;> trivial⟩

theorem runAll_issues (fail : Failures) (ops : List Operation) (s : Store) (n : Nat) :
    ∀ e ∈ (runAll fail ops s n).2, e.call.keepsLedger := by
  induction ops generalizing s n with
  | nil =>
    intro e he
    simp [runAll] at he
  | cons op rest ih =>
    intro e he
    simp only [runAll, List.mem_append] at he
    rcases he with he | he
    · exact (operation_issues op).run fail s n e he
    · exact ih _ _ e he

theorem runAll_ledger_prefix (fail : Failures) (ops : List Operation) (s : Store) (n : Nat) :
    s.sales <+: (runAll fail ops s n).1.sales ∧
    s.sale_items <+: (runAll fail ops s n).1.sale_items ∧
    s.inventory_logs <+: (runAll fail ops s n).1.inventory_logs := by
  induction ops generalizing s n with
  | nil => exact ⟨List.prefix_rfl, List.prefix_rfl, List.prefix_rfl⟩
  | cons op rest ih =>
    have h1 : s.sales <+: (op.prog.run fail s n).2.1.sales ∧
        s.sale_items <+: (op.prog.run fail s n).2.1.sale_items ∧
        s.inventory_logs <+: (op.prog.run fail s n).2.1.inventory_logs := by
      rw [Prog.run_store_eq_replay]
      exact replay_ledger_prefix _ s
    have h2 := ih (op.prog.run fail s n).2.1 (n + (op.prog.run fail s n).2.2.length)
    exact ⟨h1.1.trans h2.1, h1.2.1.trans h2.2.1, h1.2.2.trans h2.2.2⟩


/-- C18: in every run of the client (any sequence of its operations, each with
any state and arguments, from every store and under every failure pattern) a
call that writes to `sales`, `sale_items` or `inventory_logs` is an insert, and
the rows these three tables held at the start are still there at the end,
unchanged and in place, followed by the rows added.  The two writes of
`UserManagement` that are embedded with their answers address `users`.  The
property is one of the handlers, not of the calls there are: a handler that
issued a delete on `sales` would break it.  (After a sale of 2 units, an
adjustment, the removal of the product sold and the removal of a role, the sale,
its line and the two log rows are still there.) -/
theorem ledger_append_only :
    (∀ (ops : List Operation) (fail : Failures) (s : Store) (n : Nat),
      (∀ e ∈ (runAll fail ops s n).2, e.call.table ∈ ledgerTables → e.call.isWrite = true →
        e.call.kind = .insert) ∧
      s.sales <+: (runAll fail ops s n).1.sales ∧
      s.sale_items <+: (runAll fail ops s n).1.sale_items ∧
      s.inventory_logs <+: (runAll fail ops s n).1.inventory_logs) ∧
    (∀ (st : UsersState) (store : UsersCall → UsersResponse),
      ∀ c ∈ (handleAddUserSubmit st store).2 ++ (UserManagement.handleSaveEdit st store).2,
        c.query.table = "users") ∧
    (¬ ∀ e ∈ ((Prog.call (.query "sales" .delete) fun _ => Prog.done ()).run
        noFailure sampleStore 0).2.2,
      e.call.table ∈ ledgerTables → e.call.isWrite = true → e.call.kind = .insert) ∧
    ((runAll noFailure
        [.checkout (sampleApp [⟨cafe, 2⟩]),
          .inventoryAdjustStock (sampleInventory "entrada" "2"),
          .deleteProduct (sampleApp []) 1 true, .deleteRole "cashier" true]
        sampleStore 0).1.sales.map (fun row => row.id) = [7] ∧
      (runAll noFailure
        [.checkout (sampleApp [⟨cafe, 2⟩]),
          .inventoryAdjustStock (sampleInventory "entrada" "2"),
          .deleteProduct (sampleApp []) 1 true, .deleteRole "cashier" true]
        sampleStore 0).1.sale_items.map (fun row => (row.sale_id, row.product_id)) = [(7, 1)] ∧
      (runAll noFailure
        [.checkout (sampleApp [⟨cafe, 2⟩]),
          .inventoryAdjustStock (sampleInventory "entrada" "2"),
          .deleteProduct (sampleApp []) 1 true, .deleteRole "cashier" true]
        sampleStore 0).1.inventory_logs.map (fun row => (row.change_type, row.new_stock)) =
        [("salida", some 3), ("entrada", some 7)]) := by
  refine ⟨fun ops fail s n => ⟨fun e he => runAll_issues fail ops s n e he,
    runAll_ledger_prefix fail ops s n⟩, ?_, ?_, ⟨by decide!, by decide!, by decide!⟩⟩
  · intro st store c hc
    cases c <;> rfl
  · intro h
    have := h ⟨.query "sales" .delete, .error "permission denied for table"⟩
      (by decide!) (by decide) rfl
    exact absurd this (by decide)

/-! ## Two concurrent checkouts -/

theorem setStock_ids (id : Nat) (v : Int) (ps : List Product) :
    (setStock id v ps).map (fun r => r.id) = ps.map fun r => r.id := by
  simp only [setStock, List.map_map]
  apply List.map_congr_left
  intro r _
  by_cases h : r.id = id <;> simp [Function.comp, h]

theorem setStock_stock (id : Nat) (v : Int) (ps : List Product) :
    ∀ r ∈ setStock id v ps, r.id = id → r.stock = v := by
  intro r hr hid
  simp only [setStock, List.mem_map] at hr
  obtain ⟨a, _, rfl⟩ := hr
  by_cases h : a.id = id
  · simp [h]
  · simp only [h, if_false] at hid

theorem exec_updateStock_int (s : Store) (id : Nat) (v : Int) :
    s.exec (.updateStock id (some (v : ℚ))) =
      ({ s with products := setStock id v s.products }, .ok) := by
  simp only [Store.exec, asInteger_intCast]

theorem SellInv.other {P : Nat} {S v₁ v₂ : Int} {n₀ : Nat} {ids : List Nat}
    {m₁ u₁ m₂ u₂ : Bool} {s : Store} (h : SellInv P S v₁ v₂ n₀ ids m₁ u₁ m₂ u₂ s)
    (c : StoreCall) (hp : (s.exec c).1.products = s.products)
    (hs : (s.exec c).1.sales = s.sales) :
    SellInv P S v₁ v₂ n₀ ids m₁ u₁ m₂ u₂ (s.exec c).1 := by
  unfold SellInv at h ⊢
  rw [hp, hs]
  exact h

theorem SellInv.sale₁ {P : Nat} {S v₁ v₂ : Int} {n₀ : Nat} {ids : List Nat}
    {u₁ m₂ u₂ : Bool} {s : Store} (h : SellInv P S v₁ v₂ n₀ ids true u₁ m₂ u₂ s)
    (row : NewSale) : SellInv P S v₁ v₂ n₀ ids false u₁ m₂ u₂ (s.exec (.insertSale row)).1 := by
  unfold SellInv at h ⊢
  refine ⟨?_, h.2.1, h.2.2⟩
  have := h.1
  simp only [Store.exec, List.length_append, List.length_singleton, Bool.toNat_true,
    Bool.toNat_false] at this ⊢
  omega

theorem SellInv.sale₂ {P : Nat} {S v₁ v₂ : Int} {n₀ : Nat} {ids : List Nat}
    {m₁ u₁ u₂ : Bool} {s : Store} (h : SellInv P S v₁ v₂ n₀ ids m₁ u₁ true u₂ s)
    (row : NewSale) : SellInv P S v₁ v₂ n₀ ids m₁ u₁ false u₂ (s.exec (.insertSale row)).1 := by
  unfold SellInv at h ⊢
  refine ⟨?_, h.2.1, h.2.2⟩
  have := h.1
  simp only [Store.exec, List.length_append, List.length_singleton, Bool.toNat_true,
    Bool.toNat_false] at this ⊢
  omega

theorem SellInv.update₁ {P : Nat} {S v₁ v₂ : Int} {n₀ : Nat} {ids : List Nat}
    {m₁ m₂ u₂ : Bool} {s : Store} (h : SellInv P S v₁ v₂ n₀ ids m₁ true m₂ u₂ s) :
    SellInv P S v₁ v₂ n₀ ids m₁ false m₂ u₂ (s.exec (.updateStock P (some (v₁ : ℚ)))).1 := by
  unfold SellInv at h ⊢
  rw [exec_updateStock_int]
  refine ⟨h.1, by rw [← h.2.1]; exact setStock_ids _ _ _, ?_⟩
  simp only [Bool.false_and, Bool.false_eq_true, if_false]
  intro r hr hid
  exact Or.inl (setStock_stock P v₁ s.products r hr hid)

theorem SellInv.update₂ {P : Nat} {S v₁ v₂ : Int} {n₀ : Nat} {ids : List Nat}
    {m₁ u₁ m₂ : Bool} {s : Store} (h : SellInv P S v₁ v₂ n₀ ids m₁ u₁ m₂ true s) :
    SellInv P S v₁ v₂ n₀ ids m₁ u₁ m₂ false (s.exec (.updateStock P (some (v₂ : ℚ)))).1 := by
  unfold SellInv at h ⊢
  rw [exec_updateStock_int]
  refine ⟨h.1, by rw [← h.2.1]; exact setStock_ids _ _ _, ?_⟩
  simp only [Bool.and_false, Bool.false_eq_true, if_false]
  intro r hr hid
  exact Or.inr (setStock_stock P v₂ s.products r hr hid)

theorem Sells.run₁ {P : Nat} {S v₁ v₂ : Int} {n₀ : Nat} {ids : List Nat} {α : Type}
    {R : α → Prop} {m₁ u₁ : Bool} {p : Prog α} (hp : Sells P v₁ R m₁ u₁ p) :
    ∀ (m₂ u₂ : Bool) (s : Store) (n : Nat), SellInv P S v₁ v₂ n₀ ids m₁ u₁ m₂ u₂ s →
      R (p.run noFailure s n).1 ∧
      SellInv P S v₁ v₂ n₀ ids false false m₂ u₂ (p.run noFailure s n).2.1 ∧
      ∀ e ∈ (p.run noFailure s n).2.2, WritesOnly P v₁ v₂ e.call := by
  induction hp with
  | done a h =>
    intro m₂ u₂ s n hinv
    exact ⟨h, hinv, fun e he => by cases he⟩
  | sale row k u _ ih =>
    intro m₂ u₂ s n hinv
    obtain ⟨h1, h2, h3⟩ := ih s m₂ u₂ _ (n + 1) (hinv.sale₁ row)
    simp only [Prog.run, respond_noFailure]
    refine ⟨h1, h2, ?_⟩
    intro e he
    rcases List.mem_cons.1 he with rfl | he
    · exact Or.inl rfl
    · exact h3 e he
  | update k m _ ih =>
    intro m₂ u₂ s n hinv
    obtain ⟨h1, h2, h3⟩ := ih s m₂ u₂ _ (n + 1) hinv.update₁
    simp only [Prog.run, respond_noFailure]
    refine ⟨h1, h2, ?_⟩
    intro e he
    rcases List.mem_cons.1 he with rfl | he
    · exact Or.inr (Or.inl rfl)
    · exact h3 e he
  | other c k m u hw hpr hs _ ih =>
    intro m₂ u₂ s n hinv
    obtain ⟨h1, h2, h3⟩ := ih s m₂ u₂ _ (n + 1) (hinv.other c (hpr s) (hs s))
    simp only [Prog.run, respond_noFailure]
    refine ⟨h1, h2, ?_⟩
    intro e he
    rcases List.mem_cons.1 he with rfl | he
    · exact Or.inl hw
    · exact h3 e he

theorem Sells.run₂ {P : Nat} {S v₁ v₂ : Int} {n₀ : Nat} {ids : List Nat} {β : Type}
    {R : β → Prop} {m₂ u₂ : Bool} {q : Prog β} (hq : Sells P v₂ R m₂ u₂ q) :
    ∀ (m₁ u₁ : Bool) (s : Store) (n : Nat), SellInv P S v₁ v₂ n₀ ids m₁ u₁ m₂ u₂ s →
      R (q.run noFailure s n).1 ∧
      SellInv P S v₁ v₂ n₀ ids m₁ u₁ false false (q.run noFailure s n).2.1 ∧
      ∀ e ∈ (q.run noFailure s n).2.2, WritesOnly P v₁ v₂ e.call := by
  induction hq with
  | done a h =>
    intro m₁ u₁ s n hinv
    exact ⟨h, hinv, fun e he => by cases he⟩
  | sale row k u _ ih =>
    intro m₁ u₁ s n hinv
    obtain ⟨h1, h2, h3⟩ := ih s m₁ u₁ _ (n + 1) (hinv.sale₂ row)
    simp only [Prog.run, respond_noFailure]
    refine ⟨h1, h2, ?_⟩
    intro e he
    rcases List.mem_cons.1 he with rfl | he
    · exact Or.inl rfl
    · exact h3 e he
  | update k m _ ih =>
    intro m₁ u₁ s n hinv
    obtain ⟨h1, h2, h3⟩ := ih s m₁ u₁ _ (n + 1) hinv.update₂
    simp only [Prog.run, respond_noFailure]
    refine ⟨h1, h2, ?_⟩
    intro e he
    rcases List.mem_cons.1 he with rfl | he
    · exact Or.inr (Or.inr rfl)
    · exact h3 e he
  | other c k m u hw hpr hs _ ih =>
    intro m₁ u₁ s n hinv
    obtain ⟨h1, h2, h3⟩ := ih s m₁ u₁ _ (n + 1) (hinv.other c (hpr s) (hs s))
    simp only [Prog.run, respond_noFailure]
    refine ⟨h1, h2, ?_⟩
    intro e he
    rcases List.mem_cons.1 he with rfl | he
    · exact Or.inl hw
    · exact h3 e he

theorem interleave_sells {P : Nat} {S v₁ v₂ : Int} {n₀ : Nat} {ids : List Nat} {α β : Type}
    {R₁ : α → Prop} {R₂ : β → Prop} (sched : List Bool) :
    ∀ (p : Prog α) (q : Prog β) (m₁ u₁ m₂ u₂ : Bool) (s : Store) (n : Nat),
      Sells P v₁ R₁ m₁ u₁ p → Sells P v₂ R₂ m₂ u₂ q →
      SellInv P S v₁ v₂ n₀ ids m₁ u₁ m₂ u₂ s →
      R₁ (interleave noFailure sched p q s n).1 ∧
      R₂ (interleave noFailure sched p q s n).2.1 ∧
      SellInv P S v₁ v₂ n₀ ids false false false false
        (interleave noFailure sched p q s n).2.2.1 ∧
      ∀ te ∈ (interleave noFailure sched p q s n).2.2.2, WritesOnly P v₁ v₂ te.2.call := by
  induction sched with
  | nil =>
    intro p q m₁ u₁ m₂ u₂ s n hp hq hinv
    obtain ⟨a1, a2, a3⟩ := hp.run₁ m₂ u₂ s n hinv
    obtain ⟨b1, b2, b3⟩ := hq.run₂ false false _ (n + (p.run noFailure s n).2.2.length) a2
    simp only [interleave]
    refine ⟨a1, b1, b2, ?_⟩
    intro te hte
    rcases List.mem_append.1 hte with h | h
    · obtain ⟨e, he, rfl⟩ := List.mem_map.1 h
      exact a3 e he
    · obtain ⟨e, he, rfl⟩ := List.mem_map.1 h
      exact b3 e he
  | cons b sched ih =>
    intro p q m₁ u₁ m₂ u₂ s n hp hq hinv
    cases b with
    | true =>
      cases hp with
      | done a h =>
        simp only [interleave]
        exact ih _ _ _ _ _ _ s n (Sells.done a h) hq hinv
      | sale row k u h =>
        simp only [interleave, respond_noFailure]
        obtain ⟨c1, c2, c3, c4⟩ := ih _ q _ _ _ _ _ (n + 1) (h s) hq (hinv.sale₁ row)
        refine ⟨c1, c2, c3, ?_⟩
        intro te hte
        rcases List.mem_cons.1 hte with rfl | hte
        · exact Or.inl rfl
        · exact c4 te hte
      | update k m h =>
        simp only [interleave, respond_noFailure]
        obtain ⟨c1, c2, c3, c4⟩ := ih _ q _ _ _ _ _ (n + 1) (h s) hq hinv.update₁
        refine ⟨c1, c2, c3, ?_⟩
        intro te hte
        rcases List.mem_cons.1 hte with rfl | hte
        · exact Or.inr (Or.inl rfl)
        · exact c4 te hte
      | other c k m u hw hpr hs h =>
        simp only [interleave, respond_noFailure]
        obtain ⟨c1, c2, c3, c4⟩ :=
          ih _ q _ _ _ _ _ (n + 1) (h s) hq (hinv.other c (hpr s) (hs s))
        refine ⟨c1, c2, c3, ?_⟩
        intro te hte
        rcases List.mem_cons.1 hte with rfl | hte
        · exact Or.inl hw
        · exact c4 te hte
    | false =>
      cases hq with
      | done a h =>
        simp only [interleave]
        exact ih _ _ _ _ _ _ s n hp (Sells.done a h) hinv
      | sale row k u h =>
        simp only [interleave, respond_noFailure]
        obtain ⟨c1, c2, c3, c4⟩ := ih p _ _ _ _ _ _ (n + 1) hp (h s) (hinv.sale₂ row)
        refine ⟨c1, c2, c3, ?_⟩
        intro te hte
        rcases List.mem_cons.1 hte with rfl | hte
        · exact Or.inl rfl
        · exact c4 te hte
      | update k m h =>
        simp only [interleave, respond_noFailure]
        obtain ⟨c1, c2, c3, c4⟩ := ih p _ _ _ _ _ _ (n + 1) hp (h s) hinv.update₂
        refine ⟨c1, c2, c3, ?_⟩
        intro te hte
        rcases List.mem_cons.1 hte with rfl | hte
        · exact Or.inr (Or.inr rfl)
        · exact c4 te hte
      | other c k m u hw hpr hs h =>
        simp only [interleave, respond_noFailure]
        obtain ⟨c1, c2, c3, c4⟩ :=
          ih p _ _ _ _ _ _ (n + 1) hp (h s) (hinv.other c (hpr s) (hs s))
        refine ⟨c1, c2, c3, ?_⟩
        intro te hte
        rcases List.mem_cons.1 hte with rfl | hte
        · exact Or.inl hw
        · exact c4 te hte

theorem handleCheckout_sells (st : AppState) (item : CartItem) (p₀ : Product)
    (hcart : st.cartItems = [item]) (hfind : findProduct st.products item.id = some p₀)
    (hq : item.quantity ≤ p₀.stock) :
    Sells item.id (p₀.stock - item.quantity)
      (fun a : AppState => a.alerts = st.alerts ++ [.saleDone] ∧ a.cartItems = [])
      true true (handleCheckout st) := by
  have hv : verifyStock st.products st.cartItems = none := by
    simp [hcart, verifyStock, hfind, not_lt.mpr hq]
  rw [handleCheckout_valid st (by simp [hcart]) hv]
  apply Sells.sale
  intro s
  simp only [Store.exec]
  apply Sells.other
  · rfl
  · exact fun _ => rfl
  · exact fun _ => rfl
  intro s2
  simp only [Store.exec, hcart, updateStockLoop, hfind, Prog.bind]
  apply Sells.update
  intro s3
  rw [exec_updateStock_int]
  simp only
  apply Sells.other
  · rfl
  · exact fun _ => rfl
  · exact fun _ => rfl
  intro s4
  simp only [Store.exec, updateStockLoop, Prog.bind, refreshAfterSale]
  apply Sells.other
  · rfl
  · exact fun _ => rfl
  · exact fun _ => rfl
  intro s5
  simp only [Store.exec]
  apply Sells.done
  simp [AppState.alert]

/-- C3, a run that contradicts the claim: two clients each hold the snapshot with
stock 5 of the first sample product and each check out 3 of it, their calls
alternating.  Neither is rejected: both report the sale as done, the store holds
two new sales and sale lines for 3 + 3 = 6 units, and the stock ends at 2. -/
theorem concurrent_checkouts_oversell :
    (interleave noFailure [true, false, true, false, true, false, true, false]
        (handleCheckout (sampleApp [⟨cafe, 3⟩])) (handleCheckout (sampleApp [⟨cafe, 3⟩]))
        sampleStore 0).1.alerts = [.saleDone] ∧
    (interleave noFailure [true, false, true, false, true, false, true, false]
        (handleCheckout (sampleApp [⟨cafe, 3⟩])) (handleCheckout (sampleApp [⟨cafe, 3⟩]))
        sampleStore 0).2.1.alerts = [.saleDone] ∧
    (interleave noFailure [true, false, true, false, true, false, true, false]
        (handleCheckout (sampleApp [⟨cafe, 3⟩])) (handleCheckout (sampleApp [⟨cafe, 3⟩]))
        sampleStore 0).2.2.1.sales.map (fun r => r.id) = [7, 8] ∧
    (interleave noFailure [true, false, true, false, true, false, true, false]
        (handleCheckout (sampleApp [⟨cafe, 3⟩])) (handleCheckout (sampleApp [⟨cafe, 3⟩]))
        sampleStore 0).2.2.1.sale_items.map (fun r => (r.sale_id, r.product_id, r.quantity)) =
      [(7, 1, 3), (8, 1, 3)] ∧
    (findProduct (interleave noFailure [true, false, true, false, true, false, true, false]
        (handleCheckout (sampleApp [⟨cafe, 3⟩])) (handleCheckout (sampleApp [⟨cafe, 3⟩]))
        sampleStore 0).2.2.1.products 1).map (fun p => p.stock) = some 2 := by
  refine ⟨?_, ?_, ?_, ?_, ?_⟩ <;> decide!

/-- C3, amended: the client has no conflict check, so two concurrent checkouts of
one product are both accepted.  Two clients hold snapshots in which the product
has stock `S`, as it has in the store, and each checks out a one-line cart of that
product with a quantity of at most `S`.  In every interleaving of their store
calls in which no call fails, both checkouts report success, the store gains two
`sales` rows, every stock written is `S - q₁` or `S - q₂` for that product, and
the product ends with stock `S - q₁` or `S - q₂`, that of the later write: the
stock is never negative, but it does not account for both sales. -/
theorem concurrent_checkouts_both_succeed (sched : List Bool) (st₁ st₂ : AppState)
    (item₁ item₂ : CartItem) (p₁ p₂ : Product) (s : Store) (S : Int)
    (hcart₁ : st₁.cartItems = [item₁]) (hcart₂ : st₂.cartItems = [item₂])
    (hid : item₂.id = item₁.id)
    (hfind₁ : findProduct st₁.products item₁.id = some p₁)
    (hfind₂ : findProduct st₂.products item₂.id = some p₂)
    (hS₁ : p₁.stock = S) (hS₂ : p₂.stock = S)
    (hstore : ∀ r ∈ s.products, r.id = item₁.id → r.stock = S)
    (hq₁ : item₁.quantity ≤ S) (hq₂ : item₂.quantity ≤ S) :
    (interleave noFailure sched (handleCheckout st₁) (handleCheckout st₂) s 0).1.alerts =
      st₁.alerts ++ [.saleDone] ∧
    (interleave noFailure sched (handleCheckout st₁) (handleCheckout st₂) s 0).2.1.alerts =
      st₂.alerts ++ [.saleDone] ∧
    (interleave noFailure sched (handleCheckout st₁) (handleCheckout st₂) s 0).2.2.1.sales.length =
      s.sales.length + 2 ∧
    (interleave noFailure sched (handleCheckout st₁) (handleCheckout st₂)
        s 0).2.2.1.products.map (fun r => r.id) = s.products.map (fun r => r.id) ∧
    (∀ r ∈ (interleave noFailure sched (handleCheckout st₁) (handleCheckout st₂)
        s 0).2.2.1.products, r.id = item₁.id →
      (r.stock = S - item₁.quantity ∨ r.stock = S - item₂.quantity) ∧ 0 ≤ r.stock) ∧
    ∀ te ∈ (interleave noFailure sched (handleCheckout st₁) (handleCheckout st₂) s 0).2.2.2,
      te.2.call.stockWritten = none ∨
        te.2.call = .updateStock item₁.id (some ((S - item₁.quantity : Int) : ℚ)) ∨
        te.2.call = .updateStock item₁.id (some ((S - item₂.quantity : Int) : ℚ)) := by
  have hs₁ := handleCheckout_sells st₁ item₁ p₁ hcart₁ hfind₁ (hS₁ ▸ hq₁)
  have hs₂ := handleCheckout_sells st₂ item₂ p₂ hcart₂ hfind₂ (hS₂ ▸ hq₂)
  rw [hS₁] at hs₁
  rw [hS₂, hid] at hs₂
  have hinv : SellInv item₁.id S (S - item₁.quantity) (S - item₂.quantity) s.sales.length
      (s.products.map fun r => r.id) true true true true s := by
    refine ⟨rfl, rfl, ?_⟩
    simp only [Bool.and_self, if_true]
    intro r hr hrid
    exact Or.inl (hstore r hr hrid)
  obtain ⟨h1, h2, h3, h4⟩ := interleave_sells sched _ _ _ _ _ _ s 0 hs₁ hs₂ hinv
  refine ⟨h1.1, h2.1, ?_, h3.2.1, ?_, h4⟩
  · have := h3.1
    simpa using this
  · intro r hr hrid
    have := h3.2.2
    simp only [Bool.and_self, Bool.false_eq_true, if_false] at this
    have hr2 := this r hr hrid
    refine ⟨hr2, ?_⟩
    rcases hr2 with h | h <;> omega

/-- Two clients with the snapshot of stock 5, checking out 3 and 4 of the first
sample product, the second client starting: both succeed. -/
theorem concurrent_checkouts_both_succeed_witness :
    (interleave noFailure [false, true] (handleCheckout (sampleApp [⟨cafe, 3⟩]))
        (handleCheckout (sampleApp [⟨cafe, 4⟩])) sampleStore 0).1.alerts =
      (sampleApp [⟨cafe, 3⟩]).alerts ++ [.saleDone] ∧
    (interleave noFailure [false, true] (handleCheckout (sampleApp [⟨cafe, 3⟩]))
        (handleCheckout (sampleApp [⟨cafe, 4⟩])) sampleStore 0).2.1.alerts =
      (sampleApp [⟨cafe, 4⟩]).alerts ++ [.saleDone] ∧
    (interleave noFailure [false, true] (handleCheckout (sampleApp [⟨cafe, 3⟩]))
        (handleCheckout (sampleApp [⟨cafe, 4⟩])) sampleStore 0).2.2.1.sales.length =
      sampleStore.sales.length + 2 :=
  have h := concurrent_checkouts_both_succeed [false, true] (sampleApp [⟨cafe, 3⟩])
    (sampleApp [⟨cafe, 4⟩]) ⟨cafe, 3⟩ ⟨cafe, 4⟩ cafe cafe sampleStore 5 rfl rfl rfl rfl rfl rfl rfl
    (by decide) (by decide) (by decide)
  ⟨h.1, h.2.1, h.2.2.1⟩

/-! ## The cart stays within the cached stock -/

theorem handleRemoveItem_within (st : AppState) (itemId : Nat) (h : CartWithinStock st) :
    CartWithinStock (handleRemoveItem st itemId) := by
  refine ⟨?_, ?_⟩
  · intro item hitem
    exact h.1 item (List.mem_filter.1 hitem).1
  · exact h.2.sublist ((List.filter_sublist _).map _)

theorem handleAddToCart_within (st : AppState) (productToAdd : Product)
    (h : CartWithinStock st) : CartWithinStock (handleAddToCart st productToAdd) := by
  unfold handleAddToCart
  cases hfind : findProduct st.products productToAdd.id with
  | none => exact h
  | some productInStock =>
    simp only
    by_cases hstock : productInStock.stock ≤ 0
    · simp only [hstock, if_true]
      exact h
    · simp only [hstock, if_false]
      cases hex : st.cartItems.find? (fun item => item.id = productToAdd.id) with
      | some existingItem =>
        simp only
        by_cases hq : existingItem.quantity + 1 > productInStock.stock
        · simp only [hq, if_true]
          exact h
        · simp only [hq, if_false]
          have hmem : existingItem ∈ st.cartItems := List.mem_of_find?_eq_some hex
          have hid : existingItem.id = productToAdd.id := by
            simpa using List.find?_some hex
          refine ⟨?_, ?_⟩
          · intro item hitem
            obtain ⟨a, ha, rfl⟩ := List.mem_map.1 hitem
            obtain ⟨p, hp, h1, h2⟩ := h.1 a ha
            by_cases haid : a.id = productToAdd.id
            · have hae : a = existingItem :=
                List.inj_on_of_nodup_map h.2 ha hmem (haid.trans hid.symm)
              subst hae
              simp only [haid, if_true]
              rw [haid, hfind] at hp
              cases hp
              exact ⟨productInStock, hfind, by show 1 ≤ a.quantity + 1; omega,
                by show a.quantity + 1 ≤ productInStock.stock; omega⟩
            · simp only [haid, if_false]
              exact ⟨p, hp, h1, h2⟩
          · have : (st.cartItems.map fun item : CartItem =>
                if item.id = productToAdd.id then { item with quantity := item.quantity + 1 }
                else item).map (fun item : CartItem => item.id) =
                st.cartItems.map fun item => item.id := by
              rw [List.map_map]
              apply List.map_congr_left
              intro a _
              by_cases haid : a.id = productToAdd.id <;> simp [Function.comp, haid]
            show (List.map (fun item : CartItem => item.id) _).Nodup
            rw [this]
            exact h.2
      | none =>
        simp only
        have hnot : ∀ item ∈ st.cartItems, item.id ≠ productToAdd.id := by
          intro item hitem
          have := List.find?_eq_none.1 hex item hitem
          simpa using this
        refine ⟨?_, ?_⟩
        · intro item hitem
          rcases List.mem_append.1 hitem with hin | hin
          · exact h.1 item hin
          · rw [List.mem_singleton] at hin
            subst hin
            exact ⟨productInStock, hfind, le_refl _,
              by show (1 : Int) ≤ productInStock.stock; omega⟩
        · show (List.map (fun item : CartItem => item.id) (st.cartItems ++ _)).Nodup
          rw [List.map_append, List.nodup_append]
          refine ⟨h.2, List.nodup_singleton _, ?_⟩
          intro x hx hx2
          obtain ⟨a, ha, rfl⟩ := List.mem_map.1 hx
          simp only [List.map_cons, List.map_nil, List.mem_singleton] at hx2
          exact hnot a ha hx2

theorem handleUpdateQuantity_within (st : AppState) (itemId : Nat) (newQuantity : Int)
    (h : CartWithinStock st) : CartWithinStock (handleUpdateQuantity st itemId newQuantity) := by
  unfold handleUpdateQuantity
  cases hfind : findProduct st.products itemId with
  | none => exact h
  | some productInStock =>
    simp only
    by_cases hq : newQuantity > productInStock.stock
    · simp only [hq, if_true]
      exact h
    · simp only [hq, if_false]
      by_cases h0 : newQuantity ≤ 0
      · simp only [h0, if_true]
        exact handleRemoveItem_within st itemId h
      · simp only [h0, if_false]
        refine ⟨?_, ?_⟩
        · intro item hitem
          obtain ⟨a, ha, rfl⟩ := List.mem_map.1 hitem
          obtain ⟨p, hp, h1, h2⟩ := h.1 a ha
          by_cases haid : a.id = itemId
          · simp only [haid, if_true]
            exact ⟨productInStock, hfind, by show 1 ≤ newQuantity; omega,
              by show newQuantity ≤ productInStock.stock; omega⟩
          · simp only [haid, if_false]
            exact ⟨p, hp, h1, h2⟩
        · have : (st.cartItems.map fun item : CartItem =>
              if item.id = itemId then { item with quantity := newQuantity }
              else item).map (fun item : CartItem => item.id) =
                st.cartItems.map fun item => item.id := by
            rw [List.map_map]
            apply List.map_congr_left
            intro a _
            by_cases haid : a.id = itemId <;> simp [Function.comp, haid]
          show (List.map (fun item : CartItem => item.id) _).Nodup
          rw [this]
          exact h.2

theorem cartStep_products (st : AppState) (a : CartAction) :
    (cartStep st a).products = st.products := by
  cases a with
  | add productToAdd =>
    simp only [cartStep, handleAddToCart]
    split
    · rfl
    · split
      · rfl
      · split
        · split <;> rfl
        · rfl
  | update itemId newQuantity =>
    simp only [cartStep, handleUpdateQuantity]
    split
    · rfl
    · split
      · rfl
      · split <;> rfl
  | remove itemId => rfl

theorem cartStep_within (st : AppState) (a : CartAction) (h : CartWithinStock st) :
    CartWithinStock (cartStep st a) := by
  cases a with
  | add productToAdd => exact handleAddToCart_within st productToAdd h
  | update itemId newQuantity => exact handleUpdateQuantity_within st itemId newQuantity h
  | remove itemId => exact handleRemoveItem_within st itemId h

theorem foldl_cartStep (actions : List CartAction) (st : AppState) (h : CartWithinStock st) :
    CartWithinStock (actions.foldl cartStep st) ∧
      (actions.foldl cartStep st).products = st.products := by
  induction actions generalizing st with
  | nil => exact ⟨h, rfl⟩
  | cons a rest ih =>
    obtain ⟨h1, h2⟩ := ih (cartStep st a) (cartStep_within st a h)
    exact ⟨h1, h2.trans (cartStep_products st a)⟩

/-- C21: starting from the empty cart, after any sequence of `handleAddToCart`,
`handleUpdateQuantity` (with whole quantities) and `handleRemoveItem` calls the
cached product list is what it was, every cart line has the id of a product of
that list and a quantity `q` with `1 ≤ q ≤` the cached stock of that product, and
no two cart lines have the same id.  For instance, adding the first sample
product twice and asking for 9 of it (stock 5) leaves one line of quantity 2. -/
theorem cart_within_stock :
    (∀ (st : AppState) (actions : List CartAction),
      (actions.foldl cartStep { st with cartItems := [] }).products = st.products ∧
      (∀ item ∈ (actions.foldl cartStep { st with cartItems := [] }).cartItems,
        ∃ p, findProduct st.products item.id = some p ∧
          1 ≤ item.quantity ∧ item.quantity ≤ p.stock) ∧
      ((actions.foldl cartStep { st with cartItems := [] }).cartItems.map
        fun item => item.id).Nodup) ∧
    ([CartAction.add cafe, .add cafe, .update 1 9].foldl cartStep (sampleApp [])).cartItems =
      [⟨cafe, 2⟩] := by
  refine ⟨?_, by decide!⟩
  intro st actions
  have h0 : CartWithinStock { st with cartItems := [] } :=
    ⟨fun item hitem => (by cases hitem), List.nodup_nil⟩
  obtain ⟨h1, h2⟩ := foldl_cartStep actions _ h0
  refine ⟨h2, ?_, h1.2⟩
  intro item hitem
  have := h1.1 item hitem
  rw [h2] at this
  exact this

/-! ## Reading the lines of a sale -/

theorem fetchSaleItems_run (fail : Failures) (s : Store) (saleId : Nat) (n : Nat) :
    ((fetchSaleItems saleId).run fail s n).2.1 = s ∧
    ((fetchSaleItems saleId).run fail s n).2.2 =
      [⟨.selectSaleItems saleId, (respond fail s n (.selectSaleItems saleId)).2⟩] ∧
    (fail n = none →
      ((fetchSaleItems saleId).run fail s n).1 =
        (s.sale_items.filter fun r => r.sale_id = saleId, [])) := by
  cases hf : fail n with
  | some msg => simp [fetchSaleItems, Prog.run, respond_of_fail hf]
  | none => simp [fetchSaleItems, Prog.run, respond_of_ok hf, Store.exec]

/-- C22: `fetchSaleItems` issues one store call, a read of `sale_items` filtered
by the sale id, and leaves the store as it was, under every failure pattern.
When the read is answered it returns exactly the rows of `sale_items` whose
`sale_id` is the given id, in table order; two calls in a row, both answered,
return the same result and leave the store as it was.  After the sample checkout
the lines of sale 7 are its one line, those of sale 8 are none; a read that
fails returns the empty list. -/
theorem fetchSaleItems_read_only :
    (∀ (fail : Failures) (s : Store) (saleId n : Nat),
      ((fetchSaleItems saleId).run fail s n).2.1 = s ∧
      (((fetchSaleItems saleId).run fail s n).2.2.map fun e => e.call) =
        [.selectSaleItems saleId] ∧
      (StoreCall.selectSaleItems saleId).isWrite = false ∧
      (StoreCall.selectSaleItems saleId).table = "sale_items" ∧
      (fail n = none →
        ((fetchSaleItems saleId).run fail s n).1.1 =
            (s.sale_items.filter fun r => r.sale_id = saleId) ∧
          ∀ row, row ∈ ((fetchSaleItems saleId).run fail s n).1.1 ↔
            row ∈ s.sale_items ∧ row.sale_id = saleId)) ∧
    (∀ (fail : Failures) (s : Store) (saleId n : Nat),
      (((fetchSaleItems saleId).bind fun first =>
          (fetchSaleItems saleId).bind fun second => .done (first, second)).run fail s n).2.1 =
        s ∧
      (fail n = none → fail (n + 1) = none →
        (((fetchSaleItems saleId).bind fun first =>
            (fetchSaleItems saleId).bind fun second => .done (first, second)).run
              fail s n).1.1 =
          (((fetchSaleItems saleId).bind fun first =>
            (fetchSaleItems saleId).bind fun second => .done (first, second)).run
              fail s n).1.2)) ∧
    ((fetchSaleItems 7).run noFailure
        ((handleCheckout (sampleApp [⟨cafe, 2⟩])).run noFailure sampleStore 0).2.1 0).1.1.map
      (fun r => (r.sale_id, r.product_id, r.quantity)) = [(7, 1, 2)] ∧
    ((fetchSaleItems 8).run noFailure
        ((handleCheckout (sampleApp [⟨cafe, 2⟩])).run noFailure sampleStore 0).2.1 0).1 =
      ([], []) ∧
    ((fetchSaleItems 7).run (failAt 0 "network")
        ((handleCheckout (sampleApp [⟨cafe, 2⟩])).run noFailure sampleStore 0).2.1 0).1 =
      ([], ["Error fetching sale items:"]) := by
  refine ⟨?_, ?_, by decide!, by decide!, by decide!⟩
  · intro fail s saleId n
    obtain ⟨h1, h2, h3⟩ := fetchSaleItems_run fail s saleId n
    refine ⟨h1, by rw [h2]; rfl, rfl, rfl, fun hf => ⟨by rw [h3 hf], fun row => ?_⟩⟩
    rw [h3 hf, List.mem_filter]
    simp
  · intro fail s saleId n
    have h1 := fetchSaleItems_run fail s saleId n
    have h2 := fetchSaleItems_run fail s saleId (n + 1)
    have hlen : ((fetchSaleItems saleId).run fail s n).2.2.length = 1 := by rw [h1.2.1]; rfl
    refine ⟨?_, ?_⟩
    · simp only [Prog.run_bind, h1.1, hlen, h2.1]
      rfl
    · intro hf0 hf1
      simp only [Prog.run_bind, h1.1, hlen]
      show ((fetchSaleItems saleId).run fail s n).1 =
        ((fetchSaleItems saleId).run fail s (n + 1)).1
      exact (h1.2.2 hf0).trans (h2.2.2 hf1).symm

/-! ## Totals -/

theorem saleItemsToInsert_sum (saleId : Nat) (items : List CartItem) :
    ((saleItemsToInsert saleId items).map fun row => row.total_item_price).sum =
      calculateTotal items := by
  rw [calculateTotal_eq_sum, saleItemsToInsert, List.map_map]
  rfl

theorem calculateTotal_append (a b : List CartItem) :
    calculateTotal (a ++ b) = calculateTotal a + calculateTotal b := by
  simp only [calculateTotal_eq_sum, List.map_append, List.sum_append]

/-- C23: over exact rational prices and whole quantities, in every run of
`handleCheckout` the `total_item_price` values of the `sale_items` rows it submits
add up to the `total_amount` of the `sales` row it inserts; the rows built for a
cart add up to `calculateTotal` of the cart; and `calculateTotal` is additive
over concatenation (two sample lines: 2 at 2.50 and 5 at 1.80 give 14). -/
theorem checkout_totals_agree :
    (∀ (fail : Failures) (st : AppState) (s : Store),
      ∀ sale ∈ salesInserted ((handleCheckout st).run fail s 0).2.2,
        ∀ rows ∈ saleItemsInserted ((handleCheckout st).run fail s 0).2.2,
          (rows.map fun row => row.total_item_price).sum = sale.total_amount) ∧
    (∀ (saleId : Nat) (items : List CartItem),
      ((saleItemsToInsert saleId items).map fun row => row.total_item_price).sum =
        calculateTotal items) ∧
    (∀ a b : List CartItem, calculateTotal (a ++ b) = calculateTotal a + calculateTotal b) ∧
    calculateTotal [] = 0 ∧
    calculateTotal [⟨cafe, 2⟩, ⟨croissant, 5⟩] = 14 := by
  refine ⟨?_, saleItemsToInsert_sum, calculateTotal_append, rfl, by decide!⟩
  intro fail st s sale hsale rows hrows
  rw [salesInserted_handleCheckout] at hsale
  rw [saleItemsInserted_handleCheckout] at hrows
  split at hsale
  · split at hrows
    · rw [List.mem_singleton] at hsale hrows
      subst hsale hrows
      exact saleItemsToInsert_sum _ _
    · cases hrows
  · cases hsale

/-! ## The stock loop finds every product -/

theorem updateStockLoop_error_is_store_error (fail : Failures) (products : List Product)
    (saleId : Nat) (items : List CartItem) (st : AppState) (s : Store) (n : Nat)
    (hfound : ∀ x ∈ items, ∃ p, findProduct products x.id = some p) (msg : String)
    (hmsg : ((updateStockLoop products saleId items st).run fail s n).1.2 = some msg) :
    ∃ id v, ((updateStockLoop products saleId items st).run fail s n).2.2.getLast? =
      some ⟨.updateStock id v, .error msg⟩ := by
  induction items generalizing st s n with
  | nil => simp [updateStockLoop, Prog.run] at hmsg
  | cons item rest ih =>
    obtain ⟨p, hf⟩ := hfound item (List.mem_cons_self _ _)
    have hrest : ∀ x ∈ rest, ∃ p, findProduct products x.id = some p :=
      fun x hx => hfound x (List.mem_cons_of_mem _ hx)
    cases hr : (respond fail s n
      (.updateStock item.id (some ((p.stock - item.quantity : Int) : ℚ)))).2.isError with
    | true =>
      obtain ⟨m, hm⟩ := (isError_eq_true_iff _).1 hr
      rw [updateStockLoop_run_fail fail products saleId item rest st s n p hf m hm] at hmsg ⊢
      simp only [Option.some.injEq] at hmsg
      subst hmsg
      exact ⟨_, _, rfl⟩
    | false =>
      rw [updateStockLoop_run_ok fail products saleId item rest st s n p hf hr] at hmsg ⊢
      obtain ⟨id, v, h⟩ := ih _ _ _ hrest hmsg
      refine ⟨id, v, ?_⟩
      simp only
      rw [List.getLast?_cons_cons, List.getLast?_cons, h]
      rfl

theorem plannedStockWrites_found (products : List Product) (saleId : Nat)
    (items : List CartItem) (id : Nat) (v : Option ℚ)
    (h : StoreCall.updateStock id v ∈ plannedStockWrites products saleId items) :
    ∃ item ∈ items, ∃ p, findProduct products item.id = some p ∧ id = item.id ∧
      v = some ((p.stock - item.quantity : Int) : ℚ) := by
  induction items with
  | nil => simp [plannedStockWrites] at h
  | cons item rest ih =>
    cases hf : findProduct products item.id with
    | none => simp [plannedStockWrites, hf] at h
    | some p =>
      simp only [plannedStockWrites, hf, List.mem_cons, StoreCall.updateStock.injEq,
        false_or] at h
      rcases h with ⟨rfl, rfl⟩ | h | h
      · exact ⟨item, List.mem_cons_self _ _, p, hf, rfl, rfl⟩
      · simp at h
      · obtain ⟨x, hx, q, hq⟩ := ih h
        exact ⟨x, List.mem_cons_of_mem _ hx, q, hq⟩

/-- C24: in every run of `handleCheckout`, from every store and under every
failure pattern.  A store call is issued only when the validation loop has let
the cart through, and then every cart line has a product in the cached list,
with at least the stock the line asks for.  The stock loop reads that same list
for that same cart: every stock update of the run is the update of a cart line
whose product the lookup found, carrying the stock of that product minus the
quantity of the line.  So the lookup of the loop never comes back empty: when
the handler ends with its failure alert, the message is that of the store call
refused last, not that of reading `stock` of `undefined`. -/
theorem checkout_loop_finds_products (fail : Failures) (st : AppState) (s : Store) :
    (((handleCheckout st).run fail s 0).2.2 ≠ [] →
      ∀ item ∈ st.cartItems, ∃ p, findProduct st.products item.id = some p ∧
        item.quantity ≤ p.stock) ∧
    (∀ e ∈ ((handleCheckout st).run fail s 0).2.2, ∀ id v, e.call = .updateStock id v →
      ∃ item ∈ st.cartItems, ∃ p, findProduct st.products item.id = some p ∧ id = item.id ∧
        v = some ((p.stock - item.quantity : Int) : ℚ)) ∧
    (∀ msg, ((handleCheckout st).run fail s 0).1.alerts = st.alerts ++ [.saleFailed msg] →
      ∃ c, ((handleCheckout st).run fail s 0).2.2.getLast? = some ⟨c, .error msg⟩) := by
  by_cases hvalid : st.cartItems = [] ∨ verifyStock st.products st.cartItems ≠ none
  · have htr : ((handleCheckout st).run fail s 0).2.2 = [] := by
      rw [(handleCheckout_run_rejected fail st s hvalid).1]
    refine ⟨fun h => absurd htr h, ?_, ?_⟩
    · rw [htr]
      intro e he
      simp at he
    · intro msg hmsg
      rcases handleCheckout_rejected_alert fail st s hvalid with h | ⟨name, k, h⟩ <;>
        rw [h] at hmsg <;> simp at hmsg
  · simp only [not_or, not_not] at hvalid
    obtain ⟨hne, hv⟩ := hvalid
    have hall := (verifyStock_eq_none_iff _ _).1 hv
    have hfound : ∀ x ∈ st.cartItems, ∃ p, findProduct st.products x.id = some p :=
      fun x hx => (hall x hx).imp fun p hp => hp.1
    have hloopcalls : ∀ e ∈ (loopRun fail s st).2.2, ∀ id v, e.call = .updateStock id v →
        ∃ item ∈ st.cartItems, ∃ p, findProduct st.products item.id = some p ∧ id = item.id ∧
          v = some ((p.stock - item.quantity : Int) : ℚ) := by
      intro e he id v hc
      have hpre := (updateStockLoop_calls fail st.products s.nextId st.cartItems
        { st with showConfirmation := true } (itemsStore s st) 2).1
      have hmem : e.call ∈ plannedStockWrites st.products s.nextId st.cartItems :=
        hpre.subset (List.mem_map_of_mem (fun e => e.call) he)
      rw [hc] at hmem
      exact plannedStockWrites_found _ _ _ _ _ hmem
    refine ⟨fun _ => hall, ?_, ?_⟩
    · cases h0 : fail 0 with
      | some m0 =>
        rw [handleCheckout_run_sale_failed fail st s hne hv m0 h0]
        intro e he id v hc
        simp only [List.mem_singleton] at he
        subst he
        simp at hc
      | none =>
        cases h1 : fail 1 with
        | some m1 =>
          rw [handleCheckout_run_items_failed fail st s hne hv h0 m1 h1]
          intro e he id v hc
          simp only [List.mem_cons, List.mem_singleton, List.not_mem_nil, or_false] at he
          rcases he with rfl | rfl <;> simp [saleEvent] at hc
        | none =>
          cases hL : (loopRun fail s st).1.2 with
          | some mL =>
            rw [handleCheckout_run_loop_failed fail st s hne hv h0 h1 mL hL]
            intro e he id v hc
            simp only [List.mem_cons] at he
            rcases he with rfl | rfl | he
            · simp [saleEvent] at hc
            · simp [itemsEvent] at hc
            · exact hloopcalls e he id v hc
          | none =>
            rw [handleCheckout_run_completed fail st s hne hv h0 h1 hL]
            intro e he id v hc
            simp only [List.mem_cons, List.mem_append, List.mem_singleton, List.not_mem_nil,
              or_false] at he
            rcases he with rfl | rfl | he | rfl
            · simp [saleEvent] at hc
            · simp [itemsEvent] at hc
            · exact hloopcalls e he id v hc
            · simp at hc
    · intro msg hmsg
      cases h0 : fail 0 with
      | some m0 =>
        rw [handleCheckout_run_sale_failed fail st s hne hv m0 h0] at hmsg ⊢
        rw [checkoutFailed_alerts] at hmsg
        have hm : m0 = msg := by simpa using hmsg
        subst hm
        exact ⟨_, rfl⟩
      | none =>
        cases h1 : fail 1 with
        | some m1 =>
          rw [handleCheckout_run_items_failed fail st s hne hv h0 m1 h1] at hmsg ⊢
          rw [checkoutFailed_alerts] at hmsg
          have hm : m1 = msg := by simpa using hmsg
          subst hm
          exact ⟨_, rfl⟩
        | none =>
          cases hL : (loopRun fail s st).1.2 with
          | some mL =>
            rw [handleCheckout_run_loop_failed fail st s hne hv h0 h1 mL hL] at hmsg ⊢
            rw [checkoutFailed_alerts] at hmsg
            have hst := (updateStockLoop_state fail st.products s.nextId st.cartItems
              { st with showConfirmation := true } (itemsStore s st) 2).2.2.1
            have hst' : (loopRun fail s st).1.1.alerts = st.alerts := hst
            rw [hst'] at hmsg
            have hm : mL = msg := by simpa using hmsg
            subst hm
            obtain ⟨id, v, hlast⟩ := updateStockLoop_error_is_store_error fail st.products
              s.nextId st.cartItems { st with showConfirmation := true } (itemsStore s st) 2
              hfound mL hL
            have hlast' : (loopRun fail s st).2.2.getLast? =
                some ⟨.updateStock id v, .error mL⟩ := hlast
            refine ⟨.updateStock id v, ?_⟩
            have hne' : (loopRun fail s st).2.2 ≠ [] := by
              intro h
              rw [h] at hlast'
              simp at hlast'
            obtain ⟨a, rest, hcons⟩ := List.exists_cons_of_ne_nil hne'
            rw [hcons] at hlast' ⊢
            rw [List.getLast?_cons_cons, List.getLast?_cons_cons]
            exact hlast'
          | none =>
            exfalso
            rw [handleCheckout_run_completed fail st s hne hv h0 h1 hL] at hmsg
            simp only at hmsg
            rw [(refreshAfterSale_run fail _ _ _).2.2.2.1] at hmsg
            have hst : (loopRun fail s st).1.1.alerts = st.alerts :=
              (updateStockLoop_state fail st.products s.nextId st.cartItems
                { st with showConfirmation := true } (itemsStore s st) 2).2.2.1
            rw [hst] at hmsg
            simp at hmsg

/-! ## The day a date filter selects -/

theorem createdOn_iff (offset : Int) (dateString : String) (day t : Int)
    (hday : parseDay dateString = some day) :
    createdOn offset dateString t = true ↔
      localDay offset t = localDay offset (day * msPerDay) := by
  simp only [createdOn, startOfDay, endOfDay, hday, Option.map_some', setHours, localDay,
    msPerDay, Bool.and_eq_true, decide_eq_true_eq]
  omega

/-- C25, at its failing input: a client five hours behind UTC at noon of 15 March
2024.  `getTodayDate` gives "2024-03-15"; `getStartOfDay` and `getEndOfDay` of that
text give 05:00 UTC of 14 March and 04:59:59.999 UTC of 15 March, the local day
14 March, and the current instant is not in the interval.  In general the
interval holds the instants of one local day: the day named when the client is
at or ahead of UTC, the day before it when the client is behind UTC. -/
theorem day_filter_west_of_utc :
    getTodayDate (-18000000) 1710522000000 = "2024-03-15" ∧
    getStartOfDay (-18000000) "2024-03-15" = some "2024-03-14T05:00:00.000Z" ∧
    getEndOfDay (-18000000) "2024-03-15" = some "2024-03-15T04:59:59.999Z" ∧
    createdOn (-18000000) "2024-03-15" 1710522000000 = false ∧
    (startOfDay (-18000000) "2024-03-15").map (getTodayDate (-18000000)) = some "2024-03-14" ∧
    (endOfDay (-18000000) "2024-03-15").map (getTodayDate (-18000000)) = some "2024-03-14" ∧
    (∀ (offset : Int) (dateString : String) (day t : Int), parseDay dateString = some day →
      -msPerDay ≤ offset → offset < 0 →
      (createdOn offset dateString t = true ↔ localDay offset t = day - 1)) ∧
    (∀ (offset : Int) (dateString : String) (day t : Int), parseDay dateString = some day →
      0 ≤ offset → offset < msPerDay →
      (createdOn offset dateString t = true ↔ localDay offset t = day)) := by
  refine ⟨by decide!, by decide!, by decide!, by decide!, by decide!, by decide!, ?_, ?_⟩
  · intro offset dateString day t hday h1 h2
    rw [createdOn_iff offset dateString day t hday]
    simp only [localDay, msPerDay] at h1 h2 ⊢
    omega
  · intro offset dateString day t hday h1 h2
    rw [createdOn_iff offset dateString day t hday]
    simp only [localDay, msPerDay] at h1 h2 ⊢
    omega

/-! ## Sales by hour -/

theorem getHours_range (offset t : Int) :
    0 ≤ getHours offset t ∧ getHours offset t ≤ 23 := by
  simp only [getHours, msPerDay]
  omega

theorem length_addAt (index : Nat) (amount : ℚ) (l : List ℚ) :
    (addAt index amount l).length = l.length := by
  induction l generalizing index with
  | nil => cases index <;> rfl
  | cons a rest ih =>
    cases index with
    | zero => rfl
    | succ i => simp [addAt, ih]

theorem sum_addAt (index : Nat) (amount : ℚ) (l : List ℚ) (h : index < l.length) :
    (addAt index amount l).sum = l.sum + amount := by
  induction l generalizing index with
  | nil => simp at h
  | cons a rest ih =>
    cases index with
    | zero => simp [addAt]; ring
    | succ i =>
      simp only [addAt, List.sum_cons, ih i (by simpa using h)]
      ring

theorem getD_addAt (index : Nat) (amount : ℚ) (l : List ℚ) (h : index < l.length) (j : Nat) :
    (addAt index amount l).getD j 0 = l.getD j 0 + if j = index then amount else 0 := by
  induction l generalizing index j with
  | nil => simp at h
  | cons a rest ih =>
    cases index with
    | zero =>
      cases j with
      | zero => simp [addAt]
      | succ j => simp [addAt]
    | succ i =>
      cases j with
      | zero => simp [addAt]
      | succ j =>
        simp only [addAt, List.getD_cons_succ, ih i (by simpa using h) j]
        simp

theorem totalSales_eq_sum (salesData : List SaleSummary) :
    totalSales salesData = (salesData.map fun s => s.total_amount).sum := by
  have h : ∀ (acc : ℚ) (l : List SaleSummary),
      l.foldl (fun total s => total + s.total_amount) acc =
        acc + (l.map fun s => s.total_amount).sum := by
    intro acc l
    induction l generalizing acc with
    | nil => simp
    | cons a rest ih => simp [ih, add_assoc]
  simp [totalSales, h]

theorem foldl_addAt (offset : Int) (salesData : List SaleSummary) (byHour : List ℚ)
    (hlen : byHour.length = 24) :
    (salesData.foldl (fun byHour sale =>
        addAt (getHours offset sale.created_at).toNat sale.total_amount byHour) byHour).length =
      24 ∧
    (salesData.foldl (fun byHour sale =>
        addAt (getHours offset sale.created_at).toNat sale.total_amount byHour) byHour).sum =
      byHour.sum + (salesData.map fun s => s.total_amount).sum ∧
    ∀ h : Nat, (salesData.foldl (fun byHour sale =>
        addAt (getHours offset sale.created_at).toNat sale.total_amount byHour) byHour).getD h 0 =
      byHour.getD h 0 +
        ((salesData.filter fun s => getHours offset s.created_at = h).map
          fun s => s.total_amount).sum := by
  induction salesData generalizing byHour with
  | nil => simp [hlen]
  | cons sale rest ih =>
    have hr := getHours_range offset sale.created_at
    have hidx : (getHours offset sale.created_at).toNat < byHour.length := by
      rw [hlen]
      omega
    obtain ⟨h1, h2, h3⟩ := ih (addAt (getHours offset sale.created_at).toNat sale.total_amount
      byHour) (by rw [length_addAt, hlen])
    refine ⟨h1, ?_, ?_⟩
    · rw [List.foldl_cons, h2, sum_addAt _ _ _ hidx, List.map_cons, List.sum_cons]
      ring
    · intro h
      rw [List.foldl_cons, h3, getD_addAt _ _ _ hidx]
      by_cases hh : (getHours offset sale.created_at).toNat = h
      · have e : getHours offset sale.created_at = (h : Int) := by omega
        have c1 : decide (getHours offset sale.created_at = (h : Int)) = true := by simpa using e
        simp only [List.filter_cons, c1, if_true, List.map_cons, List.sum_cons]
        rw [if_pos hh.symm]
        ring
      · have e : ¬ getHours offset sale.created_at = (h : Int) := by omega
        have c1 : decide (getHours offset sale.created_at = (h : Int)) = false := by simpa using e
        simp only [List.filter_cons, c1, Bool.false_eq_true, if_false]
        rw [if_neg (fun h' => hh h'.symm)]
        ring

/-- C27: for every list of sales and every fixed offset of the client from UTC,
`salesByHour` has 24 entries, the hour of every sale is one of 0 to 23, entry `h`
is the sum of `total_amount` over the sales whose local hour is `h`, and the
entries add up to `totalSales`, the sum of `total_amount` over all the sales
(over exact rational amounts).  For a client five hours behind UTC, sales of 5
and 2.50 at 17:30 and 17:45 UTC and one of 1.80 at 03:10 UTC give 7.50 at hour
12 and 1.80 at hour 22. -/
theorem salesByHour_totals (offset : Int) (salesData : List SaleSummary) :
    (salesByHour offset salesData).length = 24 ∧
    (∀ sale ∈ salesData,
      0 ≤ getHours offset sale.created_at ∧ getHours offset sale.created_at ≤ 23) ∧
    (∀ h : Nat, h < 24 →
      (salesByHour offset salesData)[h]? =
        some ((salesData.filter fun s => getHours offset s.created_at = h).map
          fun s => s.total_amount).sum) ∧
    (salesByHour offset salesData).sum = totalSales salesData ∧
    totalSales salesData = (salesData.map fun s => s.total_amount).sum ∧
    salesByHour (-18000000)
        [⟨1, 5, 1710523800000⟩, ⟨2, 5 / 2, 1710524700000⟩, ⟨3, 9 / 5, 1710558600000⟩] =
      [0, 0, 0, 0, 0, 0, 0, 0, 0, 0, 0, 0, 15 / 2, 0, 0, 0, 0, 0, 0, 0, 0, 0, 9 / 5, 0] := by
  obtain ⟨h1, h2, h3⟩ := foldl_addAt offset salesData (List.replicate 24 0) (by simp)
  refine ⟨h1, fun sale _ => getHours_range offset sale.created_at, ?_, ?_,
    totalSales_eq_sum salesData, by decide!⟩
  · intro h hh
    have hlt : h < (salesByHour offset salesData).length := by
      rw [show (salesByHour offset salesData).length = 24 from h1]
      exact hh
    have hX : (salesByHour offset salesData).getD h 0 = (List.replicate 24 (0 : ℚ)).getD h 0 +
        ((salesData.filter fun s => getHours offset s.created_at = h).map
          fun s => s.total_amount).sum := h3 h
    rw [List.getD_eq_getElem _ _ hlt, List.getD_eq_getElem _ _ (by simpa using hh),
      List.getElem_replicate, zero_add] at hX
    rw [List.getElem?_eq_getElem hlt, hX]
  · rw [totalSales_eq_sum]
    simpa [salesByHour] using h2

/-! ## Top products -/

theorem summedQuantity_append (seen : List SoldItem) (item : SoldItem) (name : String) :
    summedQuantity (seen ++ [item]) name =
      summedQuantity seen name + if item.product_name = name then item.quantity else 0 := by
  unfold summedQuantity
  by_cases h : item.product_name = name <;>
    simp [List.filter_append, List.filter_cons, h]

theorem summedQuantity_of_not_mem (seen : List SoldItem) (name : String)
    (h : name ∉ seen.map fun item => item.product_name) : summedQuantity seen name = 0 := by
  unfold summedQuantity
  have : (seen.filter fun item => item.product_name = name) = [] := by
    rw [List.filter_eq_nil_iff]
    intro a ha hn
    exact h (List.mem_map.2 ⟨a, ha, by simpa using hn⟩)
  rw [this]
  rfl

theorem Tallied.step {seen : List SoldItem} {obj : List (String × Tally)}
    (h : Tallied seen obj) (item : SoldItem) (hname : item.product_name ∉ objectPrototypeKeys) :
    Tallied (seen ++ [item]) (tallyItem obj item) := by
  obtain ⟨hnodup, hmem⟩ := h
  cases hfind : obj.find? (fun e => e.1 = item.product_name) with
  | some e₀ =>
    have he₀ : e₀ ∈ obj := List.mem_of_find?_eq_some hfind
    have hid : e₀.1 = item.product_name := by simpa using List.find?_some hfind
    have hval := ((hmem e₀).1 he₀).2
    have hseen : item.product_name ∈ seen.map fun i => i.product_name := by
      rw [← hid]
      exact ((hmem e₀).1 he₀).1
    have htally : tallyItem obj item = obj.map fun e =>
        if e.1 = item.product_name then
          (e.1, Tally.number (summedQuantity seen item.product_name + item.quantity))
        else e := by
      simp only [tallyItem, ownProperty, hfind, Option.map_some', hval, hid]
    rw [htally]
    refine ⟨?_, ?_⟩
    · rw [List.map_map]
      have : ((fun e : String × Tally => e.1) ∘ fun e : String × Tally =>
          if e.1 = item.product_name then
            (e.1, Tally.number (summedQuantity seen item.product_name + item.quantity))
          else e) = fun e => e.1 := by
        funext e
        by_cases he : e.1 = item.product_name <;> simp [he]
      rw [this]
      exact hnodup
    · intro e'
      rw [List.mem_map]
      constructor
      · rintro ⟨e, he, rfl⟩
        obtain ⟨h1, h2⟩ := (hmem e).1 he
        by_cases hen : e.1 = item.product_name
        · simp only [hen, if_true]
          refine ⟨by simp, ?_⟩
          rw [summedQuantity_append, if_pos rfl]
        · simp only [hen, if_false]
          refine ⟨by simp [h1], ?_⟩
          rw [summedQuantity_append, if_neg (fun h' => hen h'.symm), add_zero]
          exact h2
      · rintro ⟨h1, h2⟩
        have h1' : e'.1 ∈ seen.map fun i => i.product_name := by
          simp only [List.map_append, List.map_cons, List.map_nil, List.mem_append,
            List.mem_singleton] at h1
          rcases h1 with h1 | h1
          · exact h1
          · rw [h1]
            exact hseen
        refine ⟨(e'.1, Tally.number (summedQuantity seen e'.1)), (hmem _).2 ⟨h1', rfl⟩, ?_⟩
        by_cases hen : e'.1 = item.product_name
        · simp only [hen, if_true]
          rw [summedQuantity_append, if_pos hen.symm] at h2
          exact Prod.ext hen.symm (by rw [h2, hen])
        · simp only [hen, if_false]
          rw [summedQuantity_append, if_neg (fun h' => hen h'.symm), add_zero] at h2
          exact Prod.ext rfl h2.symm
  | none =>
    have hnot : ∀ e ∈ obj, e.1 ≠ item.product_name := by
      intro e he
      simpa using List.find?_eq_none.1 hfind e he
    have hproto : item.product_name ≠ "__proto__" := by
      intro h
      apply hname
      rw [h]
      decide
    have htally : tallyItem obj item = obj ++ [(item.product_name, .number item.quantity)] := by
      simp only [tallyItem, ownProperty, hfind, Option.map_none', hproto, if_false, hname]
    have hunseen : item.product_name ∉ seen.map fun i => i.product_name := by
      intro hin
      exact hnot _ ((hmem (item.product_name,
        Tally.number (summedQuantity seen item.product_name))).2 ⟨hin, rfl⟩) rfl
    rw [htally]
    refine ⟨?_, ?_⟩
    · rw [List.map_append, List.nodup_append]
      refine ⟨hnodup, List.nodup_singleton _, ?_⟩
      intro x hx hx2
      obtain ⟨e, he, rfl⟩ := List.mem_map.1 hx
      simp only [List.map_cons, List.map_nil, List.mem_singleton] at hx2
      exact hnot e he hx2
    · intro e'
      rw [List.mem_append, List.mem_singleton]
      constructor
      · rintro (he | rfl)
        · obtain ⟨h1, h2⟩ := (hmem e').1 he
          refine ⟨by simp [h1], ?_⟩
          rw [summedQuantity_append, if_neg (fun h' => hnot e' he h'.symm), add_zero]
          exact h2
        · refine ⟨by simp, ?_⟩
          rw [summedQuantity_append, if_pos rfl, summedQuantity_of_not_mem seen _ hunseen,
            zero_add]
      · rintro ⟨h1, h2⟩
        simp only [List.map_append, List.map_cons, List.map_nil, List.mem_append,
          List.mem_singleton] at h1
        by_cases hen : e'.1 = item.product_name
        · right
          rw [summedQuantity_append, if_pos hen.symm, hen,
            summedQuantity_of_not_mem seen _ hunseen, zero_add] at h2
          exact Prod.ext hen h2
        · left
          rcases h1 with h1 | h1
          · rw [summedQuantity_append, if_neg (fun h' => hen h'.symm), add_zero] at h2
            exact (hmem e').2 ⟨h1, h2⟩
          · exact absurd h1 hen

theorem Tallied.foldl (items : List SoldItem)
    (hnames : ∀ item ∈ items, item.product_name ∉ objectPrototypeKeys) :
    ∀ (seen : List SoldItem) (obj : List (String × Tally)), Tallied seen obj →
      Tallied (seen ++ items) (items.foldl tallyItem obj) := by
  induction items with
  | nil =>
    intro seen obj h
    simpa using h
  | cons item rest ih =>
    intro seen obj h
    have := ih (fun i hi => hnames i (List.mem_cons_of_mem _ hi)) (seen ++ [item]) _
      (h.step item (hnames item (List.mem_cons_self _ _)))
    simpa using this

theorem productSales_tallied (items : List SoldItem)
    (hnames : ∀ item ∈ items, item.product_name ∉ objectPrototypeKeys) :
    Tallied items (productSales items) := by
  have h0 : Tallied [] [] := ⟨List.nodup_nil, fun e => by simp⟩
  have := Tallied.foldl items hnames [] [] h0
  simpa [productSales] using this

theorem objectEntries_perm (obj : List (String × Tally)) : (objectEntries obj).Perm obj := by
  unfold objectEntries
  exact ((List.perm_insertionSort _ _).append_right _).trans (List.filter_append_perm _ obj)

theorem totalItemsSold_eq_sum (items : List SoldItem) :
    totalItemsSold items = (items.map fun item => item.quantity).sum := by
  have h : ∀ (acc : Int) (l : List SoldItem),
      l.foldl (fun total item => total + item.quantity) acc =
        acc + (l.map fun item => item.quantity).sum := by
    intro acc l
    induction l generalizing acc with
    | nil => simp
    | cons a rest ih => simp [ih, add_assoc]
  simp [totalItemsSold, h]

theorem insertionSort_keepsOrder_pairwise (entries : List (String × Tally)) (q : String → Int)
    (hq : ∀ e ∈ entries, e.2 = .number (q e.1)) :
    (entries.insertionSort fun a b => keepsOrder a b = true).Pairwise
      fun a b => q b.1 ≤ q a.1 := by
  have hl : ∀ a ∈ entries, ∀ b ∈ entries,
      (keepsOrder a b = true ↔ q a.1 ≥ q b.1) := by
    intro a ha b hb
    simp only [keepsOrder, byQuantity, hq a ha, hq b hb, decide_eq_true_eq]
    omega
  have hmap := List.map_insertionSort (r := fun a b => keepsOrder a b = true)
    (s := fun x y : Int => x ≥ y) (fun e : String × Tally => q e.1) entries hl
  have hsorted := List.sorted_insertionSort (fun x y : Int => x ≥ y)
    (entries.map fun e => q e.1)
  rw [← hmap] at hsorted
  exact List.pairwise_map.1 hsorted

/-- C26, at its failing input: a day on which 2 units of a product named
"constructor" were sold.  `productSales["constructor"]` reads the function every
object inherits under that name, so the tally stored is text, not the sum 2, and
`topProducts` lists the product with that text as its quantity; a product named
"__proto__" is never listed, whatever its quantity.  For items none of whose
names is inherited from `Object.prototype`, `topProducts` has min(5, number of
distinct names) entries with pairwise distinct names, each with the summed
quantity of its name, in non-increasing order of quantity, and no name left out
has a larger summed quantity than a listed one; `totalItemsSold` is the sum of
all quantities for every list. -/
theorem top_products_tally :
    topProducts [⟨"constructor", 2⟩] = [("constructor", .text)] ∧
    summedQuantity [⟨"constructor", 2⟩] "constructor" = 2 ∧
    topProducts [⟨"Cafe", 2⟩, ⟨"__proto__", 4⟩, ⟨"Cafe", 1⟩] = [("Cafe", .number 3)] ∧
    topProducts [⟨"Te", 1⟩, ⟨"Cafe", 2⟩, ⟨"Te", 1⟩, ⟨"Cafe", 1⟩, ⟨"7", 2⟩] =
      [("Cafe", .number 3), ("7", .number 2), ("Te", .number 2)] ∧
    (∀ items : List SoldItem, (∀ item ∈ items, item.product_name ∉ objectPrototypeKeys) →
      (topProducts items).length =
        min 5 (items.map fun item => item.product_name).dedup.length ∧
      ((topProducts items).map fun e => e.1).Nodup ∧
      (∀ e ∈ topProducts items, e.1 ∈ items.map (fun item => item.product_name) ∧
        e.2 = .number (summedQuantity items e.1)) ∧
      (topProducts items).Pairwise
        (fun a b => summedQuantity items b.1 ≤ summedQuantity items a.1) ∧
      (∀ name ∈ items.map (fun item => item.product_name),
        name ∉ (topProducts items).map (fun e => e.1) →
        ∀ e ∈ topProducts items, summedQuantity items name ≤ summedQuantity items e.1)) ∧
    ∀ items : List SoldItem,
      totalItemsSold items = (items.map fun item => item.quantity).sum := by
  refine ⟨by decide!, by decide!, by decide!, by decide!, ?_, totalItemsSold_eq_sum⟩
  intro items hnames
  obtain ⟨hnodup, hmem⟩ := productSales_tallied items hnames
  have hperm : ((objectEntries (productSales items)).insertionSort
      fun a b => keepsOrder a b = true).Perm (productSales items) :=
    (List.perm_insertionSort _ _).trans (objectEntries_perm _)
  have hq : ∀ e ∈ objectEntries (productSales items),
      e.2 = .number (summedQuantity items e.1) :=
    fun e he => ((hmem e).1 ((objectEntries_perm _).mem_iff.1 he)).2
  have hpair := insertionSort_keepsOrder_pairwise (objectEntries (productSales items))
    (summedQuantity items) hq
  have hsub : (topProducts items).Sublist ((objectEntries (productSales items)).insertionSort
      fun a b => keepsOrder a b = true) := List.take_sublist _ _
  have hin : ∀ e ∈ topProducts items, e ∈ productSales items :=
    fun e he => hperm.mem_iff.1 (hsub.subset he)
  refine ⟨?_, ?_, ?_, hpair.sublist hsub, ?_⟩
  · have hkeys : ((productSales items).map fun e => e.1).Perm
        (items.map fun item => item.product_name).dedup := by
      rw [List.perm_ext_iff_of_nodup hnodup (List.nodup_dedup _)]
      intro name
      rw [List.mem_dedup, List.mem_map]
      constructor
      · rintro ⟨e, he, rfl⟩
        exact ((hmem e).1 he).1
      · intro hname
        exact ⟨(name, .number (summedQuantity items name)), (hmem _).2 ⟨hname, rfl⟩, rfl⟩
    rw [topProducts, List.length_take, hperm.length_eq, ← hkeys.length_eq, List.length_map]
  · exact ((hperm.map _).nodup_iff.2 hnodup).sublist (hsub.map _)
  · exact fun e he => (hmem e).1 (hin e he)
  · intro name hname hout e he
    have hentry : (name, Tally.number (summedQuantity items name)) ∈
        (objectEntries (productSales items)).insertionSort fun a b => keepsOrder a b = true :=
      hperm.mem_iff.2 ((hmem _).2 ⟨hname, rfl⟩)
    rw [← List.take_append_drop 5 ((objectEntries (productSales items)).insertionSort
      fun a b => keepsOrder a b = true)] at hentry hpair
    rcases List.mem_append.1 hentry with h | h
    · exact absurd (List.mem_map.2 ⟨_, h, rfl⟩) hout
    · exact (List.pairwise_append.1 hpair).2.2 e he _ h

/-! ## Tabs offered and screens rendered -/

/-- C28 fails as stated for a role other than `admin` and `cashier`: to a user
of role "manager" `MainLayout` offers no tab at all, while `App` renders the
point-of-sale screen (the tab active after login) and the history screen. -/
theorem tabs_unknown_role :
    offeredTabs "manager" = [] ∧ renderedScreens "pos" "manager" = ["pos"] ∧
      renderedScreens "history" "manager" = ["history"] := by
  refine ⟨by decide, by decide, by decide⟩

/-- C28, as the code has it: for the roles `admin` and `cashier` the tabs
`MainLayout` offers are exactly the tabs whose screen `App` renders when they are
active (all nine for `admin`, `pos` and `history` for `cashier`); for every other
role `MainLayout` offers none and `App` renders `pos` and `history`; and for
every role other than `admin` and every `activeTab`, `App` renders no screen
other than `pos` and `history`. -/
theorem tabs_match_screens :
    (∀ tab : String, tab ∈ offeredTabs "admin" ↔ tab ∈ renderedScreens tab "admin") ∧
    (∀ tab : String, tab ∈ offeredTabs "cashier" ↔ tab ∈ renderedScreens tab "cashier") ∧
    offeredTabs "admin" =
      ["pos", "history", "returns", "admin", "summary", "customers", "inventory", "users",
        "roles"] ∧
    offeredTabs "cashier" = ["pos", "history"] ∧
    (∀ role : String, role ≠ "admin" → role ≠ "cashier" →
      offeredTabs role = [] ∧
      ∀ tab : String, tab ∈ renderedScreens tab role ↔ tab = "pos" ∨ tab = "history") ∧
    (∀ role activeTab : String, role ≠ "admin" →
      ∀ screen ∈ renderedScreens activeTab role, screen = "pos" ∨ screen = "history") := by
  have hadmin : offeredTabs "admin" =
      ["pos", "history", "returns", "admin", "summary", "customers", "inventory", "users",
        "roles"] := by decide
  have hcashier : offeredTabs "cashier" = ["pos", "history"] := by decide
  refine ⟨?_, ?_, hadmin, hcashier, ?_, ?_⟩
  · intro tab
    rw [hadmin]
    simp only [renderedScreens, and_true]
    constructor
    · intro h
      simp only [List.mem_cons, List.mem_singleton, List.not_mem_nil, or_false] at h
      rcases h with h | h | h | h | h | h | h | h | h <;> subst h <;> decide
    · intro h
      simp only [List.mem_append] at h
      rcases h with (((((((h | h) | h) | h) | h) | h) | h) | h) | h <;>
        (split at h <;> simp_all)
  · intro tab
    rw [hcashier]
    simp only [renderedScreens]
    constructor
    · intro h
      simp only [List.mem_cons, List.mem_singleton, List.not_mem_nil, or_false] at h
      rcases h with h | h <;> subst h <;> decide
    · intro h
      simp only [List.mem_append] at h
      rcases h with (((((((h | h) | h) | h) | h) | h) | h) | h) | h <;>
        (split at h <;> simp_all)
  · intro role h1 h2
    refine ⟨?_, ?_⟩
    · simp [offeredTabs, mainTabs, List.filter_cons, h1, h2]
    · intro tab
      simp only [renderedScreens, h1, and_false, if_false, List.append_nil]
      constructor
      · intro h
        rcases List.mem_append.1 h with h | h <;> (split at h <;> simp_all)
      · rintro (h | h) <;> subst h <;> decide
  · intro role activeTab h1 screen h
    simp only [renderedScreens, h1, and_false, if_false, List.append_nil] at h
    rcases List.mem_append.1 h with h | h <;> (split at h <;> simp_all)

/-! ## User names stay distinct -/

theorem validateUsername_eq_empty (users : List UserRow) (username : String)
    (currentUserId : Option Nat) :
    validateUsername users username currentUserId = "" ↔
      username ≠ "" ∧ ∀ user ∈ users, some user.id ≠ currentUserId → user.username ≠ username := by
  unfold validateUsername
  by_cases h : username = ""
  · simp [h]
  · simp only [h, if_false, ne_eq, not_false_eq_true, true_and]
    by_cases hd : (users.any fun user =>
        user.username = username ∧ some user.id ≠ currentUserId) = true
    · simp only [hd, if_true]
      constructor
      · intro h'
        exact absurd h' (by decide)
      · intro hall
        exfalso
        obtain ⟨u, hu, hcond⟩ := List.any_eq_true.1 hd
        simp only [ne_eq, decide_eq_true_eq] at hcond
        exact hall u hu hcond.2 hcond.1
    · simp only [hd, Bool.false_eq_true, if_false, true_iff]
      intro u hu hid hname
      apply hd
      exact List.any_eq_true.2 ⟨u, hu, by simp [hname, hid]⟩

theorem utf16Length_eq_length (s : String) (h : ∀ c ∈ s.toList, c.toNat < 65536) :
    utf16Length s = s.length := by
  have key : ∀ (l : List Char) (n : Nat), (∀ c ∈ l, c.toNat < 65536) →
      l.foldl (fun n c => n + if c.toNat < 65536 then 1 else 2) n = n + l.length := by
    intro l
    induction l with
    | nil => intro n _; simp
    | cons c rest ih =>
      intro n hl
      rw [List.foldl_cons, if_pos (hl c (List.mem_cons_self _ _)),
        ih _ (fun x hx => hl x (List.mem_cons_of_mem _ hx)), List.length_cons]
      omega
  rw [utf16Length, key s.toList 0 h, Nat.zero_add]
  cases s
  rfl

theorem validatePassword_eq_empty (password : String) :
    validatePassword password = "" ↔ 6 ≤ utf16Length password := by
  unfold validatePassword
  by_cases h : utf16Length password < 6
  · simp only [h, if_true]
    constructor
    · intro h'
      exact absurd h' (by decide)
    · intro h'
      omega
  · simp only [h, if_false, true_iff]
    omega

theorem answerWritten_answers (table : List UserRow) (nextId : Nat) (c : UsersCall) :
    (answerWritten table nextId c).answers c := by
  cases c with
  | insert sent => exact ⟨rfl, rfl, rfl, rfl⟩
  | update id username name role =>
    cases id with
    | none => trivial
    | some id =>
      simp only [answerWritten]
      split
      · rename_i old hold
        have hmem : old ∈ table.filter fun u => u.id = id := by
          rw [hold]
          exact List.mem_singleton_self old
        have hid : old.id = id := by simpa using (List.mem_filter.1 hmem).2
        exact ⟨by simp [hid], rfl, rfl, rfl⟩
      · trivial

/-- C29: `validateUsername` returns the empty string exactly when the name is not
empty and no listed user with another id has it; `validatePassword` returns the
empty string exactly when the password has at least 6 characters, counted as the
`length` of the string counts them (UTF-16 units, which for text of the basic
plane is the number of characters).  `handleAddUserSubmit` and `handleSaveEdit`
issue at most one write, with a user name that is not empty and that no other
listed user has; and when the store answers with the row written, a list of
users with pairwise distinct ids and pairwise distinct user names has pairwise
distinct user names afterwards.  With the users "ana" and "luis" listed: adding
"eva" gives the three names, adding "ana" or a password of 5 characters issues no
write; renaming "luis" to "lucho" gives "ana" and "lucho", renaming to "ana" issues
no write. -/
theorem usernames_stay_distinct :
    (∀ (users : List UserRow) (username : String) (currentUserId : Option Nat),
      validateUsername users username currentUserId = "" ↔
        username ≠ "" ∧
          ∀ user ∈ users, some user.id ≠ currentUserId → user.username ≠ username) ∧
    (∀ password : String,
      (validatePassword password = "" ↔ 6 ≤ utf16Length password) ∧
      ((∀ c ∈ password.toList, c.toNat < 65536) →
        (validatePassword password = "" ↔ 6 ≤ password.length))) ∧
    (∀ (st : UsersState) (store : UsersCall → UsersResponse),
      ((handleAddUserSubmit st store).2 = [] ∨
        (handleAddUserSubmit st store).2 = [.insert st.newUser] ∧
          st.newUser.username ≠ "" ∧ 6 ≤ utf16Length st.newUser.password ∧
          ∀ user ∈ st.users, user.username ≠ st.newUser.username) ∧
      ((UserManagement.handleSaveEdit st store).2 = [] ∨
        (UserManagement.handleSaveEdit st store).2 =
            [.update st.editedUser.id st.editedUser.username st.editedUser.name
              st.editedUser.role] ∧
          st.editedUser.username ≠ "" ∧
          ∀ user ∈ st.users, some user.id ≠ st.editedUser.id →
            user.username ≠ st.editedUser.username)) ∧
    (∀ (st : UsersState) (store : UsersCall → UsersResponse),
      (∀ c, (store c).answers c) →
      (st.users.map fun u => u.username).Nodup →
      ((handleAddUserSubmit st store).1.users.map fun u => u.username).Nodup ∧
      ((st.users.map fun u => u.id).Nodup →
        ((UserManagement.handleSaveEdit st store).1.users.map fun u => u.username).Nodup)) ∧
    (∀ c, (answerWritten (sampleUsers "eva" "secret1" "lucho").users 3 c).answers c) ∧
    ((handleAddUserSubmit (sampleUsers "eva" "secret1" "lucho")
        (answerWritten (sampleUsers "eva" "secret1" "lucho").users 3)).1.users.map
      fun u => u.username) = ["ana", "luis", "eva"] ∧
    (handleAddUserSubmit (sampleUsers "ana" "secret1" "lucho")
        (answerWritten (sampleUsers "ana" "secret1" "lucho").users 3)).2 = [] ∧
    (handleAddUserSubmit (sampleUsers "ana" "secret1" "lucho")
        (answerWritten (sampleUsers "ana" "secret1" "lucho").users 3)).1.usernameError =
      "Este nombre de usuario ya existe." ∧
    (handleAddUserSubmit (sampleUsers "eva" "12345" "lucho")
        (answerWritten (sampleUsers "eva" "12345" "lucho").users 3)).2 = [] ∧
    ((UserManagement.handleSaveEdit (sampleUsers "eva" "secret1" "lucho")
        (answerWritten (sampleUsers "eva" "secret1" "lucho").users 3)).1.users.map
      fun u => u.username) = ["ana", "lucho"] ∧
    (UserManagement.handleSaveEdit (sampleUsers "eva" "secret1" "ana")
        (answerWritten (sampleUsers "eva" "secret1" "ana").users 3)).2 = [] := by
  refine ⟨validateUsername_eq_empty, ?_, ?_, ?_, answerWritten_answers _ _, by decide!,
    by decide!, by decide!, by decide!, by decide!, by decide!⟩
  · intro password
    refine ⟨validatePassword_eq_empty password, fun h => ?_⟩
    rw [validatePassword_eq_empty, utf16Length_eq_length password h]
  · intro st store
    refine ⟨?_, ?_⟩
    · unfold handleAddUserSubmit
      simp only
      split
      · exact Or.inl rfl
      · rename_i hval
        simp only [not_or, ne_eq, not_not] at hval
        have hu := (validateUsername_eq_empty _ _ _).1 hval.2
        have hp := (validatePassword_eq_empty _).1 hval.1
        split
        · exact Or.inl rfl
        · right
          refine ⟨?_, hu.1, hp, fun user huser => hu.2 user huser (by simp)⟩
          split <;> rfl
    · unfold UserManagement.handleSaveEdit
      simp only
      split
      · exact Or.inl rfl
      · rename_i hval
        simp only [ne_eq, not_not] at hval
        have hu := (validateUsername_eq_empty _ _ _).1 hval
        split
        · exact Or.inl rfl
        · right
          refine ⟨?_, hu.1, hu.2⟩
          split <;> rfl
  · intro st store hstore hnames
    refine ⟨?_, ?_⟩
    · unfold handleAddUserSubmit
      simp only
      split
      · exact hnames
      · rename_i hval
        simp only [not_or, ne_eq, not_not] at hval
        have hu := (validateUsername_eq_empty _ _ _).1 hval.2
        split
        · exact hnames
        · have hans := hstore (.insert st.newUser)
          split
          · exact hnames
          · rename_i data hresp
            rw [hresp] at hans
            simp only [UsersResponse.answers] at hans
            show (List.map (fun u : UserRow => u.username) (st.users ++ [data])).Nodup
            rw [List.map_append, List.nodup_append]
            refine ⟨hnames, List.nodup_singleton _, ?_⟩
            intro x hx hx2
            obtain ⟨u, huser, rfl⟩ := List.mem_map.1 hx
            simp only [List.map_cons, List.map_nil, List.mem_singleton] at hx2
            exact hu.2 u huser (by simp) (hx2.trans hans.1)
    · intro hids
      unfold UserManagement.handleSaveEdit
      simp only
      split
      · exact hnames
      · rename_i hval
        simp only [ne_eq, not_not] at hval
        have hu := (validateUsername_eq_empty _ _ _).1 hval
        split
        · exact hnames
        · have hans := hstore (.update st.editedUser.id st.editedUser.username
            st.editedUser.name st.editedUser.role)
          split
          · exact hnames
          · rename_i data hresp
            rw [hresp] at hans
            simp only [UsersResponse.answers] at hans
            show (List.map (fun u : UserRow => u.username)
              (st.users.map fun u => if u.id = data.id then data else u)).Nodup
            rw [List.map_map]
            apply List.Nodup.map_on _ (List.Nodup.of_map _ hnames)
            intro u hu' v hv' huv
            simp only [Function.comp] at huv
            by_cases h1 : u.id = data.id <;> by_cases h2 : v.id = data.id
            · exact List.inj_on_of_nodup_map hids hu' hv' (h1.trans h2.symm)
            · simp only [h1, h2, if_true, if_false] at huv
              exfalso
              apply hu.2 v hv' _ (huv.symm.trans hans.2.1)
              rw [← hans.1]
              simpa using h2
            · simp only [h1, h2, if_true, if_false] at huv
              exfalso
              apply hu.2 u hu' _ (huv.trans hans.2.1)
              rw [← hans.1]
              simpa using h1
            · simp only [h1, h2, if_false] at huv
              exact List.inj_on_of_nodup_map hnames hu' hv' huv

/-! ## Toggling a permission -/

theorem ownPermissions_withRole (prev : List (String × List Nat)) (roleName : String)
    (value : List Nat) : ownPermissions (withRole prev roleName value) roleName = some value := by
  unfold withRole ownPermissions
  by_cases h : (prev.any fun e => e.1 = roleName) = true
  · rw [if_pos h]
    induction prev with
    | nil => simp at h
    | cons a rest ih =>
      by_cases ha : a.1 = roleName
      · simp [List.find?_cons, ha]
      · have hrest : (rest.any fun e => e.1 = roleName) = true := by
          simpa [List.any_cons, ha] using h
        simp only [List.map_cons, ha, if_false, List.find?_cons, decide_False]
        exact ih hrest
  · rw [if_neg h]
    have hnone : prev.find? (fun e => e.1 = roleName) = none := by
      rw [List.find?_eq_none]
      intro e he hcond
      exact h (List.any_eq_true.2 ⟨e, he, hcond⟩)
    simp [List.find?_append, hnone]

theorem find?_replace_other (prev : List (String × List Nat)) (roleName : String)
    (value : List Nat) (role : String) (hrole : role ≠ roleName) :
    (prev.map fun e => if e.1 = roleName then (e.1, value) else e).find?
        (fun e => e.1 = role) =
      prev.find? fun e => e.1 = role := by
  induction prev with
  | nil => rfl
  | cons a rest ih =>
    by_cases ha : a.1 = roleName
    · have har : ¬ a.1 = role := fun h => hrole (h.symm.trans ha)
      have har' : ¬ roleName = role := fun h => hrole h.symm
      simp only [List.map_cons, ha, if_true, List.find?_cons, har', decide_False]
      simp only [← ha, har, decide_False]
      rw [ha]
      exact ih
    · by_cases har : a.1 = role
      · simp only [List.map_cons, List.find?_cons]
        rw [if_neg ha]
        simp only [har, decide_True]
      · simp only [List.map_cons, ha, if_false, List.find?_cons, har, decide_False]
        exact ih

theorem ownPermissions_withRole_other (prev : List (String × List Nat)) (roleName : String)
    (value : List Nat) (role : String) (hrole : role ≠ roleName) :
    ownPermissions (withRole prev roleName value) role = ownPermissions prev role := by
  unfold withRole ownPermissions
  split
  · rw [find?_replace_other prev roleName value role hrole]
  · congr 1
    rw [List.find?_append]
    cases prev.find? (fun e => e.1 = role) with
    | some e => rfl
    | none => simp [List.find?_cons, Ne.symm hrole]

/-- For every role-permission map, permission id and role name that has an
entry in the map or is not a name inherited from `Object.prototype`, one
application of `handleTogglePermission` gives a map in which the membership of
that permission id in that role's list is reversed, the membership of every
other id in it is as before, and every other role's list is untouched; a second
application with the same arguments gives the role the same set of permission
ids it had at first; and a list without duplicates stays without duplicates. -/
theorem handleTogglePermission_toggles (prev : List (String × List Nat)) (roleName : String)
    (permissionId : Nat)
    (hname : ownPermissions prev roleName ≠ none ∨ roleName ∉ objectPrototypeKeys) :
    ∃ next, handleTogglePermission prev roleName permissionId = some next ∧
      (permissionId ∈ permissionsOf next roleName ↔
        permissionId ∉ permissionsOf prev roleName) ∧
      (∀ id, id ≠ permissionId →
        (id ∈ permissionsOf next roleName ↔ id ∈ permissionsOf prev roleName)) ∧
      (∀ role, role ≠ roleName → ownPermissions next role = ownPermissions prev role) ∧
      ((permissionsOf prev roleName).Nodup → (permissionsOf next roleName).Nodup) ∧
      ∃ again, handleTogglePermission next roleName permissionId = some again ∧
        (∀ id, id ∈ permissionsOf again roleName ↔ id ∈ permissionsOf prev roleName) ∧
        ∀ role, role ≠ roleName → ownPermissions again role = ownPermissions prev role := by
  have hstep : ∀ m : List (String × List Nat),
      (ownPermissions m roleName ≠ none ∨ roleName ∉ objectPrototypeKeys) →
      handleTogglePermission m roleName permissionId =
        some (if (permissionsOf m roleName).contains permissionId then
          withRole m roleName ((permissionsOf m roleName).filter fun id => id ≠ permissionId)
        else withRole m roleName (permissionsOf m roleName ++ [permissionId])) := by
    intro m hm
    unfold handleTogglePermission permissionsOf
    cases hown : ownPermissions m roleName with
    | some l => rfl
    | none =>
      have hnot : roleName ∉ objectPrototypeKeys := by
        rcases hm with h | h
        · exact absurd hown h
        · exact h
      simp only [hnot, if_false, Option.map_some', Option.getD_none]
  have hperm : ∀ (m : List (String × List Nat)) (v : List Nat),
      permissionsOf (withRole m roleName v) roleName = v := by
    intro m v
    simp [permissionsOf, ownPermissions_withRole]
  have hnext : ∀ m : List (String × List Nat),
      (ownPermissions m roleName ≠ none ∨ roleName ∉ objectPrototypeKeys) →
      ∃ next, handleTogglePermission m roleName permissionId = some next ∧
        ownPermissions next roleName ≠ none ∧
        (permissionId ∈ permissionsOf next roleName ↔ permissionId ∉ permissionsOf m roleName) ∧
        (∀ id, id ≠ permissionId →
          (id ∈ permissionsOf next roleName ↔ id ∈ permissionsOf m roleName)) ∧
        (∀ role, role ≠ roleName → ownPermissions next role = ownPermissions m role) ∧
        ((permissionsOf m roleName).Nodup → (permissionsOf next roleName).Nodup) := by
    intro m hm
    refine ⟨_, hstep m hm, ?_⟩
    by_cases hin : permissionId ∈ permissionsOf m roleName
    · have hc : (permissionsOf m roleName).contains permissionId = true := by simpa using hin
      rw [if_pos hc]
      refine ⟨by simp [ownPermissions_withRole], ?_, ?_, ?_, ?_⟩
      · simp [hperm, hin]
      · intro id hid
        simp [hperm, List.mem_filter, hid]
      · intro role hrole
        exact ownPermissions_withRole_other _ _ _ _ hrole
      · intro hnd
        rw [hperm]
        exact hnd.sublist (List.filter_sublist _)
    · have hc : ¬ (permissionsOf m roleName).contains permissionId = true := by simpa using hin
      rw [if_neg hc]
      refine ⟨by simp [ownPermissions_withRole], ?_, ?_, ?_, ?_⟩
      · simp [hperm, hin]
      · intro id hid
        simp [hperm, hid]
      · intro role hrole
        exact ownPermissions_withRole_other _ _ _ _ hrole
      · intro hnd
        rw [hperm, List.nodup_append]
        refine ⟨hnd, List.nodup_singleton _, ?_⟩
        intro x hx hx2
        rw [List.mem_singleton] at hx2
        exact hin (hx2 ▸ hx)
  obtain ⟨next, h1, hown, h2, h3, h4, h5⟩ := hnext prev hname
  obtain ⟨again, k1, _, k2, k3, k4, _⟩ := hnext next (Or.inl hown)
  refine ⟨next, h1, h2, h3, h4, h5, again, k1, ?_, ?_⟩
  · intro id
    by_cases hid : id = permissionId
    · subst hid
      rw [k2, h2, not_not]
    · rw [k3 id hid, h3 id hid]
  · intro role hrole
    rw [k4 role hrole, h4 role hrole]

/-- C30, at its failing input: for the role name "constructor", which has no
entry in the map, the lookup `prev[roleName]` gives the function inherited from
`Object.prototype`; it is truthy, so the fallback `|| []` is not taken, and it
has no `includes`, so the updater throws and no map results.  The same happens
for every name inherited from `Object.prototype` that has no entry of its own,
in every map.  For every other role name (one with an entry, or one that is not
inherited) the updater does what the claim says: the membership of the
permission id in that role's list is reversed, the other ids and the other roles
are untouched, a second application restores the role's set of ids, and a list
without duplicates stays without duplicates. -/
theorem toggle_inherited_role_name :
    handleTogglePermission [("admin", [1, 2])] "constructor" 3 = none ∧
    handleTogglePermission [("admin", [1, 2])] "nueva" 3 =
      some [("admin", [1, 2]), ("nueva", [3])] ∧
    (∀ (prev : List (String × List Nat)) (roleName : String) (permissionId : Nat),
      ownPermissions prev roleName = none → roleName ∈ objectPrototypeKeys →
      handleTogglePermission prev roleName permissionId = none) ∧
    (∀ (prev : List (String × List Nat)) (roleName : String) (permissionId : Nat),
      ownPermissions prev roleName ≠ none ∨ roleName ∉ objectPrototypeKeys →
      ∃ next, handleTogglePermission prev roleName permissionId = some next ∧
        (permissionId ∈ permissionsOf next roleName ↔
          permissionId ∉ permissionsOf prev roleName) ∧
        (∀ id, id ≠ permissionId →
          (id ∈ permissionsOf next roleName ↔ id ∈ permissionsOf prev roleName)) ∧
        (∀ role, role ≠ roleName → ownPermissions next role = ownPermissions prev role) ∧
        ((permissionsOf prev roleName).Nodup → (permissionsOf next roleName).Nodup) ∧
        ∃ again, handleTogglePermission next roleName permissionId = some again ∧
          (∀ id, id ∈ permissionsOf again roleName ↔ id ∈ permissionsOf prev roleName) ∧
          ∀ role, role ≠ roleName → ownPermissions again role = ownPermissions prev role) := by
  refine ⟨by decide!, by decide!, ?_, handleTogglePermission_toggles⟩
  intro prev roleName permissionId hown hkey
  simp [handleTogglePermission, hown, hkey]

end Projecto
